import Mathlib

/-!
Verification of the color-matching core in `src/scan/match.cpp` (squidcuber).

The C++ code is shallowly embedded: the `Options` template class becomes the
`Options` structure (the active prefix `opts[0..rem)` is kept as a list, so
`rem = opts.length`), the `CubieBuilder` template becomes `CubieBuilder`
(parametrised by the group `Params`), and `match_colors` becomes a pure
function over an explicit `MatchState`.  Machine ints are `Int`/`Nat` (no
overflow is reachable: all quantities stay tiny), bitsets are `Nat` masks,
and the two unbounded C++ loops (`propagate`'s `while (change)` loop and the
driver's heap loop) take explicit fuel, returning `none` on exhaustion.
-/

set_option maxRecDepth 1000000
set_option maxHeartbeats 4000000

namespace Squid

/-- `namespace color` constants from match.cpp. -/
def colorCOUNT : Nat := 6

/-- `color::CORNERS`: the sticker colors of the 8 corner pieces. -/
def CORNERS : List (List Nat) :=
  [[0, 1, 2], [0, 2, 4], [0, 4, 5], [0, 5, 1],
   [3, 2, 1], [3, 4, 2], [3, 5, 4], [3, 1, 5]]

/-- `color::EDGES`: the sticker colors of the 12 edge pieces. -/
def EDGES : List (List Nat) :=
  [[0, 1], [0, 2], [0, 4], [0, 5],
   [3, 1], [3, 2], [3, 4], [3, 5],
   [2, 1], [2, 4], [5, 4], [5, 1]]

/-- `color::CHARS`. -/
def CHARS : List Char := ['U', 'R', 'F', 'D', 'L', 'B']

/-- `cubie::FROM_FACELET`: facelet -> cubie slot (-1 at centers).
Corner names: URF=0 UFL=1 ULB=2 UBR=3 DFR=4 DLF=5 DBL=6 DRB=7.
Edge names: UR=0 UF=1 UL=2 UB=3 DR=4 DF=5 DL=6 DB=7 FR=8 FL=9 BL=10 BR=11. -/
def FROM_FACELET : List Int :=
  [2, 3, 3, 2, -1, 0, 1, 1, 0,
   0, 0, 3, 8, -1, 11, 4, 4, 7,
   1, 1, 0, 9, -1, 8, 5, 5, 4,
   5, 5, 4, 6, -1, 4, 6, 7, 7,
   2, 2, 1, 10, -1, 9, 6, 6, 5,
   3, 3, 2, 11, -1, 10, 7, 7, 6]

/-- `FACELET_TO_POS`: facelet -> sticker position on its cubie (-1 at centers). -/
def FACELET_TO_POS : List Int :=
  [0, 0, 0, 0, -1, 0, 0, 0, 0,
   1, 1, 2, 1, -1, 1, 2, 1, 1,
   1, 1, 2, 0, -1, 0, 2, 1, 1,
   0, 0, 0, 0, -1, 0, 0, 0, 0,
   1, 1, 2, 1, -1, 1, 2, 1, 1,
   1, 1, 2, 0, -1, 0, 2, 1, 1]

/-- One entry of the `Opt` struct inside `Options`. -/
structure Opt where
  cols : List Nat
  colset : Nat
  ori : Nat
  cubie : Nat
deriving Repr, DecidableEq, Inhabited

/-- The `Options` class: the option set of a single cubie slot.  `opts` is the
active prefix `opts[0..rem)` of the C++ array, so `rem = opts.length`. -/
structure Options where
  opts : List Opt
  error : Bool
  colset : Nat
  ori : Int
  cubie : Int
deriving Repr, DecidableEq, Inhabited

/-- `Options::update`: recompute summary fields after a reduction. -/
def Options.update (o : Options) : Options :=
  match o.opts with
  | [] => { o with error := true }
  | first :: rest =>
    let colset := rest.foldl (fun acc opt => acc &&& opt.colset) first.colset
    let ori : Int :=
      if o.ori = -1 then
        if rest.all (fun opt => opt.ori = first.ori) then (first.ori : Int) else -1
      else o.ori
    let cubie : Int :=
      if o.cubie = -1 then
        if rest.all (fun opt => opt.cubie = first.cubie) then (first.cubie : Int) else -1
      else o.cubie
    { o with colset := colset, ori := ori, cubie := cubie }

/-- `Options::init` for a group described by `cubiecols` (with `n_oris`
sticker positions per cubie). -/
def Options.init (cubiecols : List (List Nat)) (n_oris : Nat) : Options :=
  let n_cubies := cubiecols.length
  let opts := ((List.range n_cubies).map (fun cubie =>
    (List.range n_oris).map (fun ori =>
      let base := cubiecols.getD cubie []
      let cols := (List.range n_oris).map (fun j => base.getD ((j + ori) % n_oris) 0)
      ({ cols := cols,
         colset := cols.foldl (fun acc c => acc ||| (1 <<< c)) 0,
         ori := ori, cubie := cubie } : Opt)))).flatten
  { opts := opts, error := false, colset := 0, ori := -1, cubie := -1 }

/-- Shared shape of the five reductions: filter the active prefix in place and
run `update` iff the reduction removed at least one option. -/
def Options.reduce (o : Options) (keep : Opt → Bool) : Options :=
  let kept := o.opts.filter keep
  if kept.length = o.opts.length then o else Options.update { o with opts := kept }

/-- `Options::has_poscol`. -/
def Options.has_poscol (o : Options) (pos col : Nat) : Options :=
  o.reduce (fun opt => opt.cols.getD pos 0 = col)

/-- `Options::hasnot_col`. -/
def Options.hasnot_col (o : Options) (col : Nat) : Options :=
  o.reduce (fun opt => opt.colset &&& (1 <<< col) = 0)

/-- `Options::has_ori`. -/
def Options.has_ori (o : Options) (ori : Nat) : Options :=
  o.reduce (fun opt => opt.ori = ori)

/-- `Options::is_cubie`. -/
def Options.is_cubie (o : Options) (cubie : Nat) : Options :=
  o.reduce (fun opt => opt.cubie = cubie)

/-- `Options::isnot_cubie`. -/
def Options.isnot_cubie (o : Options) (cubie : Nat) : Options :=
  o.reduce (fun opt => opt.cubie ≠ cubie)

/-- The template parameters of `CubieBuilder<n_cubies, n_oris, cubiecols>`. -/
structure Params where
  n_oris : Nat
  cubiecols : List (List Nat)
deriving Repr, DecidableEq

def Params.n_cubies (p : Params) : Nat := p.cubiecols.length

/-- `CornersBuilder` instantiation. -/
def cornerParams : Params := ⟨3, CORNERS⟩

/-- `EdgesBuilder` instantiation. -/
def edgeParams : Params := ⟨2, EDGES⟩

/-- The `CubieBuilder` class state. -/
structure CubieBuilder where
  colcounts : List Int
  colsets : List Nat
  oris : List Int
  perm : List Int
  par : Int
  opts : List Options
  invcnt : Nat
  orisum : Nat
  aperm : Nat
  aoris : Nat
deriving Repr, DecidableEq, Inhabited

/-- `CubieBuilder::init`. -/
def CubieBuilder.init (p : Params) : CubieBuilder :=
  { colcounts := List.replicate colorCOUNT 4,
    colsets := List.replicate p.n_cubies 0,
    oris := List.replicate p.n_cubies (-1),
    perm := List.replicate p.n_cubies (-1),
    par := -1,
    opts := List.replicate p.n_cubies (Options.init p.cubiecols p.n_oris),
    invcnt := 0, orisum := 0, aperm := 0, aoris := 0 }

/-- `CubieBuilder::assign_col`. -/
def CubieBuilder.assign_col (b : CubieBuilder) (cubie pos col : Nat) : CubieBuilder :=
  { b with opts := b.opts.set cubie ((b.opts.getD cubie default).has_poscol pos col) }

/-- `CubieBuilder::assign_par`. -/
def CubieBuilder.assign_par (b : CubieBuilder) (par : Int) : CubieBuilder :=
  { b with par := par }

/-- `CubieBuilder::assign_ori`. -/
def CubieBuilder.assign_ori (b : CubieBuilder) (i : Nat) : Bool × CubieBuilder :=
  let oriI : Int := (b.opts.getD i default).ori
  if oriI = -1 ∨ b.oris.getD i 0 ≠ -1 then (false, b)
  else
    (true, { b with oris := b.oris.set i oriI,
                    orisum := b.orisum + oriI.toNat,
                    aoris := b.aoris + 1 })

/-- `CubieBuilder::assign_cubie`. -/
def CubieBuilder.assign_cubie (p : Params) (b : CubieBuilder) (i : Nat) : Bool × CubieBuilder :=
  let cubieI : Int := (b.opts.getD i default).cubie
  if cubieI = -1 ∨ b.perm.getD i 0 ≠ -1 then (false, b)
  else
    let cubie : Nat := cubieI.toNat
    let preds := ((b.perm.take i).filter
      (fun x => decide (x ≠ -1) && decide (x > cubieI))).length
    let succs := ((b.perm.drop (i + 1)).filter
      (fun x => decide (x ≠ -1) && decide (x < cubieI))).length
    let invcnt1 := b.invcnt + preds + succs
    let aperm1 := b.aperm + 1
    let par1 : Int := if aperm1 = p.n_cubies then ((invcnt1 % 2 : Nat) : Int) else b.par
    let opts1 := (List.range p.n_cubies).map (fun j =>
      if j = i then b.opts.getD j default else (b.opts.getD j default).isnot_cubie cubie)
    (true, { b with perm := b.perm.set i cubieI, invcnt := invcnt1,
                    aperm := aperm1, par := par1, opts := opts1 })

/-- Inner loop of the color-count bookkeeping: when `colcounts[col]` hits 0,
every slot whose colset lacks `col` gets `hasnot_col(col)` and `change` is set. -/
def CubieBuilder.pruneCol (p : Params) (b : CubieBuilder) (col : Nat) (change : Bool) :
    CubieBuilder × Bool :=
  (List.range p.n_cubies).foldl
    (fun acc i =>
      if (acc.1.opts.getD i default).colset &&& (1 <<< col) = 0 then
        ({ acc.1 with opts := acc.1.opts.set i ((acc.1.opts.getD i default).hasnot_col col) },
         true)
      else acc)
    (b, change)

/-- Per-slot colset diff registration and color-count bookkeeping
(lines 350-365 of match.cpp). -/
def CubieBuilder.regDiffs (p : Params) (b : CubieBuilder) (i : Nat) (change : Bool) :
    CubieBuilder × Bool :=
  let diff := (b.opts.getD i default).colset ^^^ b.colsets.getD i 0
  let b1 := { b with colsets := b.colsets.set i (b.colsets.getD i 0 ||| diff) }
  (List.range colorCOUNT).foldl
    (fun acc col =>
      if diff &&& (1 <<< col) = 0 then acc
      else
        let cc := acc.1.colcounts.getD col 0 - 1
        let b2 := { acc.1 with colcounts := acc.1.colcounts.set col cc }
        if cc = 0 then CubieBuilder.pruneCol p b2 col acc.2 else (b2, acc.2))
    (b1, change)

/-- The per-slot body of `pruneCol`, named so the fold lemmas below can state
facts about partial folds. -/
def pcStep (col : Nat) (acc : CubieBuilder × Bool) (i : Nat) : CubieBuilder × Bool :=
  if (acc.1.opts.getD i default).colset &&& (1 <<< col) = 0 then
    ({ acc.1 with opts := acc.1.opts.set i ((acc.1.opts.getD i default).hasnot_col col) },
     true)
  else acc

/-- The per-color body of `regDiffs`, named so the fold lemmas below can state
facts about partial folds. -/
def rdStep (p : Params) (diff : Nat) (acc : CubieBuilder × Bool) (col : Nat) :
    CubieBuilder × Bool :=
  if diff &&& (1 <<< col) = 0 then acc
  else
    let cc := acc.1.colcounts.getD col 0 - 1
    let b2 := { acc.1 with colcounts := acc.1.colcounts.set col cc }
    if cc = 0 then CubieBuilder.pruneCol p b2 col acc.2 else (b2, acc.2)

/-- Equality of all builder fields untouched by diff registration and
pruning: the deduction bookkeeping and the option-independent state. -/
def bookEq (b b' : CubieBuilder) : Prop :=
  b'.oris = b.oris ∧ b'.perm = b.perm ∧ b'.par = b.par ∧ b'.invcnt = b.invcnt ∧
  b'.orisum = b.orisum ∧ b'.aperm = b.aperm ∧ b'.aoris = b.aoris

/-- A corner-group state with an unregistered pending diff reachable mid-run:
slot 1 is certain to be URF but not yet committed to `perm`, slot 2 can only
be URF, and slots 3-7 are fixed to the five bottom corners. Used to probe
`propagate` around its mid-pass error return. -/
def c7state : CubieBuilder :=
  { colcounts := [4, 4, 4, 4, 3, 4],
    colsets := [5, 7, 7, 35, 14, 28, 56, 42],
    oris := [0, 0, 0, 0, 0, 0, 0, 0],
    perm := [-1, -1, -1, 3, 4, 5, 6, 7],
    par := -1,
    opts :=
      [{ opts := [{ cols := [0, 1, 2], colset := 7, ori := 0, cubie := 0 },
                  { cols := [0, 2, 4], colset := 21, ori := 0, cubie := 1 }],
         error := false, colset := 5, ori := 0, cubie := -1 },
       { opts := [{ cols := [0, 1, 2], colset := 7, ori := 0, cubie := 0 }],
         error := false, colset := 7, ori := 0, cubie := 0 },
       { opts := [{ cols := [0, 1, 2], colset := 7, ori := 0, cubie := 0 },
                  { cols := [1, 2, 0], colset := 7, ori := 1, cubie := 0 }],
         error := false, colset := 7, ori := -1, cubie := 0 },
       { opts := [{ cols := [0, 5, 1], colset := 35, ori := 0, cubie := 3 }],
         error := false, colset := 35, ori := 0, cubie := 3 },
       { opts := [{ cols := [3, 2, 1], colset := 14, ori := 0, cubie := 4 }],
         error := false, colset := 14, ori := 0, cubie := 4 },
       { opts := [{ cols := [3, 4, 2], colset := 28, ori := 0, cubie := 5 }],
         error := false, colset := 28, ori := 0, cubie := 5 },
       { opts := [{ cols := [3, 5, 4], colset := 56, ori := 0, cubie := 6 }],
         error := false, colset := 56, ori := 0, cubie := 6 },
       { opts := [{ cols := [3, 1, 5], colset := 42, ori := 0, cubie := 7 }],
         error := false, colset := 42, ori := 0, cubie := 7 }],
    invcnt := 0, orisum := 0, aperm := 5, aoris := 8 }

/-- Body of one slot iteration of a propagation pass; `Sum.inl` is the
mid-pass `return false` on a slot in error. -/
def CubieBuilder.slotStep (p : Params) (b : CubieBuilder) (i : Nat) (change : Bool) :
    Sum CubieBuilder (CubieBuilder × Bool) :=
  if (b.opts.getD i default).error then Sum.inl b
  else
    let s1 := CubieBuilder.regDiffs p b i change
    let s2 := CubieBuilder.assign_ori s1.1 i
    let s3 := CubieBuilder.assign_cubie p s2.2 i
    Sum.inr (s3.2, s1.2 || s2.1 || s3.1)

/-- The per-pass loop over all slots in canonical order. -/
def CubieBuilder.runSlots (p : Params) :
    List Nat → CubieBuilder → Bool → Sum CubieBuilder (CubieBuilder × Bool)
  | [], b, ch => Sum.inr (b, ch)
  | i :: rest, b, ch =>
    match CubieBuilder.slotStep p b i ch with
    | Sum.inl berr => Sum.inl berr
    | Sum.inr s => CubieBuilder.runSlots p rest s.1 s.2

/-- Closure rule: figure out last ori by parity (lines 372-382). -/
def CubieBuilder.oriRule (p : Params) (b : CubieBuilder) (change : Bool) :
    CubieBuilder × Bool :=
  if b.aoris = p.n_cubies - 1 then
    let lastori := (p.n_oris - b.orisum % p.n_oris) % p.n_oris
    let i := b.oris.findIdx (· == (-1 : Int))
    ({ b with opts := b.opts.set i ((b.opts.getD i default).has_ori lastori) }, true)
  else (b, change)

/-- The `while (contained[cubie]) cubie++;` search for the smallest missing
identity at or above `c`. -/
def scanFree (perm : List Int) : Nat → Nat → Nat
  | 0, c => c
  | fuel + 1, c => if perm.contains (c : Int) then scanFree perm fuel (c + 1) else c

/-- Closure rule: figure out position of last two cubies by parity
(lines 385-416). -/
def CubieBuilder.parRule (p : Params) (b : CubieBuilder) (change : Bool) :
    CubieBuilder × Bool :=
  if b.par ≠ -1 ∧ b.aperm = p.n_cubies - 2 then
    let i1 := b.perm.findIdx (· == (-1 : Int))
    let i2 := i1 + 1 + (b.perm.drop (i1 + 1)).findIdx (· == (-1 : Int))
    let cubie1 := scanFree b.perm (p.n_cubies + 1) 0
    let cubie2 := scanFree b.perm (p.n_cubies + 1) (cubie1 + 1)
    let invcnt1 := ((List.range p.n_cubies).map (fun i =>
        if b.perm.getD i 0 = -1 then 0
        else ((if i < i1 ∧ b.perm.getD i 0 > (cubie1 : Int) then 1 else 0) +
              (if i > i1 ∧ b.perm.getD i 0 < (cubie1 : Int) then 1 else 0) +
              (if i < i2 ∧ b.perm.getD i 0 > (cubie2 : Int) then 1 else 0) +
              (if i > i2 ∧ b.perm.getD i 0 < (cubie2 : Int) then 1 else 0)))).sum
    let pr := if (((b.invcnt + invcnt1) % 2 : Nat) : Int) ≠ b.par then (i2, i1) else (i1, i2)
    let ba := { b with opts := b.opts.set pr.1 ((b.opts.getD pr.1 default).is_cubie cubie1) }
    let bb := { ba with opts := ba.opts.set pr.2 ((ba.opts.getD pr.2 default).is_cubie cubie2) }
    (bb, true)
  else (b, change)

/-- One full pass of the `while (change)` loop body of `CubieBuilder::propagate`. -/
def CubieBuilder.onePass (p : Params) (b : CubieBuilder) :
    Sum CubieBuilder (CubieBuilder × Bool) :=
  match CubieBuilder.runSlots p (List.range p.n_cubies) b false with
  | Sum.inl berr => Sum.inl berr
  | Sum.inr s1 =>
    let s2 := CubieBuilder.oriRule p s1.1 s1.2
    let s3 := CubieBuilder.parRule p s2.1 s2.2
    Sum.inr s3

/-- `CubieBuilder::propagate`, with explicit pass fuel; `none` means the fuel
ran out before the fixed point was reached. -/
def CubieBuilder.propagate (p : Params) : Nat → CubieBuilder → Option (Bool × CubieBuilder)
  | 0, _ => none
  | fuel + 1, b =>
    match CubieBuilder.onePass p b with
    | Sum.inl berr => some (false, berr)
    | Sum.inr s =>
      if s.2 then CubieBuilder.propagate p fuel s.1 else some (true, s.1)

/-- State of a value-initialised (`new CornersBuilder()`) backup object: an
all-zero POD; in particular every slot has `rem = 0` (empty active prefix). -/
def CubieBuilder.zero (p : Params) : CubieBuilder :=
  { colcounts := List.replicate colorCOUNT 0,
    colsets := List.replicate p.n_cubies 0,
    oris := List.replicate p.n_cubies 0,
    perm := List.replicate p.n_cubies 0,
    par := 0,
    opts := List.replicate p.n_cubies ⟨[], false, 0, 0, 0⟩,
    invcnt := 0, orisum := 0, aperm := 0, aoris := 0 }

/-- `std::tuple` lexicographic `<` on the heap entries `(conf, facelet, color)`. -/
def tupLt (a b : Int × Nat × Nat) : Bool :=
  decide (a.1 < b.1) ||
    (decide (a.1 = b.1) &&
      (decide (a.2.1 < b.2.1) || (decide (a.2.1 = b.2.1) && decide (a.2.2 < b.2.2))))

/-- Maximum of a nonempty collection of heap entries. -/
def heapMax : List (Int × Nat × Nat) → (Int × Nat × Nat) → (Int × Nat × Nat)
  | [], m => m
  | x :: rest, m => heapMax rest (if tupLt m x then x else m)

/-- Remove the first occurrence of an entry. -/
def heapErase : List (Int × Nat × Nat) → (Int × Nat × Nat) → List (Int × Nat × Nat)
  | [], _ => []
  | x :: xs, m => if x = m then xs else x :: heapErase xs m

/-- `priority_queue::top` + `pop`: all entries in a run are distinct, so taking
any maximum matches the C++ heap exactly. -/
def heapPop : List (Int × Nat × Nat) → Option ((Int × Nat × Nat) × List (Int × Nat × Nat))
  | [] => none
  | x :: rest =>
    let m := heapMax rest x
    some (m, heapErase (x :: rest) m)

/-- The local state of `match_colors`: result array, score matrix, retry
budgets, heap, and the two primary and two backup piece-group objects. -/
structure MatchState where
  facecube : List Int
  conf : List (List Int)
  attempts : List Int
  heap : List (Int × Nat × Nat)
  corners : CubieBuilder
  edges : CubieBuilder
  cornersBak : CubieBuilder
  edgesBak : CubieBuilder
deriving Repr, DecidableEq

/-- `std::max_element(conf[f], conf[f] + 6) - conf[f]`: index of the first
maximal score. -/
def argmax6 (row : List Int) : Nat :=
  (List.range colorCOUNT).foldl
    (fun best c => if row.getD c 0 > row.getD best 0 then c else best) 0

/-- One facelet of the setup loop (lines 437-445): fix centers, push the
per-facelet best color, write the consumed sentinel. -/
def initFill (st : MatchState) (f : Nat) : MatchState :=
  if f % 9 = 4 then { st with facecube := st.facecube.set f ((f / 9 : Nat) : Int) }
  else
    let row := st.conf.getD f []
    let imax := argmax6 row
    { st with heap := (row.getD imax 0, f, imax) :: st.heap,
              conf := st.conf.set f (row.set imax (-1)) }

/-- Setup phase of `match_colors` (lines 428-455): score lookup, fixing
centers, initial heap fill with per-facelet best colors, retry budgets. -/
def initState (tbl : Nat → List Nat) (bgrs : List (Nat × Nat × Nat)) (n_attempts : Int) :
    MatchState :=
  let conf0 : List (List Int) := (List.range 54).map (fun f =>
    let bgr := bgrs.getD f (0, 0, 0)
    let row := tbl (256 * (256 * bgr.1 + bgr.2.1) + bgr.2.2)
    (List.range colorCOUNT).map (fun col => ((row.getD col 0 : Nat) : Int)))
  let st0 : MatchState :=
    { facecube := List.replicate 54 0, conf := conf0,
      attempts := List.replicate 54 n_attempts, heap := [],
      corners := CubieBuilder.init cornerParams,
      edges := CubieBuilder.init edgeParams,
      cornersBak := CubieBuilder.zero cornerParams,
      edgesBak := CubieBuilder.zero edgeParams }
  (List.range 54).foldl initFill st0

/-- How a call to `match_colors` ends: a full string, or one of the two
`return ""` sites (candidate exhaustion at line 497, negative retry budget at
line 502). -/
inductive Outcome where
  | ok (s : String)
  | scanError
  | budget
deriving Repr, DecidableEq

/-- Failure handling of the main loop (lines 494-503): find the next-best
color, fail on the -1 sentinel, push it, decrement the budget. -/
def retry (st : MatchState) (f : Nat) : Sum Outcome MatchState :=
  let row := st.conf.getD f []
  let imax := argmax6 row
  if row.getD imax 0 = -1 then Sum.inl Outcome.scanError
  else
    let st1 := { st with heap := (row.getD imax 0, f, imax) :: st.heap,
                         conf := st.conf.set f (row.set imax (-1)) }
    let att := st1.attempts.getD f 0 - 1
    let st2 := { st1 with attempts := st1.attempts.set f att }
    if att < 0 then Sum.inl Outcome.budget else Sum.inr st2

/-- Body of one main-loop iteration after the pop (lines 461-504), for the
popped facelet `f` and color candidate `col`.  `none` = propagation fuel ran
out.  Backups mirror the C++ `memcpy` snapshots and pointer swaps exactly,
including the edge-active bridge (lines 472-478), which re-propagates the
*edge* group after `corners->assign_par` and swaps the *unsnapshotted*
corner backup in on failure. -/
def stepPop (pfuel : Nat) (st : MatchState) (f col : Nat) : Option (Sum Outcome MatchState) :=
  let cubie := (FROM_FACELET.getD f 0).toNat
  let pos := (FACELET_TO_POS.getD f 0).toNat
  if (f % 9) % 2 = 1 then
    let edgesBak1 := st.edges
    let e1 := st.edges.assign_col cubie pos col
    match CubieBuilder.propagate edgeParams pfuel e1 with
    | none => none
    | some (succ1, e2) =>
      if succ1 = false then
        some (retry { st with edges := edgesBak1, edgesBak := e2 } f)
      else if e2.par ≠ -1 ∧ st.corners.par = -1 then
        let c1 := st.corners.assign_par e2.par
        match CubieBuilder.propagate edgeParams pfuel e2 with
        | none => none
        | some (succ2, e3) =>
          if succ2 = false then
            some (retry { st with edges := edgesBak1, edgesBak := e3,
                                  corners := st.cornersBak, cornersBak := c1 } f)
          else
            some (Sum.inr { st with edges := e3, edgesBak := edgesBak1, corners := c1,
                                    facecube := st.facecube.set f (col : Int) })
      else
        some (Sum.inr { st with edges := e2, edgesBak := edgesBak1,
                                facecube := st.facecube.set f (col : Int) })
  else
    let cornersBak1 := st.corners
    let c1 := st.corners.assign_col cubie pos col
    match CubieBuilder.propagate cornerParams pfuel c1 with
    | none => none
    | some (succ1, c2) =>
      if succ1 = false then
        some (retry { st with corners := cornersBak1, cornersBak := c2 } f)
      else if c2.par ≠ -1 ∧ st.edges.par = -1 then
        let edgesBak1 := st.edges
        let e1 := st.edges.assign_par c2.par
        match CubieBuilder.propagate edgeParams pfuel e1 with
        | none => none
        | some (succ2, e2) =>
          if succ2 = false then
            some (retry { st with corners := cornersBak1, cornersBak := c2,
                                  edges := edgesBak1, edgesBak := e2 } f)
          else
            some (Sum.inr { st with corners := c2, cornersBak := cornersBak1,
                                    edges := e2, edgesBak := edgesBak1,
                                    facecube := st.facecube.set f (col : Int) })
      else
        some (Sum.inr { st with corners := c2, cornersBak := cornersBak1,
                                facecube := st.facecube.set f (col : Int) })

/-- Result assembly (lines 507-510). -/
def finishString (st : MatchState) : String :=
  String.mk ((List.range 54).map (fun i => CHARS.getD (st.facecube.getD i 0).toNat 'U'))

/-- The main loop of `match_colors` (lines 457-505), with pop fuel; also
counts the number of heap pops performed.  `none` = some fuel ran out. -/
def matchLoop (pfuel : Nat) : Nat → MatchState → Nat → Option (Outcome × Nat × MatchState)
  | 0, st, pops =>
    if st.heap.isEmpty then some (Outcome.ok (finishString st), pops, st) else none
  | popfuel + 1, st, pops =>
    match heapPop st.heap with
    | none => some (Outcome.ok (finishString st), pops, st)
    | some (e, h1) =>
      let st1 := { st with heap := h1 }
      match stepPop pfuel st1 e.2.1 e.2.2 with
      | none => none
      | some (Sum.inl out) => some (out, pops + 1, st1)
      | some (Sum.inr st2) => matchLoop pfuel popfuel st2 (pops + 1)

/-- `match_colors` (lines 427-511): both `return ""` sites collapse to the
empty string. -/
def match_colors (tbl : Nat → List Nat) (bgrs : List (Nat × Nat × Nat)) (n_attempts : Int)
    (pfuel popfuel : Nat) : Option String :=
  match matchLoop pfuel popfuel (initState tbl bgrs n_attempts) 0 with
  | none => none
  | some (Outcome.ok s, _, _) => some s
  | some _ => some ""

/-! ## Spec-side cube-constraint checkers

These definitions follow the specification's wording (each color appears nine
times; corner and edge permutation parities agree; orientations sum to zero
mod `k`), to state properties of the face string returned by `match_colors`.
They decode a face string back into per-slot (identity, orientation) pairs
using the same geometry tables as the code. -/

/-- Inverse of `color::CHARS`. -/
def colorOfChar (ch : Char) : Nat := CHARS.findIdx (· == ch)

/-- The facelet holding sticker `pos` of slot `slot` in the given group. -/
def faceletOf (isEdge : Bool) (slot pos : Nat) : Nat :=
  (List.range 54).findIdx (fun f =>
    decide (f % 9 ≠ 4) && (decide (f % 9 % 2 = 1) == isEdge) &&
    decide (FROM_FACELET.getD f 0 = (slot : Int)) &&
    decide (FACELET_TO_POS.getD f 0 = (pos : Int)))

/-- Decode the piece (identity, orientation) sitting at `slot` of a face
string's color list; `(n_cubies, 0)` if the sticker colors match no piece. -/
def decodeAt (p : Params) (isEdge : Bool) (cs : List Nat) (slot : Nat) : Nat × Nat :=
  let cols := (List.range p.n_oris).map (fun pos => cs.getD (faceletOf isEdge slot pos) 0)
  (((List.range p.n_cubies).map (fun c => (List.range p.n_oris).filterMap (fun o =>
      if (List.range p.n_oris).all (fun j =>
          (p.cubiecols.getD c []).getD ((j + o) % p.n_oris) 0 = cols.getD j 0)
      then some (c, o) else none))).flatten).headD (p.n_cubies, 0)

/-- Identity permutation of a face string over one group's slots. -/
def stringPerm (p : Params) (isEdge : Bool) (s : String) : List Nat :=
  (List.range p.n_cubies).map
    (fun slot => (decodeAt p isEdge (s.toList.map colorOfChar) slot).1)

/-- Orientation sum modulo `n_oris` of a face string over one group's slots. -/
def stringOriSum (p : Params) (isEdge : Bool) (s : String) : Nat :=
  ((List.range p.n_cubies).map
    (fun slot => (decodeAt p isEdge (s.toList.map colorOfChar) slot).2)).sum % p.n_oris

/-- Inversion-count parity of a permutation list. -/
def invParity (l : List Nat) : Nat :=
  (((List.range l.length).map (fun i => ((List.range l.length).filter
    (fun j => decide (i < j) && decide (l.getD i 0 > l.getD j 0))).length)).sum) % 2

/-! ## Concrete inputs used for witnesses and counterexamples

The BGR triples `(0, 0, f)` index table entry `f`, so a table over indices
`0..53` fully controls the per-facelet score rows. -/

/-- BGR inputs addressing table entries 0..53. -/
def idBgrs : List (Nat × Nat × Nat) := (List.range 54).map (fun f => (0, 0, f))

/-- Perfect prior for the solved cube: on each facelet the face color scores
100, everything else 0. -/
def idTbl : Nat → List Nat := fun n =>
  (List.range 6).map (fun c => if c = n / 9 then 100 else 0)

/-- Prior whose unique best color per facelet describes a cube with the URF
and UFL corner pieces swapped (an odd corner permutation over an even edge
permutation); scores order the pops so that the corner group's last two
identities are both committed inside a single propagation pass. -/
def c1Spec : List (Nat × Nat) :=
  [(0,95),(0,60),(0,94),(0,59),(0,0),(0,58),(0,69),(0,57),(0,70),
   (2,30),(1,56),(1,93),(1,55),(0,0),(1,54),(1,92),(1,53),(1,91),
   (1,28),(2,52),(4,29),(2,51),(0,0),(2,50),(2,90),(2,49),(2,89),
   (3,88),(3,48),(3,87),(3,47),(0,0),(3,46),(3,86),(3,45),(3,85),
   (4,84),(4,44),(2,27),(4,43),(0,0),(4,42),(4,83),(4,41),(4,82),
   (5,81),(5,40),(5,80),(5,39),(0,0),(5,38),(5,79),(5,37),(5,78)]

def c1Tbl : Nat → List Nat := fun n =>
  let e := c1Spec.getD n (0, 0)
  (List.range 6).map (fun c => if c = e.1 then e.2 else 0)

/-- The string the matcher returns on `c1Tbl`. -/
def c1Out : String := "UUUUUUUUUFRRRRRRRRRFLFFFFFFDDDDDDDDDLLFLLLLLLBBBBBBBBB"

/-- Prior for the solved cube in which seven facelets carry a wrong best
color (the color already assigned to another sticker of the same corner
slot) and the right color second-best: seven retries, 55 pops in total. -/
def c9Rows : List (List Nat) :=
  let base := (List.range 54).map (fun f =>
    (List.range 6).map (fun c => if c = f / 9 then 160 - f else 0))
  let put := fun (rows : List (List Nat)) (f c v : Nat) =>
    rows.set f ((rows.getD f []).set c v)
  let b := base
  let b := put b 8 0 200
  let b := put (put b 9 0 198) 9 1 197
  let b := put b 6 0 196
  let b := put (put b 18 0 194) 18 2 193
  let b := put b 0 0 192
  let b := put (put b 36 0 190) 36 4 189
  let b := put b 2 0 188
  let b := put (put b 45 0 186) 45 5 185
  let b := put b 29 3 184
  let b := put (put b 15 3 182) 15 1 181
  let b := put b 27 3 180
  let b := put (put b 24 3 178) 24 2 177
  let b := put b 33 3 176
  let b := put (put b 42 3 174) 42 4 173
  b

def c9Tbl : Nat → List Nat := fun n => c9Rows.getD n []

/-- Apply one main-loop iteration (pop + step); retained state on failure or
fuel exhaustion keeps the popped entry removed, as in the loop. -/
def popOnce (pfuel : Nat) (st : MatchState) : MatchState :=
  match heapPop st.heap with
  | none => st
  | some (e, h1) =>
    match stepPop pfuel { st with heap := h1 } e.2.1 e.2.2 with
    | some (Sum.inr st2) => st2
    | _ => { st with heap := h1 }

/-- Iterate `popOnce`, to name intermediate driver states reached by a run. -/
def runPops (pfuel : Nat) : Nat → MatchState → MatchState
  | 0, st => st
  | k + 1, st => runPops pfuel k (popOnce pfuel st)

/-- A corner-group state reachable by five `assign_col` calls followed by one
`propagate`: the color U is forced onto a position of five different slots. -/
def c6Sequence : CubieBuilder :=
  (List.range 5).foldl (fun b i => b.assign_col i 0 0) (CubieBuilder.init cornerParams)

/-- Driver state of the `c1Tbl` run just before its 40th pop, the iteration
whose edge propagation completes the edge permutation and triggers the
cross-group parity bridge (stated as an explicit literal; the C2 theorem
proves it equal to `runPops 50 39 (initState c1Tbl idBgrs 3)`). -/
def c2PreLit : MatchState :=
  { facecube := [0, 0, 0, 0, 0, 0, 0, 0, 0, 0, 1, 1, 1, 1, 1, 1, 1, 1, 0, 2, 0, 2, 2, 2, 2, 2, 2, 3, 3, 3, 3, 3, 3, 3, 3,
                 3, 4, 4, 0, 4, 4, 4, 4, 0, 4, 5, 0, 5, 0, 5, 0, 5, 0, 5],
    conf := [[-1, 0, 0, 0, 0, 0],
             [-1, 0, 0, 0, 0, 0],
             [-1, 0, 0, 0, 0, 0],
             [-1, 0, 0, 0, 0, 0],
             [0, 0, 0, 0, 0, 0],
             [-1, 0, 0, 0, 0, 0],
             [-1, 0, 0, 0, 0, 0],
             [-1, 0, 0, 0, 0, 0],
             [-1, 0, 0, 0, 0, 0],
             [0, 0, -1, 0, 0, 0],
             [0, -1, 0, 0, 0, 0],
             [0, -1, 0, 0, 0, 0],
             [0, -1, 0, 0, 0, 0],
             [0, 0, 0, 0, 0, 0],
             [0, -1, 0, 0, 0, 0],
             [0, -1, 0, 0, 0, 0],
             [0, -1, 0, 0, 0, 0],
             [0, -1, 0, 0, 0, 0],
             [0, -1, 0, 0, 0, 0],
             [0, 0, -1, 0, 0, 0],
             [0, 0, 0, 0, -1, 0],
             [0, 0, -1, 0, 0, 0],
             [0, 0, 0, 0, 0, 0],
             [0, 0, -1, 0, 0, 0],
             [0, 0, -1, 0, 0, 0],
             [0, 0, -1, 0, 0, 0],
             [0, 0, -1, 0, 0, 0],
             [0, 0, 0, -1, 0, 0],
             [0, 0, 0, -1, 0, 0],
             [0, 0, 0, -1, 0, 0],
             [0, 0, 0, -1, 0, 0],
             [0, 0, 0, 0, 0, 0],
             [0, 0, 0, -1, 0, 0],
             [0, 0, 0, -1, 0, 0],
             [0, 0, 0, -1, 0, 0],
             [0, 0, 0, -1, 0, 0],
             [0, 0, 0, 0, -1, 0],
             [0, 0, 0, 0, -1, 0],
             [0, 0, -1, 0, 0, 0],
             [0, 0, 0, 0, -1, 0],
             [0, 0, 0, 0, 0, 0],
             [0, 0, 0, 0, -1, 0],
             [0, 0, 0, 0, -1, 0],
             [0, 0, 0, 0, -1, 0],
             [0, 0, 0, 0, -1, 0],
             [0, 0, 0, 0, 0, -1],
             [0, 0, 0, 0, 0, -1],
             [0, 0, 0, 0, 0, -1],
             [0, 0, 0, 0, 0, -1],
             [0, 0, 0, 0, 0, 0],
             [0, 0, 0, 0, 0, -1],
             [0, 0, 0, 0, 0, -1],
             [0, 0, 0, 0, 0, -1],
             [0, 0, 0, 0, 0, -1]],
    attempts := [3, 3, 3, 3, 3, 3, 3, 3, 3, 3, 3, 3, 3, 3, 3, 3, 3, 3, 3, 3, 3, 3, 3, 3, 3, 3, 3, 3, 3, 3, 3, 3, 3, 3, 3,
                 3, 3, 3, 3, 3, 3, 3, 3, 3, 3, 3, 3, 3, 3, 3, 3, 3, 3, 3],
    heap := [(37, 52, 5),
             (38, 50, 5),
             (39, 48, 5),
             (40, 46, 5),
             (41, 43, 4),
             (27, 38, 2),
             (29, 20, 4),
             (28, 18, 1),
             (30, 9, 2)],
    corners := { colcounts := [0, 1, 0, 0, 1, 0],
                 colsets := [5, 5, 49, 35, 14, 28, 56, 42],
                 oris := [0, 0, 0, 0, 0, 0, 0, 0],
                 perm := [-1, -1, 2, 3, 4, 5, 6, 7],
                 par := -1,
                 opts := [{ opts := [{ cols := [0, 1, 2], colset := 7, ori := 0, cubie := 0 },
                                     { cols := [0, 2, 4], colset := 21, ori := 0, cubie := 1 }],
                            error := false,
                            colset := 5,
                            ori := 0,
                            cubie := -1 },
                          { opts := [{ cols := [0, 1, 2], colset := 7, ori := 0, cubie := 0 },
                                     { cols := [0, 2, 4], colset := 21, ori := 0, cubie := 1 }],
                            error := false,
                            colset := 5,
                            ori := 0,
                            cubie := -1 },
                          { opts := [{ cols := [0, 4, 5], colset := 49, ori := 0, cubie := 2 }],
                            error := false,
                            colset := 49,
                            ori := 0,
                            cubie := 2 },
                          { opts := [{ cols := [0, 5, 1], colset := 35, ori := 0, cubie := 3 }],
                            error := false,
                            colset := 35,
                            ori := 0,
                            cubie := 3 },
                          { opts := [{ cols := [3, 2, 1], colset := 14, ori := 0, cubie := 4 }],
                            error := false,
                            colset := 14,
                            ori := 0,
                            cubie := 4 },
                          { opts := [{ cols := [3, 4, 2], colset := 28, ori := 0, cubie := 5 }],
                            error := false,
                            colset := 28,
                            ori := 0,
                            cubie := 5 },
                          { opts := [{ cols := [3, 5, 4], colset := 56, ori := 0, cubie := 6 }],
                            error := false,
                            colset := 56,
                            ori := 0,
                            cubie := 6 },
                          { opts := [{ cols := [3, 1, 5], colset := 42, ori := 0, cubie := 7 }],
                            error := false,
                            colset := 42,
                            ori := 0,
                            cubie := 7 }],
                 invcnt := 0,
                 orisum := 0,
                 aperm := 6,
                 aoris := 8 },
    edges := { colcounts := [0, 0, 0, 0, 1, 1],
               colsets := [3, 5, 17, 33, 10, 12, 8, 8, 6, 20, 48, 34],
               oris := [0, 0, 0, 0, 0, 0, 0, 0, 0, 0, 0, 0],
               perm := [0, 1, 2, 3, 4, 5, -1, -1, 8, 9, 10, 11],
               par := -1,
               opts := [{ opts := [{ cols := [0, 1], colset := 3, ori := 0, cubie := 0 }],
                          error := false,
                          colset := 3,
                          ori := 0,
                          cubie := 0 },
                        { opts := [{ cols := [0, 2], colset := 5, ori := 0, cubie := 1 }],
                          error := false,
                          colset := 5,
                          ori := 0,
                          cubie := 1 },
                        { opts := [{ cols := [0, 4], colset := 17, ori := 0, cubie := 2 }],
                          error := false,
                          colset := 17,
                          ori := 0,
                          cubie := 2 },
                        { opts := [{ cols := [0, 5], colset := 33, ori := 0, cubie := 3 }],
                          error := false,
                          colset := 33,
                          ori := 0,
                          cubie := 3 },
                        { opts := [{ cols := [3, 1], colset := 10, ori := 0, cubie := 4 }],
                          error := false,
                          colset := 10,
                          ori := 0,
                          cubie := 4 },
                        { opts := [{ cols := [3, 2], colset := 12, ori := 0, cubie := 5 }],
                          error := false,
                          colset := 12,
                          ori := 0,
                          cubie := 5 },
                        { opts := [{ cols := [3, 4], colset := 24, ori := 0, cubie := 6 },
                                   { cols := [3, 5], colset := 40, ori := 0, cubie := 7 }],
                          error := false,
                          colset := 8,
                          ori := 0,
                          cubie := -1 },
                        { opts := [{ cols := [3, 4], colset := 24, ori := 0, cubie := 6 },
                                   { cols := [3, 5], colset := 40, ori := 0, cubie := 7 }],
                          error := false,
                          colset := 8,
                          ori := 0,
                          cubie := -1 },
                        { opts := [{ cols := [2, 1], colset := 6, ori := 0, cubie := 8 }],
                          error := false,
                          colset := 6,
                          ori := 0,
                          cubie := 8 },
                        { opts := [{ cols := [2, 4], colset := 20, ori := 0, cubie := 9 }],
                          error := false,
                          colset := 20,
                          ori := 0,
                          cubie := 9 },
                        { opts := [{ cols := [5, 4], colset := 48, ori := 0, cubie := 10 }],
                          error := false,
                          colset := 48,
                          ori := 0,
                          cubie := 10 },
                        { opts := [{ cols := [5, 1], colset := 34, ori := 0, cubie := 11 }],
                          error := false,
                          colset := 34,
                          ori := 0,
                          cubie := 11 }],
               invcnt := 0,
               orisum := 0,
               aperm := 10,
               aoris := 12 },
    cornersBak := { colcounts := [0, 1, 0, 0, 1, 0],
                    colsets := [5, 5, 49, 35, 14, 28, 56, 42],
                    oris := [0, 0, 0, 0, 0, 0, 0, 0],
                    perm := [-1, -1, 2, 3, 4, 5, 6, 7],
                    par := -1,
                    opts := [{ opts := [{ cols := [0, 1, 2], colset := 7, ori := 0, cubie := 0 },
                                        { cols := [0, 2, 4], colset := 21, ori := 0, cubie := 1 }],
                               error := false,
                               colset := 5,
                               ori := 0,
                               cubie := -1 },
                             { opts := [{ cols := [0, 1, 2], colset := 7, ori := 0, cubie := 0 },
                                        { cols := [0, 2, 4], colset := 21, ori := 0, cubie := 1 }],
                               error := false,
                               colset := 5,
                               ori := 0,
                               cubie := -1 },
                             { opts := [{ cols := [0, 4, 5], colset := 49, ori := 0, cubie := 2 }],
                               error := false,
                               colset := 49,
                               ori := 0,
                               cubie := 2 },
                             { opts := [{ cols := [0, 5, 1], colset := 35, ori := 0, cubie := 3 }],
                               error := false,
                               colset := 35,
                               ori := 0,
                               cubie := 3 },
                             { opts := [{ cols := [3, 2, 1], colset := 14, ori := 0, cubie := 4 }],
                               error := false,
                               colset := 14,
                               ori := 0,
                               cubie := 4 },
                             { opts := [{ cols := [3, 4, 2], colset := 28, ori := 0, cubie := 5 }],
                               error := false,
                               colset := 28,
                               ori := 0,
                               cubie := 5 },
                             { opts := [{ cols := [3, 5, 4], colset := 56, ori := 0, cubie := 6 }],
                               error := false,
                               colset := 56,
                               ori := 0,
                               cubie := 6 },
                             { opts := [{ cols := [3, 1, 5], colset := 42, ori := 0, cubie := 7 }],
                               error := false,
                               colset := 42,
                               ori := 0,
                               cubie := 7 }],
                    invcnt := 0,
                    orisum := 0,
                    aperm := 6,
                    aoris := 8 },
    edgesBak := { colcounts := [0, 0, 0, 0, 1, 1],
                  colsets := [3, 5, 17, 33, 10, 12, 8, 8, 6, 20, 48, 34],
                  oris := [0, 0, 0, 0, 0, 0, 0, 0, 0, 0, 0, 0],
                  perm := [0, 1, 2, 3, 4, 5, -1, -1, 8, 9, 10, 11],
                  par := -1,
                  opts := [{ opts := [{ cols := [0, 1], colset := 3, ori := 0, cubie := 0 }],
                             error := false,
                             colset := 3,
                             ori := 0,
                             cubie := 0 },
                           { opts := [{ cols := [0, 2], colset := 5, ori := 0, cubie := 1 }],
                             error := false,
                             colset := 5,
                             ori := 0,
                             cubie := 1 },
                           { opts := [{ cols := [0, 4], colset := 17, ori := 0, cubie := 2 }],
                             error := false,
                             colset := 17,
                             ori := 0,
                             cubie := 2 },
                           { opts := [{ cols := [0, 5], colset := 33, ori := 0, cubie := 3 }],
                             error := false,
                             colset := 33,
                             ori := 0,
                             cubie := 3 },
                           { opts := [{ cols := [3, 1], colset := 10, ori := 0, cubie := 4 }],
                             error := false,
                             colset := 10,
                             ori := 0,
                             cubie := 4 },
                           { opts := [{ cols := [3, 2], colset := 12, ori := 0, cubie := 5 }],
                             error := false,
                             colset := 12,
                             ori := 0,
                             cubie := 5 },
                           { opts := [{ cols := [3, 4], colset := 24, ori := 0, cubie := 6 },
                                      { cols := [3, 5], colset := 40, ori := 0, cubie := 7 }],
                             error := false,
                             colset := 8,
                             ori := 0,
                             cubie := -1 },
                           { opts := [{ cols := [3, 4], colset := 24, ori := 0, cubie := 6 },
                                      { cols := [3, 5], colset := 40, ori := 0, cubie := 7 }],
                             error := false,
                             colset := 8,
                             ori := 0,
                             cubie := -1 },
                           { opts := [{ cols := [2, 1], colset := 6, ori := 0, cubie := 8 }],
                             error := false,
                             colset := 6,
                             ori := 0,
                             cubie := 8 },
                           { opts := [{ cols := [2, 4], colset := 20, ori := 0, cubie := 9 }],
                             error := false,
                             colset := 20,
                             ori := 0,
                             cubie := 9 },
                           { opts := [{ cols := [5, 4], colset := 48, ori := 0, cubie := 10 }],
                             error := false,
                             colset := 48,
                             ori := 0,
                             cubie := 10 },
                           { opts := [{ cols := [5, 1], colset := 34, ori := 0, cubie := 11 }],
                             error := false,
                             colset := 34,
                             ori := 0,
                             cubie := 11 }],
                  invcnt := 0,
                  orisum := 0,
                  aperm := 10,
                  aoris := 12 } }

/-- Remaining heap after that 40th pop. -/
def c2PopRestLit : List (Int × Nat × Nat) :=
  [(37, 52, 5), (38, 50, 5), (39, 48, 5), (40, 46, 5), (27, 38, 2), (29, 20, 4), (28, 18, 1), (30, 9, 2)]

/-- Driver state after the bridging iteration completes. -/
def c2PostLit : MatchState :=
  { facecube := [0, 0, 0, 0, 0, 0, 0, 0, 0, 0, 1, 1, 1, 1, 1, 1, 1, 1, 0, 2, 0, 2, 2, 2, 2, 2, 2, 3, 3, 3, 3, 3, 3, 3, 3,
                 3, 4, 4, 0, 4, 4, 4, 4, 4, 4, 5, 0, 5, 0, 5, 0, 5, 0, 5],
    conf := [[-1, 0, 0, 0, 0, 0],
             [-1, 0, 0, 0, 0, 0],
             [-1, 0, 0, 0, 0, 0],
             [-1, 0, 0, 0, 0, 0],
             [0, 0, 0, 0, 0, 0],
             [-1, 0, 0, 0, 0, 0],
             [-1, 0, 0, 0, 0, 0],
             [-1, 0, 0, 0, 0, 0],
             [-1, 0, 0, 0, 0, 0],
             [0, 0, -1, 0, 0, 0],
             [0, -1, 0, 0, 0, 0],
             [0, -1, 0, 0, 0, 0],
             [0, -1, 0, 0, 0, 0],
             [0, 0, 0, 0, 0, 0],
             [0, -1, 0, 0, 0, 0],
             [0, -1, 0, 0, 0, 0],
             [0, -1, 0, 0, 0, 0],
             [0, -1, 0, 0, 0, 0],
             [0, -1, 0, 0, 0, 0],
             [0, 0, -1, 0, 0, 0],
             [0, 0, 0, 0, -1, 0],
             [0, 0, -1, 0, 0, 0],
             [0, 0, 0, 0, 0, 0],
             [0, 0, -1, 0, 0, 0],
             [0, 0, -1, 0, 0, 0],
             [0, 0, -1, 0, 0, 0],
             [0, 0, -1, 0, 0, 0],
             [0, 0, 0, -1, 0, 0],
             [0, 0, 0, -1, 0, 0],
             [0, 0, 0, -1, 0, 0],
             [0, 0, 0, -1, 0, 0],
             [0, 0, 0, 0, 0, 0],
             [0, 0, 0, -1, 0, 0],
             [0, 0, 0, -1, 0, 0],
             [0, 0, 0, -1, 0, 0],
             [0, 0, 0, -1, 0, 0],
             [0, 0, 0, 0, -1, 0],
             [0, 0, 0, 0, -1, 0],
             [0, 0, -1, 0, 0, 0],
             [0, 0, 0, 0, -1, 0],
             [0, 0, 0, 0, 0, 0],
             [0, 0, 0, 0, -1, 0],
             [0, 0, 0, 0, -1, 0],
             [0, 0, 0, 0, -1, 0],
             [0, 0, 0, 0, -1, 0],
             [0, 0, 0, 0, 0, -1],
             [0, 0, 0, 0, 0, -1],
             [0, 0, 0, 0, 0, -1],
             [0, 0, 0, 0, 0, -1],
             [0, 0, 0, 0, 0, 0],
             [0, 0, 0, 0, 0, -1],
             [0, 0, 0, 0, 0, -1],
             [0, 0, 0, 0, 0, -1],
             [0, 0, 0, 0, 0, -1]],
    attempts := [3, 3, 3, 3, 3, 3, 3, 3, 3, 3, 3, 3, 3, 3, 3, 3, 3, 3, 3, 3, 3, 3, 3, 3, 3, 3, 3, 3, 3, 3, 3, 3, 3, 3, 3,
                 3, 3, 3, 3, 3, 3, 3, 3, 3, 3, 3, 3, 3, 3, 3, 3, 3, 3, 3],
    heap := [(37, 52, 5), (38, 50, 5), (39, 48, 5), (40, 46, 5), (27, 38, 2), (29, 20, 4), (28, 18, 1), (30, 9, 2)],
    corners := { colcounts := [0, 1, 0, 0, 1, 0],
                 colsets := [5, 5, 49, 35, 14, 28, 56, 42],
                 oris := [0, 0, 0, 0, 0, 0, 0, 0],
                 perm := [-1, -1, 2, 3, 4, 5, 6, 7],
                 par := 0,
                 opts := [{ opts := [{ cols := [0, 1, 2], colset := 7, ori := 0, cubie := 0 },
                                     { cols := [0, 2, 4], colset := 21, ori := 0, cubie := 1 }],
                            error := false,
                            colset := 5,
                            ori := 0,
                            cubie := -1 },
                          { opts := [{ cols := [0, 1, 2], colset := 7, ori := 0, cubie := 0 },
                                     { cols := [0, 2, 4], colset := 21, ori := 0, cubie := 1 }],
                            error := false,
                            colset := 5,
                            ori := 0,
                            cubie := -1 },
                          { opts := [{ cols := [0, 4, 5], colset := 49, ori := 0, cubie := 2 }],
                            error := false,
                            colset := 49,
                            ori := 0,
                            cubie := 2 },
                          { opts := [{ cols := [0, 5, 1], colset := 35, ori := 0, cubie := 3 }],
                            error := false,
                            colset := 35,
                            ori := 0,
                            cubie := 3 },
                          { opts := [{ cols := [3, 2, 1], colset := 14, ori := 0, cubie := 4 }],
                            error := false,
                            colset := 14,
                            ori := 0,
                            cubie := 4 },
                          { opts := [{ cols := [3, 4, 2], colset := 28, ori := 0, cubie := 5 }],
                            error := false,
                            colset := 28,
                            ori := 0,
                            cubie := 5 },
                          { opts := [{ cols := [3, 5, 4], colset := 56, ori := 0, cubie := 6 }],
                            error := false,
                            colset := 56,
                            ori := 0,
                            cubie := 6 },
                          { opts := [{ cols := [3, 1, 5], colset := 42, ori := 0, cubie := 7 }],
                            error := false,
                            colset := 42,
                            ori := 0,
                            cubie := 7 }],
                 invcnt := 0,
                 orisum := 0,
                 aperm := 6,
                 aoris := 8 },
    edges := { colcounts := [0, 0, 0, 0, 0, 0],
               colsets := [3, 5, 17, 33, 10, 12, 24, 40, 6, 20, 48, 34],
               oris := [0, 0, 0, 0, 0, 0, 0, 0, 0, 0, 0, 0],
               perm := [0, 1, 2, 3, 4, 5, 6, 7, 8, 9, 10, 11],
               par := 0,
               opts := [{ opts := [{ cols := [0, 1], colset := 3, ori := 0, cubie := 0 }],
                          error := false,
                          colset := 3,
                          ori := 0,
                          cubie := 0 },
                        { opts := [{ cols := [0, 2], colset := 5, ori := 0, cubie := 1 }],
                          error := false,
                          colset := 5,
                          ori := 0,
                          cubie := 1 },
                        { opts := [{ cols := [0, 4], colset := 17, ori := 0, cubie := 2 }],
                          error := false,
                          colset := 17,
                          ori := 0,
                          cubie := 2 },
                        { opts := [{ cols := [0, 5], colset := 33, ori := 0, cubie := 3 }],
                          error := false,
                          colset := 33,
                          ori := 0,
                          cubie := 3 },
                        { opts := [{ cols := [3, 1], colset := 10, ori := 0, cubie := 4 }],
                          error := false,
                          colset := 10,
                          ori := 0,
                          cubie := 4 },
                        { opts := [{ cols := [3, 2], colset := 12, ori := 0, cubie := 5 }],
                          error := false,
                          colset := 12,
                          ori := 0,
                          cubie := 5 },
                        { opts := [{ cols := [3, 4], colset := 24, ori := 0, cubie := 6 }],
                          error := false,
                          colset := 24,
                          ori := 0,
                          cubie := 6 },
                        { opts := [{ cols := [3, 5], colset := 40, ori := 0, cubie := 7 }],
                          error := false,
                          colset := 40,
                          ori := 0,
                          cubie := 7 },
                        { opts := [{ cols := [2, 1], colset := 6, ori := 0, cubie := 8 }],
                          error := false,
                          colset := 6,
                          ori := 0,
                          cubie := 8 },
                        { opts := [{ cols := [2, 4], colset := 20, ori := 0, cubie := 9 }],
                          error := false,
                          colset := 20,
                          ori := 0,
                          cubie := 9 },
                        { opts := [{ cols := [5, 4], colset := 48, ori := 0, cubie := 10 }],
                          error := false,
                          colset := 48,
                          ori := 0,
                          cubie := 10 },
                        { opts := [{ cols := [5, 1], colset := 34, ori := 0, cubie := 11 }],
                          error := false,
                          colset := 34,
                          ori := 0,
                          cubie := 11 }],
               invcnt := 0,
               orisum := 0,
               aperm := 12,
               aoris := 12 },
    cornersBak := { colcounts := [0, 1, 0, 0, 1, 0],
                    colsets := [5, 5, 49, 35, 14, 28, 56, 42],
                    oris := [0, 0, 0, 0, 0, 0, 0, 0],
                    perm := [-1, -1, 2, 3, 4, 5, 6, 7],
                    par := -1,
                    opts := [{ opts := [{ cols := [0, 1, 2], colset := 7, ori := 0, cubie := 0 },
                                        { cols := [0, 2, 4], colset := 21, ori := 0, cubie := 1 }],
                               error := false,
                               colset := 5,
                               ori := 0,
                               cubie := -1 },
                             { opts := [{ cols := [0, 1, 2], colset := 7, ori := 0, cubie := 0 },
                                        { cols := [0, 2, 4], colset := 21, ori := 0, cubie := 1 }],
                               error := false,
                               colset := 5,
                               ori := 0,
                               cubie := -1 },
                             { opts := [{ cols := [0, 4, 5], colset := 49, ori := 0, cubie := 2 }],
                               error := false,
                               colset := 49,
                               ori := 0,
                               cubie := 2 },
                             { opts := [{ cols := [0, 5, 1], colset := 35, ori := 0, cubie := 3 }],
                               error := false,
                               colset := 35,
                               ori := 0,
                               cubie := 3 },
                             { opts := [{ cols := [3, 2, 1], colset := 14, ori := 0, cubie := 4 }],
                               error := false,
                               colset := 14,
                               ori := 0,
                               cubie := 4 },
                             { opts := [{ cols := [3, 4, 2], colset := 28, ori := 0, cubie := 5 }],
                               error := false,
                               colset := 28,
                               ori := 0,
                               cubie := 5 },
                             { opts := [{ cols := [3, 5, 4], colset := 56, ori := 0, cubie := 6 }],
                               error := false,
                               colset := 56,
                               ori := 0,
                               cubie := 6 },
                             { opts := [{ cols := [3, 1, 5], colset := 42, ori := 0, cubie := 7 }],
                               error := false,
                               colset := 42,
                               ori := 0,
                               cubie := 7 }],
                    invcnt := 0,
                    orisum := 0,
                    aperm := 6,
                    aoris := 8 },
    edgesBak := { colcounts := [0, 0, 0, 0, 1, 1],
                  colsets := [3, 5, 17, 33, 10, 12, 8, 8, 6, 20, 48, 34],
                  oris := [0, 0, 0, 0, 0, 0, 0, 0, 0, 0, 0, 0],
                  perm := [0, 1, 2, 3, 4, 5, -1, -1, 8, 9, 10, 11],
                  par := -1,
                  opts := [{ opts := [{ cols := [0, 1], colset := 3, ori := 0, cubie := 0 }],
                             error := false,
                             colset := 3,
                             ori := 0,
                             cubie := 0 },
                           { opts := [{ cols := [0, 2], colset := 5, ori := 0, cubie := 1 }],
                             error := false,
                             colset := 5,
                             ori := 0,
                             cubie := 1 },
                           { opts := [{ cols := [0, 4], colset := 17, ori := 0, cubie := 2 }],
                             error := false,
                             colset := 17,
                             ori := 0,
                             cubie := 2 },
                           { opts := [{ cols := [0, 5], colset := 33, ori := 0, cubie := 3 }],
                             error := false,
                             colset := 33,
                             ori := 0,
                             cubie := 3 },
                           { opts := [{ cols := [3, 1], colset := 10, ori := 0, cubie := 4 }],
                             error := false,
                             colset := 10,
                             ori := 0,
                             cubie := 4 },
                           { opts := [{ cols := [3, 2], colset := 12, ori := 0, cubie := 5 }],
                             error := false,
                             colset := 12,
                             ori := 0,
                             cubie := 5 },
                           { opts := [{ cols := [3, 4], colset := 24, ori := 0, cubie := 6 },
                                      { cols := [3, 5], colset := 40, ori := 0, cubie := 7 }],
                             error := false,
                             colset := 8,
                             ori := 0,
                             cubie := -1 },
                           { opts := [{ cols := [3, 4], colset := 24, ori := 0, cubie := 6 },
                                      { cols := [3, 5], colset := 40, ori := 0, cubie := 7 }],
                             error := false,
                             colset := 8,
                             ori := 0,
                             cubie := -1 },
                           { opts := [{ cols := [2, 1], colset := 6, ori := 0, cubie := 8 }],
                             error := false,
                             colset := 6,
                             ori := 0,
                             cubie := 8 },
                           { opts := [{ cols := [2, 4], colset := 20, ori := 0, cubie := 9 }],
                             error := false,
                             colset := 20,
                             ori := 0,
                             cubie := 9 },
                           { opts := [{ cols := [5, 4], colset := 48, ori := 0, cubie := 10 }],
                             error := false,
                             colset := 48,
                             ori := 0,
                             cubie := 10 },
                           { opts := [{ cols := [5, 1], colset := 34, ori := 0, cubie := 11 }],
                             error := false,
                             colset := 34,
                             ori := 0,
                             cubie := 11 }],
                  invcnt := 0,
                  orisum := 0,
                  aperm := 10,
                  aoris := 12 } }

/-- Retry-budget potential of a driver state: one unit per heap entry plus
its facelet's remaining attempts. -/
def potential (st : MatchState) : Nat :=
  (st.heap.map (fun e => (st.attempts.getD e.2.1 0 + 1).toNat)).sum

/-- Bit test on a color bitmask. -/
def hasBit (m col : Nat) : Bool := m &&& (1 <<< col) != 0

/-- `acc` ANDed with all option colsets of `l`: the loop of `Options::update`. -/
def interAnd (a : Nat) (l : List Opt) : Nat := l.foldl (fun acc x => acc &&& x.colset) a

/-- Per-slot well-formedness maintained by the `Options` code: the error flag
tracks emptiness of the active prefix, the cached colset is the AND over the
active options, and the deduced orientation/identity fields, once set, hold
the value shared by all remaining options. -/
structure OWf (o : Options) : Prop where
  errEmpty : o.error = true → o.opts = []
  emptyErr : o.opts = [] → o.error = true
  fieldAcc : ∀ first rest, o.opts = first :: rest → o.colset = interAnd first.colset rest
  oriField : o.ori = -1 ∨ ∀ opt ∈ o.opts, (opt.ori : Int) = o.ori
  cubieField : o.cubie = -1 ∨ ∀ opt ∈ o.opts, (opt.cubie : Int) = o.cubie

/-- The color-count bookkeeping identity for one color: the count is four
minus the number of slots whose registered colset contains the color. -/
def syncAt (p : Params) (b : CubieBuilder) (col : Nat) : Prop :=
  b.colcounts.getD col 0 =
    4 - (((List.range p.n_cubies).filter
      (fun i => hasBit (b.colsets.getD i 0) col)).length : Int)

/-- The pruning property for one color: once its count is exhausted, every
slot is either certain to contain the color or has no option containing it. -/
def prunedAt (p : Params) (b : CubieBuilder) (col : Nat) : Prop :=
  b.colcounts.getD col 0 ≤ 0 → ∀ i < p.n_cubies,
    hasBit (b.opts.getD i default).colset col = true ∨
    (b.opts.getD i default).opts.all (fun opt => !hasBit opt.colset col) = true

/-- Structural builder well-formedness: list lengths, per-slot `OWf`, and
registered colsets included in the cached fields. -/
structure CWf (p : Params) (b : CubieBuilder) : Prop where
  optsLen : b.opts.length = p.n_cubies
  colsetsLen : b.colsets.length = p.n_cubies
  countsLen : b.colcounts.length = colorCOUNT
  slotWf : ∀ i < p.n_cubies, OWf (b.opts.getD i default)
  regOk : ∀ i < p.n_cubies,
    b.colsets.getD i 0 &&& (b.opts.getD i default).colset = b.colsets.getD i 0

/-- Builder-level well-formedness: the structural part plus the color-count
identity and the pruning property for every color. -/
structure BWf (p : Params) (b : CubieBuilder) extends CWf p b : Prop where
  countSync : ∀ col < colorCOUNT, syncAt p b col
  pruned : ∀ col < colorCOUNT, prunedAt p b col

/-- States of one piece group reachable from `init` through the public
operations `assign_col`, `assign_par` and `propagate`. -/
inductive Reachable (p : Params) : CubieBuilder → Prop where
  | init : Reachable p (CubieBuilder.init p)
  | assign_col (b : CubieBuilder) (c pos col : Nat) :
      Reachable p b → Reachable p (b.assign_col c pos col)
  | assign_par (b : CubieBuilder) (v : Int) :
      Reachable p b → Reachable p (b.assign_par v)
  | propagate (b b' : CubieBuilder) (fuel : Nat) (r : Bool) :
      Reachable p b → CubieBuilder.propagate p fuel b = some (r, b') → Reachable p b'

def attAll (st : MatchState) : Prop := ∀ f : Nat, 0 ≤ st.attempts.getD f 0

/-- The completed run of the `c9Tbl` input with budget 1 and ample pop fuel. -/
def c9Final : Outcome × Nat × MatchState :=
  (matchLoop 50 108 (initState c9Tbl idBgrs 1) 0).getD
    (Outcome.budget, 0, initState c9Tbl idBgrs 1)


/-- The driver state of the `c9Tbl` run after one pop, with the second pop
(facelet 9, best color 0) removed from the heap: the state handed to the
main-loop body for a pop whose propagation fails. -/
def c4Pre : MatchState :=
  match heapPop (runPops 50 1 (initState c9Tbl idBgrs 1)).heap with
  | some (_, h1) => { runPops 50 1 (initState c9Tbl idBgrs 1) with heap := h1 }
  | none => runPops 50 1 (initState c9Tbl idBgrs 1)

/-- The state returned by that failing main-loop iteration. -/
def c4Post : MatchState :=
  match stepPop 50 c4Pre 9 0 with
  | some (Sum.inr s) => s
  | _ => c4Pre

/-- The corner builder returned by the failing propagation of that pop. -/
def c4C2 : CubieBuilder :=
  match CubieBuilder.propagate cornerParams 50
      (c4Pre.corners.assign_col (FROM_FACELET.getD 9 0).toNat
        (FACELET_TO_POS.getD 9 0).toNat 0) with
  | some (_, c) => c
  | none => c4Pre.corners


/-- Inversions among the assigned (non `-1`) entries of `l`. -/
def invF (l : List Int) : Nat :=
  ∑ i ∈ Finset.range l.length, ∑ j ∈ Finset.range l.length,
    if i < j ∧ l.getD i 0 ≠ -1 ∧ l.getD j 0 ≠ -1 ∧ l.getD j 0 < l.getD i 0 then 1 else 0

/-- Cross inversions a new value `v` placed at hole `pos` forms with the
assigned entries of `l`. -/
def crossAt (l : List Int) (pos : Nat) (v : Int) : Nat :=
  ∑ i ∈ Finset.range l.length,
    if l.getD i 0 ≠ -1 ∧ (i < pos ∧ v < l.getD i 0 ∨ pos < i ∧ l.getD i 0 < v) then 1
    else 0

/-- `l` with value `va` at hole `a` and `vb` at hole `b`. -/
def fill2 (l : List Int) (a b : Nat) (va vb : Int) : List Int := (l.set a va).set b vb

/-- A corner builder with known parity and exactly two unassigned slots
(0 and 2), missing the identities 0 and 2. -/
def c5b : CubieBuilder :=
  { colcounts := [], colsets := [], oris := [], perm := [-1, 1, -1, 3, 4, 5, 6, 7],
    par := 1, opts := [], invcnt := 0, orisum := 0, aperm := 6, aoris := 0 }

/-! ## Theorems -/


/-- C10: for every non-center facelet `f`, the geometry tables send edge
facelets (odd `f mod 9`) to edge slots in `[0,12)` with positions in `{0,1}`
and the remaining corner facelets to corner slots in `[0,8)` with positions
in `{0,1,2}`; moreover `f ↦ (FROM_FACELET[f], FACELET_TO_POS[f])` is a
bijection from the 24 edge facelets onto the 24 edge (slot, position) pairs
and from the 24 corner facelets onto the 24 corner (slot, position) pairs. -/
theorem C10_facelet_geometry_bijective :
    ((List.range 54).all (fun f => decide (f % 9 = 4) ||
      (if f % 9 % 2 = 1
       then decide (0 ≤ FROM_FACELET.getD f 0) && decide (FROM_FACELET.getD f 0 < 12) &&
            decide (0 ≤ FACELET_TO_POS.getD f 0) && decide (FACELET_TO_POS.getD f 0 < 2)
       else decide (0 ≤ FROM_FACELET.getD f 0) && decide (FROM_FACELET.getD f 0 < 8) &&
            decide (0 ≤ FACELET_TO_POS.getD f 0) && decide (FACELET_TO_POS.getD f 0 < 3)))
      = true) ∧
    List.Perm
      (((List.range 54).filter (fun f => decide (f % 9 ≠ 4) && decide (f % 9 % 2 = 1))).map
        (fun f => ((FROM_FACELET.getD f 0).toNat, (FACELET_TO_POS.getD f 0).toNat)))
      (((List.range 12).map (fun s => [(s, 0), (s, 1)])).flatten) ∧
    List.Perm
      (((List.range 54).filter (fun f => decide (f % 9 ≠ 4) && decide (f % 9 % 2 = 0))).map
        (fun f => ((FROM_FACELET.getD f 0).toNat, (FACELET_TO_POS.getD f 0).toNat)))
      (((List.range 8).map (fun s => [(s, 0), (s, 1), (s, 2)])).flatten) := by
  refine ⟨by decide, by decide, by decide⟩

/-- C6 counterexample: after forcing color U onto a sticker position of five
different corner slots (five `assign_col` calls) and propagating once, the
state is error-free (`propagate` returns `true` and no slot has its error
flag set) yet `colcounts[U] = -1 < 0`, so the claimed invariant
`colcounts[col] ≥ 0` fails in a non-error reachable state. -/
theorem C6_counterexample :
    (CubieBuilder.propagate cornerParams 50 c6Sequence).map
      (fun r => (r.1, r.2.colcounts.getD 0 0, r.2.opts.all (fun o => !o.error)))
      = some (true, -1, true) := by rfl

/-- C1 (code bug exhibit): on the prior `c1Tbl` the matcher returns the
non-empty string `c1Out` in which every color appears nine times and both
orientation sums are zero, yet the corner permutation it describes has odd
parity while the edge permutation has even parity — the returned string
violates the permutation-parity cube constraint (the bridge at line 474 of
match.cpp re-propagates the edge group instead of the corner group, and
`assign_cubie` overwrites an externally assigned `par` without checking). -/
theorem C1_parity_constraint_violated :
    match_colors c1Tbl idBgrs 3 50 300 = some c1Out ∧
    c1Out ≠ "" ∧
    CHARS.map (fun ch => c1Out.toList.count ch) = [9, 9, 9, 9, 9, 9] ∧
    stringOriSum cornerParams false c1Out = 0 ∧
    stringOriSum edgeParams true c1Out = 0 ∧
    invParity (stringPerm cornerParams false c1Out) = 1 ∧
    invParity (stringPerm edgeParams true c1Out) = 0 := by
  exact ⟨by rfl, by decide, by rfl, by rfl, by rfl, by rfl, by rfl⟩

/-- C2 (code bug exhibit): in the reachable driver state `c2Pre` the next
iteration pops edge facelet 43, its edge propagation succeeds with a known
parity while the passive corner group still has `par = -1`, and the
iteration succeeds — but the passive corner group ends up with only
`assign_par` applied (it is never propagated: propagating it would change
it, e.g. fire the last-two-by-parity rule) and the corner backup object is
not written, contrary to the claimed snapshot-assign-propagate sequence. -/
theorem C2_edge_bridge_skips_passive_propagation :
    runPops 50 39 (initState c1Tbl idBgrs 3) = c2PreLit ∧
    heapPop c2PreLit.heap = some ((41, 43, 4), c2PopRestLit) ∧
    43 % 9 % 2 = 1 ∧
    c2PreLit.corners.par = -1 ∧
    stepPop 50 { c2PreLit with heap := c2PopRestLit } 43 4 = some (Sum.inr c2PostLit) ∧
    c2PostLit.edges.par = 0 ∧
    c2PostLit.corners = c2PreLit.corners.assign_par 0 ∧
    c2PostLit.cornersBak = c2PreLit.cornersBak ∧
    (CubieBuilder.propagate cornerParams 50 (c2PreLit.corners.assign_par 0)).map Prod.snd
      ≠ some (c2PreLit.corners.assign_par 0) := by
  refine ⟨by rfl, by rfl, by decide, by rfl, by rfl, by rfl, by rfl, by rfl, by decide⟩

/-- C9 counterexample: with retry budget `n_attempts = 1` the claimed bound
is 54 pops, but on the prior `c9Tbl` the main loop does not finish within 54
pops (the loop fuel, one unit per pop, runs out) while a 108-pop budget lets
it return the solved-cube string after exactly 55 heap pops. -/
theorem C9_counterexample_55_pops :
    matchLoop 50 54 (initState c9Tbl idBgrs 1) 0 = none ∧
    (matchLoop 50 108 (initState c9Tbl idBgrs 1) 0).map (fun r => (r.1, r.2.1)) =
      some (Outcome.ok "UUUUUUUUURRRRRRRRRFFFFFFFFFDDDDDDDDDLLLLLLLLLBBBBBBBBB", 55) := by
  exact ⟨by rfl, by rfl⟩

/-- The failure handler only ever returns the two scan-failure outcomes. -/
theorem retry_inl_shape (st : MatchState) (f : Nat) (out : Outcome)
    (h : retry st f = Sum.inl out) :
    out = Outcome.scanError ∨ out = Outcome.budget := by
  simp only [retry] at h
  repeat' split at h
  all_goals
    first
    | exact Sum.noConfusion h
    | (injection h with h2; exact Or.inl h2.symm)
    | (injection h with h2; exact Or.inr h2.symm)

/-- A main-loop iteration either ends in the failure handler or succeeds. -/
theorem stepPop_shape (pfuel : Nat) (st : MatchState) (f col : Nat)
    (r : Sum Outcome MatchState) (h : stepPop pfuel st f col = some r) :
    (∃ st1, r = retry st1 f) ∨ (∃ st2, r = Sum.inr st2) := by
  simp only [stepPop] at h
  repeat' split at h
  all_goals
    first
    | exact Option.noConfusion h
    | (injection h with h2; exact Or.inl ⟨_, h2.symm⟩)
    | (injection h with h2; exact Or.inr ⟨_, h2.symm⟩)

/-- An `ok` outcome of the main loop always carries the assembled result
string of the final state. -/
theorem matchLoop_ok_string (pfuel : Nat) : ∀ (popfuel : Nat) (st0 : MatchState)
    (pops0 : Nat) (s : String) (pops : Nat) (st : MatchState),
    matchLoop pfuel popfuel st0 pops0 = some (Outcome.ok s, pops, st) → s = finishString st := by
  intro popfuel
  induction popfuel with
  | zero =>
    intro st0 pops0 s pops st h
    simp only [matchLoop] at h
    split at h
    · simp only [Option.some.injEq, Prod.mk.injEq, Outcome.ok.injEq] at h
      rw [← h.1, h.2.2]
    · exact Option.noConfusion h
  | succ popfuel ih =>
    intro st0 pops0 s pops st h
    cases hp : heapPop st0.heap with
    | none =>
      simp only [matchLoop, hp, Option.some.injEq, Prod.mk.injEq, Outcome.ok.injEq] at h
      rw [← h.1, h.2.2]
    | some pr =>
      obtain ⟨ent, rest⟩ := pr
      cases hs : stepPop pfuel { st0 with heap := rest } ent.2.1 ent.2.2 with
      | none =>
        simp only [matchLoop, hp, hs] at h
        exact Option.noConfusion h
      | some r =>
        cases r with
        | inl out =>
          simp only [matchLoop, hp, hs, Option.some.injEq, Prod.mk.injEq] at h
          rcases stepPop_shape _ _ _ _ _ hs with ⟨st1, hr⟩ | ⟨st2, hr⟩
          · rcases retry_inl_shape st1 ent.2.1 out hr.symm with h3 | h3 <;>
              · rw [h3] at h
                exact Outcome.noConfusion h.1
          · exact Sum.noConfusion hr
        | inr st2 =>
          simp only [matchLoop, hp, hs] at h
          exact ih st2 (pops0 + 1) s pops st h

/-- `CHARS.getD` always yields one of the six color letters. -/
theorem CHARS_getD_mem (n : Nat) : CHARS.getD n 'U' ∈ CHARS := by
  rw [List.getD_eq_getElem?_getD]
  cases h : CHARS[n]? with
  | none => simp [CHARS]
  | some c =>
    obtain ⟨hlt, he⟩ := List.getElem?_eq_some_iff.mp h
    simp only [Option.getD_some]
    rw [← he]
    exact CHARS.getElem_mem hlt

/-- The assembled result string always has 54 characters. -/
theorem finishString_length (st : MatchState) : (finishString st).length = 54 := by
  have h : (finishString st).length = ((List.range 54).map
      (fun i => CHARS.getD (st.facecube.getD i 0).toNat 'U')).length := rfl
  rw [h, List.length_map, List.length_range]

/-- Every character of the assembled result string is a color letter. -/
theorem finishString_chars (st : MatchState) : ∀ ch ∈ (finishString st).toList, ch ∈ CHARS := by
  intro ch hch
  have h : (finishString st).toList = (List.range 54).map
      (fun i => CHARS.getD (st.facecube.getD i 0).toNat 'U') := rfl
  rw [h] at hch
  obtain ⟨i, _, he⟩ := List.mem_map.mp hch
  rw [← he]
  exact CHARS_getD_mem _

/-- C8: `match_colors` returns the empty string exactly when the main loop
ended at one of its two failure sites (a facelet exhausting all six color
candidates, surfacing `Outcome.scanError` from line 497, or a retry budget
decremented below zero, surfacing `Outcome.budget` from line 502); in every
other completed case the result is a full 54-character string over the
alphabet {U,R,F,D,L,B}, never a partial one. -/
theorem C8_empty_iff_scan_failure (tbl : Nat → List Nat) (bgrs : List (Nat × Nat × Nat))
    (n : Int) (pfuel popfuel : Nat) (r : String)
    (h : match_colors tbl bgrs n pfuel popfuel = some r) :
    (r = "" ↔ ∃ pops st,
        matchLoop pfuel popfuel (initState tbl bgrs n) 0 = some (Outcome.scanError, pops, st) ∨
        matchLoop pfuel popfuel (initState tbl bgrs n) 0 = some (Outcome.budget, pops, st)) ∧
    (r ≠ "" → r.length = 54 ∧ ∀ ch ∈ r.toList, ch ∈ CHARS) := by
  unfold match_colors at h
  cases hm : matchLoop pfuel popfuel (initState tbl bgrs n) 0 with
  | none => rw [hm] at h; exact Option.noConfusion h
  | some res =>
    obtain ⟨out, pops, st⟩ := res
    cases out with
    | ok s =>
      simp only [hm, Option.some.injEq] at h
      subst h
      have hfin : s = finishString st := matchLoop_ok_string pfuel popfuel _ 0 s pops st hm
      constructor
      · constructor
        · intro he
          exfalso
          have hz : (finishString st).length = 0 := by rw [← hfin, he]; rfl
          rw [finishString_length] at hz
          exact absurd hz (by decide)
        · rintro ⟨pops', st', hcase | hcase⟩ <;> simp at hcase
      · intro _
        rw [hfin]
        exact ⟨finishString_length st, finishString_chars st⟩
    | scanError =>
      simp only [hm, Option.some.injEq] at h
      exact ⟨⟨fun _ => ⟨pops, st, Or.inl rfl⟩, fun _ => h.symm⟩,
             fun hne => absurd h.symm hne⟩
    | budget =>
      simp only [hm, Option.some.injEq] at h
      exact ⟨⟨fun _ => ⟨pops, st, Or.inr rfl⟩, fun _ => h.symm⟩,
             fun hne => absurd h.symm hne⟩

/-- Witness for C8: the identity-cube run returns a non-empty result, and
the theorem instantiated there yields the 54-character/alphabet guarantees. -/
theorem C8_witness :
    (("UUUUUUUUURRRRRRRRRFFFFFFFFFDDDDDDDDDLLLLLLLLLBBBBBBBBB" : String) = "" ↔ ∃ pops st,
        matchLoop 50 300 (initState idTbl idBgrs 3) 0 = some (Outcome.scanError, pops, st) ∨
        matchLoop 50 300 (initState idTbl idBgrs 3) 0 = some (Outcome.budget, pops, st)) ∧
    (("UUUUUUUUURRRRRRRRRFFFFFFFFFDDDDDDDDDLLLLLLLLLBBBBBBBBB" : String) ≠ "" →
      ("UUUUUUUUURRRRRRRRRFFFFFFFFFDDDDDDDDDLLLLLLLLLBBBBBBBBB" : String).length = 54 ∧
      ∀ ch ∈ ("UUUUUUUUURRRRRRRRRFFFFFFFFFDDDDDDDDDLLLLLLLLLBBBBBBBBB" : String).toList,
        ch ∈ CHARS) :=
  C8_empty_iff_scan_failure idTbl idBgrs 3 50 300
    "UUUUUUUUURRRRRRRRRFFFFFFFFFDDDDDDDDDLLLLLLLLLBBBBBBBBB" (by rfl)

/-- Non-negativity of all retry budgets. -/

theorem heapMax_mem (l : List (Int × Nat × Nat)) : ∀ x, heapMax l x ∈ x :: l := by
  induction l with
  | nil => intro x; simp [heapMax]
  | cons y rest ih =>
    intro x
    simp only [heapMax]
    rcases List.mem_cons.mp (ih (if tupLt x y then y else x)) with h | h
    · rw [h]
      split
      · exact List.mem_cons_of_mem _ (List.mem_cons_self _ _)
      · exact List.mem_cons_self _ _
    · exact List.mem_cons_of_mem _ (List.mem_cons_of_mem _ h)

theorem heapPop_mem (l : List (Int × Nat × Nat)) (m : Int × Nat × Nat)
    (rest : List (Int × Nat × Nat)) (h : heapPop l = some (m, rest)) :
    m ∈ l ∧ rest = heapErase l m := by
  cases l with
  | nil => exact Option.noConfusion h
  | cons x xs =>
    simp only [heapPop, Option.some.injEq, Prod.mk.injEq] at h
    constructor
    · exact h.1 ▸ heapMax_mem xs x
    · rw [← h.2, h.1]

theorem heapErase_perm (m : Int × Nat × Nat) :
    ∀ (l : List (Int × Nat × Nat)), m ∈ l → List.Perm l (m :: heapErase l m) := by
  intro l
  induction l with
  | nil => intro h; exact absurd h (List.not_mem_nil m)
  | cons x xs ih =>
    intro hm
    simp only [heapErase]
    split
    · rename_i hx
      rw [hx]
    · rename_i hx
      have hmem : m ∈ xs := by
        rcases List.mem_cons.mp hm with h | h
        · exact absurd h.symm hx
        · exact h
      have h1 : List.Perm (x :: xs) (x :: m :: heapErase xs m) := List.Perm.cons x (ih hmem)
      exact h1.trans (List.Perm.swap _ _ _)

/-- On the continue path, `retry` pushes one entry for the same facelet and
decrements that facelet's budget, which stays non-negative. -/
theorem retry_inr_state (st : MatchState) (f : Nat) (st2 : MatchState)
    (h : retry st f = Sum.inr st2) :
    (∃ v imax, st2.heap = (v, f, imax) :: st.heap) ∧
    st2.attempts = st.attempts.set f (st.attempts.getD f 0 - 1) ∧
    0 ≤ st.attempts.getD f 0 - 1 := by
  simp only [retry] at h
  split at h
  · exact Sum.noConfusion h
  · split at h
    · exact Sum.noConfusion h
    · rename_i hlt
      injection h with h2
      subst h2
      exact ⟨⟨_, _, rfl⟩, rfl, by omega⟩

/-- A successful iteration leaves heap and budgets unchanged (the popped
entry is gone); a retrying iteration pushes one entry for the popped facelet
and decrements its budget, which stays non-negative. -/
theorem stepPop_inr_state (pfuel : Nat) (st : MatchState) (f col : Nat) (st2 : MatchState)
    (h : stepPop pfuel st f col = some (Sum.inr st2)) :
    (st2.heap = st.heap ∧ st2.attempts = st.attempts) ∨
    ((∃ v imax, st2.heap = (v, f, imax) :: st.heap) ∧
      st2.attempts = st.attempts.set f (st.attempts.getD f 0 - 1) ∧
      0 ≤ st.attempts.getD f 0 - 1) := by
  simp only [stepPop] at h
  repeat' split at h
  all_goals
    first
    | exact Option.noConfusion h
    | (injection h with h2
       first
       | (injection h2 with h3; subst h3; exact Or.inl ⟨rfl, rfl⟩)
       | (refine Or.inr ?_
          have hr := retry_inr_state _ f st2 h2
          exact hr))

theorem attAll_retry_step (st : MatchState) (f : Nat)
    (h0 : attAll st) (hge : 0 ≤ st.attempts.getD f 0 - 1) :
    ∀ g : Nat, 0 ≤ (st.attempts.set f (st.attempts.getD f 0 - 1)).getD g 0 := by
  intro g
  rw [List.getD_eq_getElem?_getD, List.getElem?_set]
  split
  · split
    · simpa using hge
    · simp
  · rw [← List.getD_eq_getElem?_getD]
    exact h0 g

theorem potential_erase (st : MatchState) (e : Int × Nat × Nat) (he : e ∈ st.heap) :
    potential st = (st.attempts.getD e.2.1 0 + 1).toNat +
      ((heapErase st.heap e).map (fun x => (st.attempts.getD x.2.1 0 + 1).toNat)).sum := by
  have hp := heapErase_perm e st.heap he
  have hs := (hp.map (fun x => (st.attempts.getD x.2.1 0 + 1).toNat)).sum_eq
  simpa [potential] using hs

/-- Potential argument: whenever the main loop completes, the number of heap
pops it made is bounded by the initial potential. -/
theorem matchLoop_pops_le (pfuel : Nat) : ∀ (popfuel : Nat) (st : MatchState)
    (pops0 : Nat) (out : Outcome) (pops : Nat) (st' : MatchState),
    attAll st →
    matchLoop pfuel popfuel st pops0 = some (out, pops, st') →
    pops ≤ pops0 + potential st := by
  intro popfuel
  induction popfuel with
  | zero =>
    intro st pops0 out pops st' _ h
    simp only [matchLoop] at h
    split at h
    · simp only [Option.some.injEq, Prod.mk.injEq] at h
      omega
    · exact Option.noConfusion h
  | succ popfuel ih =>
    intro st pops0 out pops st' hatt h
    cases hp : heapPop st.heap with
    | none =>
      simp only [matchLoop, hp, Option.some.injEq, Prod.mk.injEq] at h
      omega
    | some pr =>
      obtain ⟨ent, rest⟩ := pr
      obtain ⟨hmem, hrest⟩ := heapPop_mem _ _ _ hp
      have hw1 : 1 ≤ (st.attempts.getD ent.2.1 0 + 1).toNat := by
        have := hatt ent.2.1; omega
      have hple := potential_erase st ent hmem
      cases hs : stepPop pfuel { st with heap := rest } ent.2.1 ent.2.2 with
      | none =>
        simp only [matchLoop, hp, hs] at h
        exact Option.noConfusion h
      | some r =>
        cases r with
        | inl o =>
          simp only [matchLoop, hp, hs, Option.some.injEq, Prod.mk.injEq] at h
          obtain ⟨-, hpp, -⟩ := h
          have hpos : 1 ≤ potential st := le_trans hw1 (by rw [hple]; omega)
          omega
        | inr st2 =>
          simp only [matchLoop, hp, hs] at h
          have hrel := stepPop_inr_state pfuel { st with heap := rest } ent.2.1 ent.2.2 st2 hs
          have hattrest : ∀ g : Nat, 0 ≤ ({ st with heap := rest } : MatchState).attempts.getD g 0 := hatt
          rcases hrel with ⟨hh, ha⟩ | ⟨⟨v, imax, hh⟩, ha, hge⟩
          · -- success: heap shrinks by the popped entry, budgets unchanged
            have hatt2 : attAll st2 := by
              intro g; rw [ha]; exact hatt g
            have hrec := ih st2 (pops0 + 1) out pops st' hatt2 h
            have hpot2 : potential st2 =
                ((heapErase st.heap ent).map
                  (fun x => (st.attempts.getD x.2.1 0 + 1).toNat)).sum := by
              simp only [potential, hh, ha, hrest]
            omega
          · -- retry: budget of the popped facelet decreases by one
            have hatt2 : attAll st2 := by
              intro g; rw [ha]
              exact attAll_retry_step st ent.2.1 hatt hge g
            have hrec := ih st2 (pops0 + 1) out pops st' hatt2 h
            -- the facelet index is in range, else its budget would be -1
            have hflen : ent.2.1 < st.attempts.length := by
              by_contra hge2
              rw [List.getD_eq_default _ _ (Nat.le_of_not_lt hge2)] at hge
              omega
            have hgd : (st.attempts.set ent.2.1 (st.attempts.getD ent.2.1 0 - 1)).getD
                ent.2.1 0 = st.attempts.getD ent.2.1 0 - 1 := by
              rw [List.getD_eq_getElem?_getD, List.getElem?_set_self hflen]
              rfl
            have hsum2 : ((rest.map (fun x =>
                (st2.attempts.getD x.2.1 0 + 1).toNat)).sum : Nat) ≤
                (rest.map (fun x => (st.attempts.getD x.2.1 0 + 1).toNat)).sum := by
              apply List.sum_le_sum
              intro x _
              rw [ha]
              rcases eq_or_ne ent.2.1 x.2.1 with heq | hne
              · rw [← heq, hgd]
                have := hatt ent.2.1
                omega
              · rw [List.getD_eq_getElem?_getD, List.getElem?_set_ne hne,
                    ← List.getD_eq_getElem?_getD]
            have hpot2 : potential st2 ≤ potential st - 1 := by
              have hhead : (st2.attempts.getD ent.2.1 0 + 1).toNat =
                  (st.attempts.getD ent.2.1 0).toNat := by
                rw [ha, hgd]
                have := hatt ent.2.1
                omega
              have hexp : potential st2 = (st2.attempts.getD ent.2.1 0 + 1).toNat +
                  (rest.map (fun x => (st2.attempts.getD x.2.1 0 + 1).toNat)).sum := by
                simp only [potential, hh]
                rfl
              have hrw : (rest.map (fun x => (st.attempts.getD x.2.1 0 + 1).toNat)).sum =
                  ((heapErase st.heap ent).map
                    (fun x => (st.attempts.getD x.2.1 0 + 1).toNat)).sum := by
                rw [hrest]
              have := hatt ent.2.1
              omega
            omega

theorem initFill_attempts (st : MatchState) (f : Nat) :
    (initFill st f).attempts = st.attempts := by
  unfold initFill
  split <;> rfl

theorem foldl_initFill_attempts : ∀ (L : List Nat) (st : MatchState),
    (L.foldl initFill st).attempts = st.attempts := by
  intro L
  induction L with
  | nil => intro st; rfl
  | cons x xs ih =>
    intro st
    rw [List.foldl_cons, ih, initFill_attempts]

theorem initFill_heap_len (st : MatchState) (f : Nat) :
    (initFill st f).heap.length ≤ st.heap.length + 1 := by
  unfold initFill
  split
  · simp
  · simp

theorem foldl_initFill_heap_len : ∀ (L : List Nat) (st : MatchState),
    (L.foldl initFill st).heap.length ≤ st.heap.length + L.length := by
  intro L
  induction L with
  | nil => intro st; simp
  | cons x xs ih =>
    intro st
    rw [List.foldl_cons]
    refine le_trans (ih _) ?_
    have := initFill_heap_len st x
    simp only [List.length_cons]
    omega

theorem initState_attempts (tbl : Nat → List Nat) (bgrs : List (Nat × Nat × Nat)) (n : Int) :
    (initState tbl bgrs n).attempts = List.replicate 54 n := by
  unfold initState
  simp only [foldl_initFill_attempts]

theorem initState_heap_len (tbl : Nat → List Nat) (bgrs : List (Nat × Nat × Nat)) (n : Int) :
    (initState tbl bgrs n).heap.length ≤ 54 := by
  unfold initState
  refine le_trans (foldl_initFill_heap_len _ _) ?_
  simp

/-- C9 amended: for every input and every positive retry budget, a completed
run of the main loop performs at most `54 × (n_attempts + 1)` heap pops (the
tight per-facelet bound is `n_attempts` failures plus one success, over the
48 non-center facelets). -/
theorem C9_amended_pop_bound (tbl : Nat → List Nat) (bgrs : List (Nat × Nat × Nat))
    (n : Int) (pfuel popfuel : Nat) (res : Outcome × Nat × MatchState)
    (hn : 0 < n)
    (h : matchLoop pfuel popfuel (initState tbl bgrs n) 0 = some res) :
    res.2.1 ≤ 54 * (n.toNat + 1) := by
  have hattempts := initState_attempts tbl bgrs n
  have hatt : attAll (initState tbl bgrs n) := by
    intro f
    rw [hattempts, List.getD_eq_getElem?_getD, List.getElem?_replicate]
    split
    · simpa using le_of_lt hn
    · simp
  obtain ⟨out, pops, st'⟩ := res
  change pops ≤ 54 * (n.toNat + 1)
  have hbound := matchLoop_pops_le pfuel popfuel _ 0 out pops st' hatt h
  have hpot : potential (initState tbl bgrs n) ≤ 54 * (n.toNat + 1) := by
    have hb : ∀ x ∈ (initState tbl bgrs n).heap.map
        (fun x => ((initState tbl bgrs n).attempts.getD x.2.1 0 + 1).toNat),
        x ≤ n.toNat + 1 := by
      intro x hx
      obtain ⟨e, _, he⟩ := List.mem_map.mp hx
      rw [← he, hattempts, List.getD_eq_getElem?_getD, List.getElem?_replicate]
      split
      · simp only [Option.getD_some]
        omega
      · simp only [Option.getD_none]
        omega
    have hs := List.sum_le_card_nsmul _ _ hb
    have hlen : ((initState tbl bgrs n).heap.map
        (fun x => ((initState tbl bgrs n).attempts.getD x.2.1 0 + 1).toNat)).length ≤ 54 := by
      rw [List.length_map]
      exact initState_heap_len tbl bgrs n
    simp only [smul_eq_mul, potential] at hs ⊢
    calc ((initState tbl bgrs n).heap.map
          (fun x => ((initState tbl bgrs n).attempts.getD x.2.1 0 + 1).toNat)).sum
        ≤ _ * (n.toNat + 1) := hs
      _ ≤ 54 * (n.toNat + 1) := Nat.mul_le_mul_right _ hlen
  omega


/-- Witness for the amended C9 bound at the `c9Tbl` input with budget 1:
that completed run (which `C9_counterexample_55_pops` shows makes 55 pops)
stays within the bound 108. -/
theorem C9_amended_witness : c9Final.2.1 ≤ 54 * ((1 : Int).toNat + 1) :=
  C9_amended_pop_bound c9Tbl idBgrs 1 50 108 c9Final (by decide) (by rfl)

theorem land_sub_trans (x y z : Nat) (h1 : x &&& y = x) (h2 : y &&& z = y) : x &&& z = x := by
  apply Nat.eq_of_testBit_eq
  intro i
  have hx := congrArg (fun m => m.testBit i) h1
  have hy := congrArg (fun m => m.testBit i) h2
  simp only [Nat.testBit_land] at hx hy ⊢
  cases hxi : x.testBit i <;> cases hyi : y.testBit i <;> cases hzi : z.testBit i <;> simp_all

theorem land_sub_left (x y : Nat) : (x &&& y) &&& x = x &&& y := by
  apply Nat.eq_of_testBit_eq
  intro i
  simp only [Nat.testBit_land]
  cases x.testBit i <;> cases y.testBit i <;> simp

theorem land_sub_right (x y : Nat) : (x &&& y) &&& y = x &&& y := by
  apply Nat.eq_of_testBit_eq
  intro i
  simp only [Nat.testBit_land]
  cases x.testBit i <;> cases y.testBit i <;> simp

theorem land_sub_both (x a b : Nat) (h1 : x &&& a = x) (h2 : x &&& b = x) :
    x &&& (a &&& b) = x := by
  apply Nat.eq_of_testBit_eq
  intro i
  have hx := congrArg (fun m => m.testBit i) h1
  have hy := congrArg (fun m => m.testBit i) h2
  simp only [Nat.testBit_land] at hx hy ⊢
  cases hxi : x.testBit i <;> cases hai : a.testBit i <;> cases hbi : b.testBit i <;> simp_all

theorem interAnd_sub_start : ∀ (l : List Opt) (a : Nat), interAnd a l &&& a = interAnd a l := by
  intro l
  induction l with
  | nil => intro a; exact Nat.and_self a
  | cons x xs ih =>
    intro a
    simp only [interAnd, List.foldl_cons]
    exact land_sub_trans _ _ _ (ih (a &&& x.colset)) (land_sub_left a x.colset)

theorem interAnd_sub_mem : ∀ (l : List Opt) (a : Nat) (x : Opt), x ∈ l →
    interAnd a l &&& x.colset = interAnd a l := by
  intro l
  induction l with
  | nil => intro a x hx; exact absurd hx (List.not_mem_nil x)
  | cons hd xs ih =>
    intro a x hx
    rcases List.mem_cons.mp hx with h | h
    · subst h
      simp only [interAnd, List.foldl_cons]
      exact land_sub_trans _ _ _ (interAnd_sub_start xs (a &&& x.colset))
        (land_sub_right a x.colset)
    · exact ih (a &&& hd.colset) x h

theorem interAnd_glb : ∀ (l : List Opt) (a y : Nat), y &&& a = y →
    (∀ x ∈ l, y &&& x.colset = y) → y &&& interAnd a l = y := by
  intro l
  induction l with
  | nil => intro a y h _; exact h
  | cons hd xs ih =>
    intro a y ha hl
    simp only [interAnd, List.foldl_cons]
    exact ih (a &&& hd.colset) y
      (land_sub_both y a hd.colset ha (hl hd (List.mem_cons_self hd xs)))
      (fun x hx => hl x (List.mem_cons_of_mem hd hx))

theorem update_opts (o : Options) : (Options.update o).opts = o.opts := by
  unfold Options.update
  split <;> rfl

theorem reduce_of_unchanged (o : Options) (q : Opt → Bool)
    (h : (o.opts.filter q).length = o.opts.length) : o.reduce q = o := by
  unfold Options.reduce
  rw [if_pos h]

theorem reduce_of_changed (o : Options) (q : Opt → Bool)
    (h : ¬(o.opts.filter q).length = o.opts.length) :
    o.reduce q = Options.update { o with opts := o.opts.filter q } := by
  unfold Options.reduce
  rw [if_neg h]

/-- The active prefix after any reduction is exactly the filtered prefix. -/
theorem reduce_opts (o : Options) (q : Opt → Bool) :
    (o.reduce q).opts = o.opts.filter q := by
  by_cases hc : (o.opts.filter q).length = o.opts.length
  · rw [reduce_of_unchanged o q hc]
    exact ((List.filter_sublist o.opts).eq_of_length hc).symm
  · rw [reduce_of_changed o q hc, update_opts]

theorem andOpts_sub_mem (first : Opt) (rest : List Opt) (x : Opt) (hx : x ∈ first :: rest) :
    interAnd first.colset rest &&& x.colset = interAnd first.colset rest := by
  rcases List.mem_cons.mp hx with h | h
  · subst h
    exact land_sub_trans _ _ _ (interAnd_sub_start rest x.colset) (Nat.and_self x.colset)
  · exact interAnd_sub_mem rest first.colset x h

/-- An error slot is never modified again. -/
theorem reduce_of_error (o : Options) (q : Opt → Bool) (hw : OWf o) (h : o.error = true) :
    o.reduce q = o := by
  apply reduce_of_unchanged
  rw [hw.errEmpty h]
  rfl

/-- Reductions preserve per-slot well-formedness. -/
theorem OWf_reduce (o : Options) (q : Opt → Bool) (hw : OWf o) : OWf (o.reduce q) := by
  by_cases hc : (o.opts.filter q).length = o.opts.length
  · rw [reduce_of_unchanged o q hc]; exact hw
  · rw [reduce_of_changed o q hc]
    unfold Options.update
    split
    · rename_i heq
      have heq' : o.opts.filter q = [] := heq
      refine { errEmpty := fun _ => heq', emptyErr := fun _ => rfl,
               fieldAcc := ?_, oriField := ?_, cubieField := ?_ }
      · intro first rest hfr
        rw [heq'] at hfr
        exact List.noConfusion hfr
      · refine Or.inr ?_
        intro opt hopt
        rw [heq'] at hopt
        exact absurd hopt (List.not_mem_nil opt)
      · refine Or.inr ?_
        intro opt hopt
        rw [heq'] at hopt
        exact absurd hopt (List.not_mem_nil opt)
    · rename_i first rest heq
      have heq' : o.opts.filter q = first :: rest := heq
      have herr : o.error = false := by
        by_contra hne
        have h1 : o.error = true := by
          cases he : o.error
          · exact absurd he hne
          · rfl
        rw [hw.errEmpty h1] at heq'
        exact List.noConfusion heq'
      refine { errEmpty := ?_, emptyErr := ?_, fieldAcc := ?_, oriField := ?_,
               cubieField := ?_ }
      · intro habs
        exact absurd habs (by simp [herr])
      · intro habs
        rw [heq'] at habs
        exact List.noConfusion habs
      · intro f r hfr
        rw [heq'] at hfr
        injection hfr with h1 h2
        subst h1
        subst h2
        rfl
      · show (if o.ori = -1 then _ else o.ori) = -1 ∨ _
        split
        · split
          · rename_i hall
            refine Or.inr ?_
            intro opt hopt
            rw [heq'] at hopt
            rcases List.mem_cons.mp hopt with h | h
            · rw [h]
            · rw [of_decide_eq_true (List.all_eq_true.mp hall opt h)]
          · exact Or.inl rfl
        · rename_i hne
          rcases hw.oriField with h | h
          · exact absurd h hne
          · refine Or.inr ?_
            intro opt hopt
            have hopt2 : opt ∈ o.opts.filter q := hopt
            exact h opt (List.mem_of_mem_filter hopt2)
      · show (if o.cubie = -1 then _ else o.cubie) = -1 ∨ _
        split
        · split
          · rename_i hall
            refine Or.inr ?_
            intro opt hopt
            rw [heq'] at hopt
            rcases List.mem_cons.mp hopt with h | h
            · rw [h]
            · rw [of_decide_eq_true (List.all_eq_true.mp hall opt h)]
          · exact Or.inl rfl
        · rename_i hne
          rcases hw.cubieField with h | h
          · exact absurd h hne
          · refine Or.inr ?_
            intro opt hopt
            have hopt2 : opt ∈ o.opts.filter q := hopt
            exact h opt (List.mem_of_mem_filter hopt2)

/-- Reductions only grow the cached colset (as a bit set). -/
theorem reduce_colset_mono (o : Options) (q : Opt → Bool) (hw : OWf o) :
    o.colset &&& (o.reduce q).colset = o.colset := by
  by_cases hc : (o.opts.filter q).length = o.opts.length
  · rw [reduce_of_unchanged o q hc]
    exact Nat.and_self o.colset
  · rw [reduce_of_changed o q hc]
    unfold Options.update
    split
    · exact Nat.and_self o.colset
    · rename_i first rest heq
      have heq' : o.opts.filter q = first :: rest := heq
      cases hop : o.opts with
      | nil =>
        rw [hop] at heq'
        exact List.noConfusion heq'
      | cons f r =>
        have hfield := hw.fieldAcc f r hop
        show o.colset &&& interAnd first.colset rest = o.colset
        apply interAnd_glb
        · have hmem : first ∈ o.opts := List.mem_of_mem_filter
            (heq' ▸ List.mem_cons_self first rest)
          rw [hop] at hmem
          rw [hfield]
          exact andOpts_sub_mem f r first hmem
        · intro x hx
          have hmem : x ∈ o.opts := List.mem_of_mem_filter
            (heq' ▸ List.mem_cons_of_mem first hx)
          rw [hop] at hmem
          rw [hfield]
          exact andOpts_sub_mem f r x hmem

theorem hasBit_eq_testBit (m col : Nat) : hasBit m col = m.testBit col := by
  unfold hasBit
  rw [Nat.one_shiftLeft, Nat.and_two_pow]
  cases h : m.testBit col <;> simp [h]

theorem hasBit_mono (x y col : Nat) (hxy : x &&& y = x) (h : hasBit x col = true) :
    hasBit y col = true := by
  rw [hasBit_eq_testBit] at h ⊢
  have hx := congrArg (fun m => m.testBit col) hxy
  simp only [Nat.testBit_land] at hx
  cases hyi : y.testBit col
  · rw [h, hyi] at hx
    simpa using hx
  · rfl

theorem colfree_sublist (l l' : List Opt) (col : Nat) (hsub : l'.Sublist l)
    (h : l.all (fun opt => !hasBit opt.colset col) = true) :
    l'.all (fun opt => !hasBit opt.colset col) = true := by
  rw [List.all_eq_true] at h ⊢
  intro x hx
  exact h x (hsub.mem hx)

theorem getD_set_self {α : Type} (l : List α) (i : Nat) (v d : α) (h : i < l.length) :
    (l.set i v).getD i d = v := by
  rw [List.getD_eq_getElem?_getD, List.getElem?_set_self h]
  rfl

theorem getD_set_ne {α : Type} (l : List α) (i j : Nat) (v d : α) (h : i ≠ j) :
    (l.set i v).getD j d = l.getD j d := by
  rw [List.getD_eq_getElem?_getD, List.getElem?_set_ne h, ← List.getD_eq_getElem?_getD]

theorem getD_map_range {α : Type} (n j : Nat) (f : Nat → α) (d : α) :
    ((List.range n).map f).getD j d = if j < n then f j else d := by
  rw [List.getD_eq_getElem?_getD, List.getElem?_map]
  by_cases h : j < n
  · rw [List.getElem?_range h]
    simp [h]
  · rw [List.getElem?_eq_none]
    · simp [h]
    · rw [List.length_range]
      omega

/-- Replacing one slot's option set by a reduction of itself preserves `BWf`.
This is the shape of every option-set mutation except the identity broadcast. -/
theorem BWf_set_reduce (p : Params) (b : CubieBuilder) (hw : BWf p b) (i : Nat)
    (q : Opt → Bool) :
    BWf p { b with opts := b.opts.set i ((b.opts.getD i default).reduce q) } := by
  by_cases hi : i < p.n_cubies
  case neg =>
    have hnoop : b.opts.set i ((b.opts.getD i default).reduce q) = b.opts := by
      apply List.set_eq_of_length_le
      rw [hw.optsLen]
      omega
    refine ⟨⟨?_, ?_, ?_, ?_, ?_⟩, ?_, ?_⟩ <;> simp only [hnoop] <;>
      first
      | exact hw.optsLen
      | exact hw.colsetsLen
      | exact hw.countsLen
      | exact hw.slotWf
      | exact hw.regOk
      | exact hw.countSync
      | exact hw.pruned
  case pos =>
    have hgd : ∀ j, j < p.n_cubies →
        ({ b with opts := b.opts.set i ((b.opts.getD i default).reduce q) }
          : CubieBuilder).opts.getD j default =
        (if j = i then (b.opts.getD i default).reduce q else b.opts.getD j default) := by
      intro j hj
      show (b.opts.set i _).getD j default = _
      rcases eq_or_ne j i with h | h
      · subst h
        rw [if_pos rfl, getD_set_self]
        rw [hw.optsLen]
        exact hi
      · rw [if_neg h, getD_set_ne]
        omega
    refine { optsLen := ?_, colsetsLen := hw.colsetsLen, countsLen := hw.countsLen,
             slotWf := ?_, regOk := ?_, countSync := hw.countSync, pruned := ?_ }
    · show (b.opts.set i _).length = p.n_cubies
      rw [List.length_set]
      exact hw.optsLen
    · intro j hj
      rw [hgd j hj]
      split
      · exact OWf_reduce _ q (hw.slotWf i hi)
      · exact hw.slotWf j hj
    · intro j hj
      show b.colsets.getD j 0 &&& _ = b.colsets.getD j 0
      rw [hgd j hj]
      split
      · rename_i h
        subst h
        exact land_sub_trans _ _ _ (hw.regOk j hj)
          (reduce_colset_mono _ q (hw.slotWf j hj))
      · exact hw.regOk j hj
    · intro col hcol hle j hj
      show hasBit ((b.opts.set i _).getD j default).colset col = true ∨
        ((b.opts.set i _).getD j default).opts.all _ = true
      have hgd' := hgd j hj
      rw [show ({ b with opts := b.opts.set i ((b.opts.getD i default).reduce q) }
          : CubieBuilder).opts = b.opts.set i ((b.opts.getD i default).reduce q) from rfl]
        at hgd'
      rw [hgd']
      split
      · rename_i h
        subst h
        rcases hw.pruned col hcol hle j hj with hca | hca
        · exact Or.inl (hasBit_mono _ _ col
            (reduce_colset_mono _ q (hw.slotWf j hj)) hca)
        · refine Or.inr ?_
          rw [reduce_opts]
          exact colfree_sublist _ _ col (List.filter_sublist _) hca
      · exact hw.pruned col hcol hle j hj

/-- `BWf` only depends on the counts, registered colsets and option sets. -/
theorem BWf_of_eq (p : Params) (b b' : CubieBuilder) (hw : BWf p b)
    (h1 : b'.colcounts = b.colcounts) (h2 : b'.colsets = b.colsets)
    (h3 : b'.opts = b.opts) : BWf p b' :=
  { optsLen := by rw [h3]; exact hw.optsLen,
    colsetsLen := by rw [h2]; exact hw.colsetsLen,
    countsLen := by rw [h1]; exact hw.countsLen,
    slotWf := by rw [h3]; exact hw.slotWf,
    regOk := by rw [h2, h3]; exact hw.regOk,
    countSync := by
      intro col hcol
      unfold syncAt
      rw [h1, h2]
      exact hw.countSync col hcol,
    pruned := by
      intro col hcol
      unfold prunedAt
      rw [h1, h3]
      exact hw.pruned col hcol }

/-- The `isnot_cubie` broadcast of `assign_cubie` preserves `BWf`. -/
theorem BWf_opts_broadcast (p : Params) (b : CubieBuilder) (hw : BWf p b) (i c : Nat) :
    BWf p { b with opts := (List.range p.n_cubies).map (fun j =>
      if j = i then b.opts.getD j default
      else (b.opts.getD j default).isnot_cubie c) } := by
  refine { optsLen := ?_, colsetsLen := hw.colsetsLen, countsLen := hw.countsLen,
           slotWf := ?_, regOk := ?_, countSync := hw.countSync, pruned := ?_ }
  · rw [show ({ b with opts := (List.range p.n_cubies).map (fun j =>
      if j = i then b.opts.getD j default
      else (b.opts.getD j default).isnot_cubie c) } : CubieBuilder).opts =
      (List.range p.n_cubies).map (fun j =>
      if j = i then b.opts.getD j default
      else (b.opts.getD j default).isnot_cubie c) from rfl,
      List.length_map, List.length_range]
  · intro j hj
    rw [getD_map_range]
    rw [if_pos hj]
    split
    · exact hw.slotWf j hj
    · exact OWf_reduce _ _ (hw.slotWf j hj)
  · intro j hj
    rw [getD_map_range]
    rw [if_pos hj]
    split
    · exact hw.regOk j hj
    · exact land_sub_trans _ _ _ (hw.regOk j hj)
        (reduce_colset_mono _ _ (hw.slotWf j hj))
  · intro col hcol hle j hj
    rw [getD_map_range]
    rw [if_pos hj]
    split
    · exact hw.pruned col hcol hle j hj
    · rcases hw.pruned col hcol hle j hj with hca | hca
      · exact Or.inl (hasBit_mono _ _ col
          (reduce_colset_mono _ _ (hw.slotWf j hj)) hca)
      · refine Or.inr ?_
        rw [Options.isnot_cubie, reduce_opts]
        exact colfree_sublist _ _ col (List.filter_sublist _) hca

/-- `assign_col` preserves `BWf`. -/
theorem BWf_assign_col (p : Params) (b : CubieBuilder) (hw : BWf p b)
    (c pos col : Nat) : BWf p (b.assign_col c pos col) :=
  BWf_set_reduce p b hw c _

/-- `assign_par` preserves `BWf`. -/
theorem BWf_assign_par (p : Params) (b : CubieBuilder) (hw : BWf p b) (v : Int) :
    BWf p (b.assign_par v) :=
  BWf_of_eq p b _ hw rfl rfl rfl

/-- `assign_ori` preserves `BWf`. -/
theorem BWf_assign_ori (p : Params) (b : CubieBuilder) (hw : BWf p b) (i : Nat) :
    BWf p (CubieBuilder.assign_ori b i).2 := by
  simp only [CubieBuilder.assign_ori]
  split
  · exact hw
  · exact BWf_of_eq p b _ hw rfl rfl rfl

/-- `assign_cubie` preserves `BWf`. -/
theorem BWf_assign_cubie (p : Params) (b : CubieBuilder) (hw : BWf p b) (i : Nat) :
    BWf p (CubieBuilder.assign_cubie p b i).2 := by
  simp only [CubieBuilder.assign_cubie]
  split
  · exact hw
  · exact BWf_of_eq p _ _ (BWf_opts_broadcast p b hw i
      ((b.opts.getD i default).cubie.toNat)) rfl rfl rfl

/-- If `x ⊆ y` as bitsets then `x ||| (y ^^^ x) = y`. -/
theorem land_or_xor (x y : Nat) (h : x &&& y = x) : x ||| (y ^^^ x) = y := by
  apply Nat.eq_of_testBit_eq
  intro i
  have hx := congrArg (fun m => m.testBit i) h
  simp only [Nat.testBit_and] at hx
  simp only [Nat.testBit_or, Nat.testBit_xor]
  cases hxi : x.testBit i <;> cases hyi : y.testBit i <;> simp_all

/-- Membership in a union of bitsets. -/
theorem hasBit_or (x y col : Nat) :
    hasBit (x ||| y) col = (hasBit x col || hasBit y col) := by
  simp [hasBit_eq_testBit, Nat.testBit_or]

/-- A bit of `y ^^^ x` with `x ⊆ y` is a bit of `y` missing from `x`. -/
theorem land_xor_bit (x y i : Nat) (h : x &&& y = x) (hx : (y ^^^ x).testBit i = true) :
    x.testBit i = false ∧ y.testBit i = true := by
  have hxe := congrArg (fun m => m.testBit i) h
  simp only [Nat.testBit_and] at hxe
  rw [Nat.testBit_xor] at hx
  cases hxi : x.testBit i <;> cases hyi : y.testBit i <;> simp_all

/-- `pruneCol` is the fold of the named step function. -/
theorem pruneCol_eq_foldl (p : Params) (b : CubieBuilder) (col : Nat) (ch : Bool) :
    CubieBuilder.pruneCol p b col ch = (List.range p.n_cubies).foldl (pcStep col) (b, ch) :=
  rfl

/-- The two shapes of a `pcStep` application. -/
theorem pcStep_cases (col : Nat) (a : CubieBuilder × Bool) (i : Nat) :
    (pcStep col a i = a ∧ (a.1.opts.getD i default).colset &&& (1 <<< col) ≠ 0) ∨
    (pcStep col a i =
      ({ a.1 with opts := a.1.opts.set i ((a.1.opts.getD i default).hasnot_col col) },
       true) ∧
      (a.1.opts.getD i default).colset &&& (1 <<< col) = 0) := by
  unfold pcStep
  split
  · right; exact ⟨rfl, by assumption⟩
  · left; exact ⟨rfl, by assumption⟩

/-- `pcStep` does not touch the color counts. -/
theorem pcStep_counts (col : Nat) (a : CubieBuilder × Bool) (i : Nat) :
    ((pcStep col a i).1).colcounts = a.1.colcounts := by
  unfold pcStep; split <;> rfl

/-- `pcStep` does not touch the registered colsets. -/
theorem pcStep_colsets (col : Nat) (a : CubieBuilder × Bool) (i : Nat) :
    ((pcStep col a i).1).colsets = a.1.colsets := by
  unfold pcStep; split <;> rfl

/-- `pcStep` keeps the number of slots. -/
theorem pcStep_optsLen (col : Nat) (a : CubieBuilder × Bool) (i : Nat) :
    ((pcStep col a i).1).opts.length = a.1.opts.length := by
  unfold pcStep
  split
  · show (a.1.opts.set i _).length = _
    exact List.length_set a.1.opts i _
  · rfl

/-- `pcStep` at slot `i` leaves every other slot unchanged. -/
theorem pcStep_getD_ne (col : Nat) (a : CubieBuilder × Bool) (i j : Nat) (hne : j ≠ i) :
    ((pcStep col a i).1).opts.getD j default = a.1.opts.getD j default := by
  unfold pcStep
  split
  · show (a.1.opts.set i _).getD j default = _
    exact getD_set_ne _ _ _ _ _ (fun he => hne he.symm)
  · rfl

/-- Folds of `pcStep` do not touch the color counts. -/
theorem pcFold_counts (col : Nat) :
    ∀ (L : List Nat) (a : CubieBuilder × Bool),
      ((L.foldl (pcStep col) a).1).colcounts = a.1.colcounts
  | [], _ => rfl
  | i :: L, a => (pcFold_counts col L (pcStep col a i)).trans (pcStep_counts col a i)

/-- Folds of `pcStep` do not touch the registered colsets. -/
theorem pcFold_colsets (col : Nat) :
    ∀ (L : List Nat) (a : CubieBuilder × Bool),
      ((L.foldl (pcStep col) a).1).colsets = a.1.colsets
  | [], _ => rfl
  | i :: L, a => (pcFold_colsets col L (pcStep col a i)).trans (pcStep_colsets col a i)

/-- Folds of `pcStep` keep the number of slots. -/
theorem pcFold_optsLen (col : Nat) :
    ∀ (L : List Nat) (a : CubieBuilder × Bool),
      ((L.foldl (pcStep col) a).1).opts.length = a.1.opts.length
  | [], _ => rfl
  | i :: L, a => (pcFold_optsLen col L (pcStep col a i)).trans (pcStep_optsLen col a i)

/-- Folds of `pcStep` leave slots outside the index list unchanged. -/
theorem pcFold_getD_notMem (col : Nat) :
    ∀ (L : List Nat) (a : CubieBuilder × Bool) (j : Nat), j ∉ L →
      ((L.foldl (pcStep col) a).1).opts.getD j default = a.1.opts.getD j default
  | [], _, _, _ => rfl
  | i :: L, a, j, hj => by
    rw [List.foldl_cons]
    have hj2 : j ∉ L := fun h => hj (List.mem_cons_of_mem _ h)
    have hji : j ≠ i := fun h => hj (by rw [h]; exact List.mem_cons_self ..)
    exact (pcFold_getD_notMem col L (pcStep col a i) j hj2).trans
      (pcStep_getD_ne col a i j hji)

/-- Core version of `BWf_set_reduce`: replacing one slot by a reduction of
itself preserves the structural invariant. -/
theorem CWf_set_reduce (p : Params) (b : CubieBuilder) (hw : CWf p b) (i : Nat)
    (q : Opt → Bool) :
    CWf p { b with opts := b.opts.set i ((b.opts.getD i default).reduce q) } := by
  by_cases hi : i < p.n_cubies
  case neg =>
    have hnoop : b.opts.set i ((b.opts.getD i default).reduce q) = b.opts := by
      apply List.set_eq_of_length_le
      rw [hw.optsLen]
      omega
    refine ⟨?_, ?_, ?_, ?_, ?_⟩ <;> simp only [hnoop] <;>
      first
      | exact hw.optsLen
      | exact hw.colsetsLen
      | exact hw.countsLen
      | exact hw.slotWf
      | exact hw.regOk
  case pos =>
    have hgd : ∀ j, j < p.n_cubies →
        ({ b with opts := b.opts.set i ((b.opts.getD i default).reduce q) }
          : CubieBuilder).opts.getD j default =
        (if j = i then (b.opts.getD i default).reduce q else b.opts.getD j default) := by
      intro j hj
      show (b.opts.set i _).getD j default = _
      rcases eq_or_ne j i with h | h
      · subst h
        rw [if_pos rfl, getD_set_self]
        rw [hw.optsLen]
        exact hi
      · rw [if_neg h, getD_set_ne]
        omega
    refine ⟨?_, hw.colsetsLen, hw.countsLen, ?_, ?_⟩
    · show (b.opts.set i _).length = p.n_cubies
      rw [List.length_set]
      exact hw.optsLen
    · intro j hj
      rw [hgd j hj]
      split
      · exact OWf_reduce _ q (hw.slotWf i hi)
      · exact hw.slotWf j hj
    · intro j hj
      show b.colsets.getD j 0 &&& _ = b.colsets.getD j 0
      rw [hgd j hj]
      split
      · rename_i h
        subst h
        exact land_sub_trans _ _ _ (hw.regOk j hj)
          (reduce_colset_mono _ q (hw.slotWf j hj))
      · exact hw.regOk j hj

/-- `pcStep` preserves the structural invariant. -/
theorem pcStep_CWf (p : Params) (col : Nat) (a : CubieBuilder × Bool) (i : Nat)
    (hw : CWf p a.1) : CWf p (pcStep col a i).1 := by
  unfold pcStep
  split
  · exact CWf_set_reduce p a.1 hw i _
  · exact hw

/-- `pcStep` preserves full builder well-formedness. -/
theorem pcStep_BWf (p : Params) (col : Nat) (a : CubieBuilder × Bool) (i : Nat)
    (hw : BWf p a.1) : BWf p (pcStep col a i).1 := by
  unfold pcStep
  split
  · exact BWf_set_reduce p a.1 hw i _
  · exact hw

/-- Folds of `pcStep` preserve the structural invariant. -/
theorem pcFold_CWf (p : Params) (col : Nat) :
    ∀ (L : List Nat) (a : CubieBuilder × Bool), CWf p a.1 →
      CWf p ((L.foldl (pcStep col) a).1)
  | [], _, hw => hw
  | i :: L, a, hw => pcFold_CWf p col L (pcStep col a i) (pcStep_CWf p col a i hw)

/-- Folds of `pcStep` preserve full builder well-formedness. -/
theorem pcFold_BWf (p : Params) (col : Nat) :
    ∀ (L : List Nat) (a : CubieBuilder × Bool), BWf p a.1 →
      BWf p ((L.foldl (pcStep col) a).1)
  | [], _, hw => hw
  | i :: L, a, hw => pcFold_BWf p col L (pcStep col a i) (pcStep_BWf p col a i hw)

/-- `pcStep` preserves the pruning property of any color. -/
theorem pcStep_prunedAt (p : Params) (col col' : Nat) (a : CubieBuilder × Bool) (i : Nat)
    (hcw : CWf p a.1) (hp : prunedAt p a.1 col') : prunedAt p (pcStep col a i).1 col' := by
  intro hle j hj
  rw [pcStep_counts col a i] at hle
  have hp' := hp hle j hj
  rcases pcStep_cases col a i with ⟨he, -⟩ | ⟨he, -⟩ <;> rw [he]
  · exact hp'
  · show hasBit ((a.1.opts.set i ((a.1.opts.getD i default).hasnot_col col)).getD j
        default).colset col' = true ∨
      ((a.1.opts.set i ((a.1.opts.getD i default).hasnot_col col)).getD j
        default).opts.all (fun opt => !hasBit opt.colset col') = true
    rcases eq_or_ne j i with hji | hji
    · subst hji
      by_cases hjlen : j < a.1.opts.length
      · rw [getD_set_self _ _ _ _ hjlen]
        rcases hp' with hca | hca
        · exact Or.inl (hasBit_mono _ _ col'
            (reduce_colset_mono _ _ (hcw.slotWf j hj)) hca)
        · refine Or.inr ?_
          rw [Options.hasnot_col, reduce_opts]
          exact colfree_sublist _ _ col' (List.filter_sublist _) hca
      · rw [List.set_eq_of_length_le (by omega)]
        exact hp'
    · rw [getD_set_ne _ _ _ _ _ (fun he2 => hji he2.symm)]
      exact hp'

/-- Folds of `pcStep` preserve the pruning property of any color. -/
theorem pcFold_prunedAt (p : Params) (col col' : Nat) :
    ∀ (L : List Nat) (a : CubieBuilder × Bool), CWf p a.1 → prunedAt p a.1 col' →
      prunedAt p ((L.foldl (pcStep col) a).1) col'
  | [], _, _, hp => hp
  | i :: L, a, hw, hp => pcFold_prunedAt p col col' L (pcStep col a i)
      (pcStep_CWf p col a i hw) (pcStep_prunedAt p col col' a i hw hp)

/-- After `pcStep` at a slot, the slot itself either has the color in its
certain colset or is free of every option containing the color. -/
theorem pcStep_post (col : Nat) (a : CubieBuilder × Bool) (i : Nat)
    (hlen : i < a.1.opts.length) :
    hasBit ((pcStep col a i).1.opts.getD i default).colset col = true ∨
    ((pcStep col a i).1.opts.getD i default).opts.all
      (fun opt => !hasBit opt.colset col) = true := by
  rcases pcStep_cases col a i with ⟨he, hc⟩ | ⟨he, hc⟩ <;> rw [he]
  · left
    unfold hasBit
    simp only [ne_eq, bne_iff_ne]
    exact hc
  · right
    show ((a.1.opts.set i ((a.1.opts.getD i default).hasnot_col col)).getD i
      default).opts.all (fun opt => !hasBit opt.colset col) = true
    rw [getD_set_self _ _ _ _ hlen, Options.hasnot_col, reduce_opts]
    rw [List.all_eq_true]
    intro opt hopt
    have hq := (List.mem_filter.mp hopt).2
    simp only [decide_eq_true_eq] at hq
    simp [hasBit, hq]

/-- A fold of `pcStep` over a duplicate-free list of in-range slots makes the
slot/color pruning disjunction hold at every listed slot. -/
theorem pcFold_establishes (p : Params) (col : Nat) :
    ∀ (L : List Nat) (a : CubieBuilder × Bool), a.1.opts.length = p.n_cubies →
      L.Nodup → (∀ i ∈ L, i < p.n_cubies) → ∀ i ∈ L,
      hasBit (((L.foldl (pcStep col) a).1).opts.getD i default).colset col = true ∨
      (((L.foldl (pcStep col) a).1).opts.getD i default).opts.all
        (fun opt => !hasBit opt.colset col) = true
  | [], _, _, _, _, i, hi => nomatch hi
  | j :: L, a, hlen, hnd, hbnd, i, hi => by
    rw [List.foldl_cons]
    rcases List.mem_cons.mp hi with he | hmem
    · subst he
      rw [pcFold_getD_notMem col L (pcStep col a i) i (List.nodup_cons.mp hnd).1]
      refine pcStep_post col a i ?_
      rw [hlen]
      exact hbnd i hi
    · exact pcFold_establishes p col L (pcStep col a j)
        ((pcStep_optsLen col a j).trans hlen) (List.nodup_cons.mp hnd).2
        (fun k hk => hbnd k (List.mem_cons_of_mem _ hk)) i hmem

/-- `pruneCol` preserves the structural invariant. -/
theorem pruneCol_CWf (p : Params) (b : CubieBuilder) (hw : CWf p b) (col : Nat)
    (ch : Bool) : CWf p (CubieBuilder.pruneCol p b col ch).1 := by
  rw [pruneCol_eq_foldl]
  exact pcFold_CWf p col _ _ hw

/-- `pruneCol` preserves full builder well-formedness. -/
theorem pruneCol_BWf (p : Params) (b : CubieBuilder) (hw : BWf p b) (col : Nat)
    (ch : Bool) : BWf p (CubieBuilder.pruneCol p b col ch).1 := by
  rw [pruneCol_eq_foldl]
  exact pcFold_BWf p col _ _ hw

/-- `pruneCol` does not touch the color counts. -/
theorem pruneCol_counts (p : Params) (b : CubieBuilder) (col : Nat) (ch : Bool) :
    (CubieBuilder.pruneCol p b col ch).1.colcounts = b.colcounts := by
  rw [pruneCol_eq_foldl]
  exact pcFold_counts col _ _

/-- `pruneCol` does not touch the registered colsets. -/
theorem pruneCol_colsets (p : Params) (b : CubieBuilder) (col : Nat) (ch : Bool) :
    (CubieBuilder.pruneCol p b col ch).1.colsets = b.colsets := by
  rw [pruneCol_eq_foldl]
  exact pcFold_colsets col _ _

/-- `pruneCol` preserves the color-count identity of any color. -/
theorem pruneCol_syncAt (p : Params) (b : CubieBuilder) (col col' : Nat) (ch : Bool)
    (hs : syncAt p b col') : syncAt p (CubieBuilder.pruneCol p b col ch).1 col' := by
  unfold syncAt at *
  simp only [pruneCol_counts, pruneCol_colsets]
  exact hs

/-- `pruneCol` preserves the pruning property of any color. -/
theorem pruneCol_prunedAt (p : Params) (b : CubieBuilder) (hcw : CWf p b)
    (col col' : Nat) (ch : Bool) (hp : prunedAt p b col') :
    prunedAt p (CubieBuilder.pruneCol p b col ch).1 col' := by
  rw [pruneCol_eq_foldl]
  exact pcFold_prunedAt p col col' _ _ hcw hp

/-- After `pruneCol` on a color, every slot either has the color in its
certain colset or is free of every option containing the color. -/
theorem pruneCol_establishes (p : Params) (b : CubieBuilder)
    (hlen : b.opts.length = p.n_cubies) (col : Nat) (ch : Bool) :
    ∀ i < p.n_cubies,
      hasBit ((CubieBuilder.pruneCol p b col ch).1.opts.getD i default).colset col = true ∨
      ((CubieBuilder.pruneCol p b col ch).1.opts.getD i default).opts.all
        (fun opt => !hasBit opt.colset col) = true := by
  intro i hi
  rw [pruneCol_eq_foldl]
  exact pcFold_establishes p col _ _ hlen (List.nodup_range _)
    (fun j hj => List.mem_range.mp hj) i (List.mem_range.mpr hi)

/-- Changing a predicate at one point changes the count of range elements
satisfying it by the difference of the point values. -/
theorem filter_length_point (i : Nat) (pold pnew : Nat → Bool)
    (hsame : ∀ j, j ≠ i → pnew j = pold j) :
    ∀ n, i < n →
    (((List.range n).filter pnew).length : Int) + (if pold i = true then 1 else 0) =
    (((List.range n).filter pold).length : Int) + (if pnew i = true then 1 else 0)
  | 0, h => absurd h (by omega)
  | n + 1, h => by
    rw [List.range_succ, List.filter_append, List.filter_append,
      List.length_append, List.length_append]
    rcases Nat.lt_or_ge i n with hin | hin
    · have hIH := filter_length_point i pold pnew hsame n hin
      have hne : n ≠ i := by omega
      have htail : List.filter pnew [n] = List.filter pold [n] := by
        simp [List.filter_cons, hsame n hne]
      rw [htail]
      push_cast
      push_cast at hIH
      omega
    · have hie : i = n := by omega
      subst hie
      have hfeq : (List.range i).filter pnew = (List.range i).filter pold :=
        List.filter_congr (fun j hj => hsame j (by
          have := List.mem_range.mp hj
          omega))
      rw [hfeq]
      by_cases hpn : pnew i = true <;> by_cases hpo : pold i = true <;>
        simp [List.filter_cons, hpn, hpo]

/-- `regDiffs` is the fold of the named per-color step over the builder with
the slot's registered colset updated. -/
theorem regDiffs_eq_foldl (p : Params) (b : CubieBuilder) (i : Nat) (ch : Bool) :
    CubieBuilder.regDiffs p b i ch =
      (List.range colorCOUNT).foldl
        (rdStep p ((b.opts.getD i default).colset ^^^ b.colsets.getD i 0))
        ({ b with colsets := b.colsets.set i (b.colsets.getD i 0 ||| ((b.opts.getD i default).colset ^^^ b.colsets.getD i 0)) }, ch) :=
  rfl

/-- Invariant maintenance for the per-color fold of `regDiffs`: starting from
a structurally sound builder whose counts are synced except for a one-too-high
stale offset at the pending diff colors, the fold restores full
well-formedness. -/
theorem rdFold_BWf (p : Params) (diff : Nat) :
    ∀ (COLS : List Nat) (a : CubieBuilder × Bool),
      CWf p a.1 →
      COLS.Nodup →
      (∀ col ∈ COLS, col < colorCOUNT) →
      (∀ col, col < colorCOUNT → col ∉ COLS → syncAt p a.1 col) →
      (∀ col ∈ COLS, a.1.colcounts.getD col 0 =
        4 - (((List.range p.n_cubies).filter
          (fun j => hasBit (a.1.colsets.getD j 0) col)).length : Int) +
        (if diff &&& (1 <<< col) = 0 then 0 else 1)) →
      (∀ col, col < colorCOUNT → prunedAt p a.1 col) →
      BWf p ((COLS.foldl (rdStep p diff) a).1)
  | [], a, hcw, _, _, hdone, _, hpr =>
      { toCWf := hcw,
        countSync := fun col hcol => hdone col hcol (fun h => nomatch h),
        pruned := fun col hcol => hpr col hcol }
  | col :: COLS, a, hcw, hnd, hbnd, hdone, hpend, hpr => by
    rw [List.foldl_cons]
    have hcol6 : col < colorCOUNT := hbnd col (List.mem_cons_self ..)
    have hnotin : col ∉ COLS := (List.nodup_cons.mp hnd).1
    have hndt : COLS.Nodup := (List.nodup_cons.mp hnd).2
    have hbndt : ∀ c ∈ COLS, c < colorCOUNT :=
      fun c hc => hbnd c (List.mem_cons_of_mem _ hc)
    have hmemiff : ∀ c, c ∉ COLS → c ≠ col → c ∉ col :: COLS := by
      intro c h1 h2 hmem
      rcases List.mem_cons.mp hmem with h | h
      · exact h2 h
      · exact h1 h
    by_cases hdb : diff &&& (1 <<< col) = 0
    · have hstep : rdStep p diff a col = a := by
        unfold rdStep
        rw [if_pos hdb]
      rw [hstep]
      refine rdFold_BWf p diff COLS a hcw hndt hbndt ?_
        (fun c hc => hpend c (List.mem_cons_of_mem _ hc)) hpr
      intro c hc hcnot
      rcases eq_or_ne c col with he | hne
      · have hp := hpend col (List.mem_cons_self ..)
        rw [if_pos hdb] at hp
        unfold syncAt
        rw [he]
        omega
      · exact hdone c hc (hmemiff c hcnot hne)
    · simp only [rdStep, if_neg hdb]
      have hccl : col < a.1.colcounts.length := by
        rw [hcw.countsLen]
        exact hcol6
      have hgetc : (a.1.colcounts.set col (a.1.colcounts.getD col 0 - 1)).getD col 0 =
          a.1.colcounts.getD col 0 - 1 := getD_set_self _ _ _ _ hccl
      have hgetne : ∀ c, c ≠ col →
          (a.1.colcounts.set col (a.1.colcounts.getD col 0 - 1)).getD c 0 =
          a.1.colcounts.getD c 0 :=
        fun c hc => getD_set_ne _ _ _ _ _ (fun he => hc he.symm)
      have hcw2 : CWf p { a.1 with colcounts := a.1.colcounts.set col (a.1.colcounts.getD col 0 - 1) } :=
        { optsLen := hcw.optsLen, colsetsLen := hcw.colsetsLen,
          countsLen := by
            show (a.1.colcounts.set _ _).length = _
            rw [List.length_set]
            exact hcw.countsLen,
          slotWf := hcw.slotWf, regOk := hcw.regOk }
      have hdone2 : ∀ c, c < colorCOUNT → c ∉ COLS → syncAt p { a.1 with colcounts := a.1.colcounts.set col (a.1.colcounts.getD col 0 - 1) } c := by
        intro c hc hcnot
        rcases eq_or_ne c col with he | hne
        · have hp := hpend col (List.mem_cons_self ..)
          rw [if_neg hdb] at hp
          unfold syncAt
          rw [he]
          show (a.1.colcounts.set col (a.1.colcounts.getD col 0 - 1)).getD col 0 =
            4 - (((List.range p.n_cubies).filter
              (fun j => hasBit (a.1.colsets.getD j 0) col)).length : Int)
          rw [hgetc]
          omega
        · have hd := hdone c hc (hmemiff c hcnot hne)
          unfold syncAt at hd ⊢
          show (a.1.colcounts.set col (a.1.colcounts.getD col 0 - 1)).getD c 0 =
            4 - (((List.range p.n_cubies).filter
              (fun j => hasBit (a.1.colsets.getD j 0) c)).length : Int)
          rw [hgetne c hne]
          exact hd
      have hpend2 : ∀ c ∈ COLS, ({ a.1 with colcounts := a.1.colcounts.set col (a.1.colcounts.getD col 0 - 1) } : CubieBuilder).colcounts.getD c 0 =
          4 - (((List.range p.n_cubies).filter
            (fun j => hasBit (({ a.1 with colcounts := a.1.colcounts.set col (a.1.colcounts.getD col 0 - 1) } : CubieBuilder).colsets.getD j 0) c)).length : Int) +
          (if diff &&& (1 <<< c) = 0 then 0 else 1) := by
        intro c hc
        have hne : c ≠ col := fun he => hnotin (he ▸ hc)
        show (a.1.colcounts.set col (a.1.colcounts.getD col 0 - 1)).getD c 0 =
          4 - (((List.range p.n_cubies).filter
            (fun j => hasBit (a.1.colsets.getD j 0) c)).length : Int) +
          (if diff &&& (1 <<< c) = 0 then 0 else 1)
        rw [hgetne c hne]
        exact hpend c (List.mem_cons_of_mem _ hc)
      have hpr2 : ∀ c, c < colorCOUNT → c ≠ col → prunedAt p { a.1 with colcounts := a.1.colcounts.set col (a.1.colcounts.getD col 0 - 1) } c := by
        intro c hc hne hle j hj
        refine hpr c hc ?_ j hj
        rw [show ({ a.1 with colcounts := a.1.colcounts.set col (a.1.colcounts.getD col 0 - 1) } : CubieBuilder).colcounts = a.1.colcounts.set col (a.1.colcounts.getD col 0 - 1) from rfl,
          hgetne c hne] at hle
        exact hle
      split
      · refine rdFold_BWf p diff COLS _ (pruneCol_CWf p _ hcw2 col a.2) hndt hbndt
          ?_ ?_ ?_
        · intro c hc hcnot
          exact pruneCol_syncAt p _ col c a.2 (hdone2 c hc hcnot)
        · intro c hc
          simp only [pruneCol_counts, pruneCol_colsets]
          exact hpend2 c hc
        · intro c hc
          rcases eq_or_ne c col with he | hne
          · rw [he]
            intro hle j hj
            exact pruneCol_establishes p _ hcw2.optsLen col a.2 j hj
          · exact pruneCol_prunedAt p _ hcw2 col c a.2 (hpr2 c hc hne)
      · rename_i hcc
        refine rdFold_BWf p diff COLS _ hcw2 hndt hbndt hdone2 hpend2 ?_
        intro c hc
        rcases eq_or_ne c col with he | hne
        · rw [he]
          intro hle j hj
          refine hpr col hcol6 ?_ j hj
          rw [show ({ a.1 with colcounts := a.1.colcounts.set col (a.1.colcounts.getD col 0 - 1) } : CubieBuilder).colcounts = a.1.colcounts.set col (a.1.colcounts.getD col 0 - 1) from rfl,
            hgetc] at hle
          omega
        · exact hpr2 c hc hne

/-- Registering a slot's colset diff preserves builder well-formedness. -/
theorem regDiffs_BWf (p : Params) (b : CubieBuilder) (hw : BWf p b) (i : Nat)
    (hi : i < p.n_cubies) (ch : Bool) :
    BWf p (CubieBuilder.regDiffs p b i ch).1 := by
  rw [regDiffs_eq_foldl]
  have hreg := hw.regOk i hi
  have hcsl : i < b.colsets.length := by
    rw [hw.colsetsLen]
    exact hi
  have hF1 : b.colsets.getD i 0 |||
      ((b.opts.getD i default).colset ^^^ b.colsets.getD i 0) =
      (b.opts.getD i default).colset :=
    land_or_xor _ _ hreg
  refine rdFold_BWf p _ _ _ ?_ (List.nodup_range _)
    (fun c hc => List.mem_range.mp hc) ?_ ?_ ?_
  · refine ⟨hw.optsLen, ?_, hw.countsLen, hw.slotWf, ?_⟩
    · show (b.colsets.set i _).length = _
      rw [List.length_set]
      exact hw.colsetsLen
    · intro j hj
      show (b.colsets.set i _).getD j 0 &&& _ = (b.colsets.set i _).getD j 0
      rcases eq_or_ne j i with he | hne
      · subst he
        rw [getD_set_self _ _ _ _ hcsl, hF1]
        exact Nat.and_self _
      · rw [getD_set_ne _ _ _ _ _ (fun h => hne h.symm)]
        exact hw.regOk j hj
  · intro c hc hcnot
    exact absurd (List.mem_range.mpr hc) hcnot
  · intro c hc
    have hc6 : c < colorCOUNT := List.mem_range.mp hc
    have hsync := hw.countSync c hc6
    unfold syncAt at hsync
    show b.colcounts.getD c 0 =
      4 - (((List.range p.n_cubies).filter (fun j => hasBit
        ((b.colsets.set i (b.colsets.getD i 0 |||
          ((b.opts.getD i default).colset ^^^ b.colsets.getD i 0))).getD j 0)
        c)).length : Int) +
      (if ((b.opts.getD i default).colset ^^^ b.colsets.getD i 0) &&& (1 <<< c) = 0
        then 0 else 1)
    simp only [hF1]
    have hsame : ∀ j, j ≠ i →
        hasBit ((b.colsets.set i ((b.opts.getD i default).colset)).getD j 0) c =
        hasBit (b.colsets.getD j 0) c := by
      intro j hj
      rw [getD_set_ne _ _ _ _ _ (fun h => hj h.symm)]
    have hpoint := filter_length_point i
      (fun j => hasBit (b.colsets.getD j 0) c)
      (fun j => hasBit ((b.colsets.set i ((b.opts.getD i default).colset)).getD j 0) c)
      (fun j hj => hsame j hj) p.n_cubies hi
    simp only at hpoint
    have hpnew : hasBit ((b.colsets.set i
        ((b.opts.getD i default).colset)).getD i 0) c =
        hasBit ((b.opts.getD i default).colset) c := by
      rw [getD_set_self _ _ _ _ hcsl]
    by_cases hd : ((b.opts.getD i default).colset ^^^ b.colsets.getD i 0) &&&
        (1 <<< c) = 0
    · rw [if_pos hd]
      have hx : ((b.opts.getD i default).colset ^^^ b.colsets.getD i 0).testBit c =
          false := by
        rw [← hasBit_eq_testBit]
        unfold hasBit
        rw [hd]
        rfl
      rw [Nat.testBit_xor] at hx
      have hdb2 : hasBit ((b.opts.getD i default).colset) c =
          hasBit (b.colsets.getD i 0) c := by
        rw [hasBit_eq_testBit, hasBit_eq_testBit]
        cases h1 : (b.opts.getD i default).colset.testBit c <;>
          cases h2 : (b.colsets.getD i 0).testBit c <;> simp_all
      simp only [hpnew, hdb2] at hpoint
      omega
    · rw [if_neg hd]
      have hx : ((b.opts.getD i default).colset ^^^ b.colsets.getD i 0).testBit c =
          true := by
        rw [← hasBit_eq_testBit]
        unfold hasBit
        simpa using hd
      have hbits := land_xor_bit (b.colsets.getD i 0)
        ((b.opts.getD i default).colset) c hreg hx
      simp only [hpnew,
        show hasBit ((b.opts.getD i default).colset) c = true from by
          rw [hasBit_eq_testBit]; exact hbits.2,
        show hasBit (b.colsets.getD i 0) c = false from by
          rw [hasBit_eq_testBit]; exact hbits.1,
        eq_self_iff_true, Bool.false_eq_true, if_true, if_false] at hpoint
      omega
  · intro c hc hle j hj
    exact hw.pruned c hc hle j hj

/-- One slot iteration through the error check, diff registration and the two
deduction assignments preserves well-formedness (error return). -/
theorem slotStep_inl_BWf (p : Params) (b : CubieBuilder) (hw : BWf p b) (i : Nat)
    (ch : Bool) (berr : CubieBuilder)
    (h : CubieBuilder.slotStep p b i ch = Sum.inl berr) : BWf p berr := by
  simp only [CubieBuilder.slotStep] at h
  split at h
  · injection h with h2
    exact h2 ▸ hw
  · exact Sum.noConfusion h

/-- One slot iteration preserves well-formedness (normal return). -/
theorem slotStep_inr_BWf (p : Params) (b : CubieBuilder) (hw : BWf p b) (i : Nat)
    (hi : i < p.n_cubies) (ch : Bool) (s : CubieBuilder × Bool)
    (h : CubieBuilder.slotStep p b i ch = Sum.inr s) : BWf p s.1 := by
  simp only [CubieBuilder.slotStep] at h
  split at h
  · exact Sum.noConfusion h
  · injection h with h2
    rw [← h2]
    exact BWf_assign_cubie p _ (BWf_assign_ori p _ (regDiffs_BWf p b hw i hi ch) i) i

/-- The slot loop of one pass preserves well-formedness on both exits. -/
theorem runSlots_BWf (p : Params) :
    ∀ (L : List Nat) (b : CubieBuilder) (ch : Bool), BWf p b →
      (∀ i ∈ L, i < p.n_cubies) →
      (∀ berr, CubieBuilder.runSlots p L b ch = Sum.inl berr → BWf p berr) ∧
      (∀ s, CubieBuilder.runSlots p L b ch = Sum.inr s → BWf p s.1)
  | [], b, ch, hw, _ => by
    constructor
    · intro berr h
      simp only [CubieBuilder.runSlots] at h
      exact Sum.noConfusion h
    · intro s h
      simp only [CubieBuilder.runSlots] at h
      injection h with h2
      rw [← h2]
      exact hw
  | i :: L, b, ch, hw, hbnd => by
    have hbt : ∀ j ∈ L, j < p.n_cubies := fun j hj => hbnd j (List.mem_cons_of_mem _ hj)
    have hbi : i < p.n_cubies := hbnd i (List.mem_cons_self ..)
    constructor
    · intro berr h
      cases hss : CubieBuilder.slotStep p b i ch with
      | inl be =>
        simp only [CubieBuilder.runSlots, hss] at h
        injection h with h2
        rw [← h2]
        exact slotStep_inl_BWf p b hw i ch be hss
      | inr s =>
        simp only [CubieBuilder.runSlots, hss] at h
        exact (runSlots_BWf p L s.1 s.2 (slotStep_inr_BWf p b hw i hbi ch s hss) hbt).1
          berr h
    · intro s' h
      cases hss : CubieBuilder.slotStep p b i ch with
      | inl be =>
        simp only [CubieBuilder.runSlots, hss] at h
        exact Sum.noConfusion h
      | inr s =>
        simp only [CubieBuilder.runSlots, hss] at h
        exact (runSlots_BWf p L s.1 s.2 (slotStep_inr_BWf p b hw i hbi ch s hss) hbt).2
          s' h

/-- The closing orientation rule preserves well-formedness. -/
theorem oriRule_BWf (p : Params) (b : CubieBuilder) (hw : BWf p b) (ch : Bool) :
    BWf p (CubieBuilder.oriRule p b ch).1 := by
  simp only [CubieBuilder.oriRule]
  split
  · exact BWf_set_reduce p b hw _ _
  · exact hw

/-- The closing parity rule preserves well-formedness. -/
theorem parRule_BWf (p : Params) (b : CubieBuilder) (hw : BWf p b) (ch : Bool) :
    BWf p (CubieBuilder.parRule p b ch).1 := by
  simp only [CubieBuilder.parRule]
  split
  · exact BWf_set_reduce p _ (BWf_set_reduce p b hw _ _) _ _
  · exact hw

/-- One full pass of the propagation loop preserves well-formedness. -/
theorem onePass_BWf (p : Params) (b : CubieBuilder) (hw : BWf p b) :
    (∀ berr, CubieBuilder.onePass p b = Sum.inl berr → BWf p berr) ∧
    (∀ s, CubieBuilder.onePass p b = Sum.inr s → BWf p s.1) := by
  have hrs := runSlots_BWf p (List.range p.n_cubies) b false hw
    (fun j hj => List.mem_range.mp hj)
  constructor
  · intro berr h
    cases hrr : CubieBuilder.runSlots p (List.range p.n_cubies) b false with
    | inl be =>
      simp only [CubieBuilder.onePass, hrr] at h
      injection h with h2
      rw [← h2]
      exact hrs.1 be hrr
    | inr s1 =>
      simp only [CubieBuilder.onePass, hrr] at h
      exact Sum.noConfusion h
  · intro s h
    cases hrr : CubieBuilder.runSlots p (List.range p.n_cubies) b false with
    | inl be =>
      simp only [CubieBuilder.onePass, hrr] at h
      exact Sum.noConfusion h
    | inr s1 =>
      simp only [CubieBuilder.onePass, hrr] at h
      injection h with h2
      rw [← h2]
      exact parRule_BWf p _ (oriRule_BWf p s1.1 (hrs.2 s1 hrr) s1.2) _

/-- `propagate` preserves well-formedness of the returned builder. -/
theorem propagate_BWf (p : Params) :
    ∀ (fuel : Nat) (b : CubieBuilder), BWf p b →
      ∀ r b', CubieBuilder.propagate p fuel b = some (r, b') → BWf p b'
  | 0, b, _, r, b', h => by simp [CubieBuilder.propagate] at h
  | fuel + 1, b, hw, r, b', h => by
    cases hop : CubieBuilder.onePass p b with
    | inl be =>
      simp only [CubieBuilder.propagate, hop] at h
      injection h with h2
      injection h2 with h3 h4
      exact h4 ▸ (onePass_BWf p b hw).1 be hop
    | inr s =>
      simp only [CubieBuilder.propagate, hop] at h
      split at h
      · exact propagate_BWf p fuel s.1 ((onePass_BWf p b hw).2 s hop) r b' h
      · injection h with h2
        injection h2 with h3 h4
        exact h4 ▸ (onePass_BWf p b hw).2 s hop

/-- `getD` on a replicated list inside the bound. -/
theorem getD_replicate {α : Type} (n i : Nat) (a d : α) (h : i < n) :
    (List.replicate n a).getD i d = a := by
  rw [List.getD_eq_getElem?_getD, List.getElem?_replicate]
  simp [h]

/-- The initial corner option set is per-slot well-formed. -/
theorem OWf_init_corners : OWf (Options.init CORNERS 3) := by
  refine ⟨?_, ?_, ?_, Or.inl rfl, Or.inl rfl⟩
  · intro h
    exact absurd h (by decide)
  · intro h
    exact absurd h (by decide)
  · intro first rest h
    have hL : (Options.init CORNERS 3).opts =
        (Options.init CORNERS 3).opts.headD default ::
        (Options.init CORNERS 3).opts.tail := by decide
    rw [hL] at h
    injection h with hf hr
    rw [← hf, ← hr]
    decide

/-- The initial edge option set is per-slot well-formed. -/
theorem OWf_init_edges : OWf (Options.init EDGES 2) := by
  refine ⟨?_, ?_, ?_, Or.inl rfl, Or.inl rfl⟩
  · intro h
    exact absurd h (by decide)
  · intro h
    exact absurd h (by decide)
  · intro first rest h
    have hL : (Options.init EDGES 2).opts =
        (Options.init EDGES 2).opts.headD default ::
        (Options.init EDGES 2).opts.tail := by decide
    rw [hL] at h
    injection h with hf hr
    rw [← hf, ← hr]
    decide

/-- The freshly initialised corner builder is well-formed. -/
theorem BWf_init_corners : BWf cornerParams (CubieBuilder.init cornerParams) := by
  refine ⟨⟨by decide, by decide, by decide, ?_, ?_⟩, ?_, ?_⟩
  · intro i hi
    rw [show (CubieBuilder.init cornerParams).opts =
      List.replicate cornerParams.n_cubies (Options.init CORNERS 3) from rfl,
      getD_replicate _ _ _ _ hi]
    exact OWf_init_corners
  · intro i hi
    rw [show (CubieBuilder.init cornerParams).colsets =
      List.replicate cornerParams.n_cubies 0 from rfl, getD_replicate _ _ _ _ hi]
    exact Nat.zero_and _
  · simp only [syncAt]
    decide
  · simp only [prunedAt]
    decide

/-- The freshly initialised edge builder is well-formed. -/
theorem BWf_init_edges : BWf edgeParams (CubieBuilder.init edgeParams) := by
  refine ⟨⟨by decide, by decide, by decide, ?_, ?_⟩, ?_, ?_⟩
  · intro i hi
    rw [show (CubieBuilder.init edgeParams).opts =
      List.replicate edgeParams.n_cubies (Options.init EDGES 2) from rfl,
      getD_replicate _ _ _ _ hi]
    exact OWf_init_edges
  · intro i hi
    rw [show (CubieBuilder.init edgeParams).colsets =
      List.replicate edgeParams.n_cubies 0 from rfl, getD_replicate _ _ _ _ hi]
    exact Nat.zero_and _
  · simp only [syncAt]
    decide
  · simp only [prunedAt]
    decide

/-- Every state reachable through the public operations is well-formed,
provided the initial state is. -/
theorem Reachable_BWf (p : Params) (hinit : BWf p (CubieBuilder.init p)) :
    ∀ b, Reachable p b → BWf p b := by
  intro b hr
  induction hr with
  | init => exact hinit
  | assign_col b' c pos col hr ih => exact BWf_assign_col p b' ih c pos col
  | assign_par b' v hr ih => exact BWf_assign_par p b' ih v
  | propagate b' b'' fuel r hr hprop ih => exact propagate_BWf p fuel b' ih r b'' hprop

/-- C6 (amended): in every reachable piece-group state the color counter of
each color equals four minus the number of slots whose registered colset
contains the color (so it can go negative, refuting the original `>= 0`
clause), and whenever a counter is zero or below, every slot either has the
color in its certain colset or has no remaining option containing the color. -/
theorem C6_amended_count_and_pruning (p : Params)
    (hp : p = cornerParams ∨ p = edgeParams) (b : CubieBuilder)
    (hr : Reachable p b) :
    (∀ col < colorCOUNT, b.colcounts.getD col 0 =
      4 - (((List.range p.n_cubies).filter
        (fun i => hasBit (b.colsets.getD i 0) col)).length : Int)) ∧
    (∀ col < colorCOUNT, b.colcounts.getD col 0 ≤ 0 → ∀ i < p.n_cubies,
      hasBit (b.opts.getD i default).colset col = true ∨
      (b.opts.getD i default).opts.all (fun opt => !hasBit opt.colset col) = true) := by
  have hw : BWf p b := by
    rcases hp with h | h
    · exact h ▸ Reachable_BWf cornerParams BWf_init_corners b (h ▸ hr)
    · exact h ▸ Reachable_BWf edgeParams BWf_init_edges b (h ▸ hr)
  exact ⟨fun col hcol => hw.countSync col hcol, fun col hcol => hw.pruned col hcol⟩

/-- Witness: the amended C6 invariant instantiated at the freshly initialised
corner group. -/
theorem C6_amended_witness :
    (∀ col < colorCOUNT, (CubieBuilder.init cornerParams).colcounts.getD col 0 =
      4 - (((List.range cornerParams.n_cubies).filter
        (fun i => hasBit ((CubieBuilder.init cornerParams).colsets.getD i 0)
          col)).length : Int)) ∧
    (∀ col < colorCOUNT, (CubieBuilder.init cornerParams).colcounts.getD col 0 ≤ 0 →
      ∀ i < cornerParams.n_cubies,
      hasBit ((CubieBuilder.init cornerParams).opts.getD i default).colset col = true ∨
      ((CubieBuilder.init cornerParams).opts.getD i default).opts.all
        (fun opt => !hasBit opt.colset col) = true) :=
  C6_amended_count_and_pruning cornerParams (Or.inl rfl)
    (CubieBuilder.init cornerParams) Reachable.init

theorem bookEq_rfl (b : CubieBuilder) : bookEq b b :=
  ⟨rfl, rfl, rfl, rfl, rfl, rfl, rfl⟩

theorem bookEq_trans (a b c : CubieBuilder) (h1 : bookEq a b) (h2 : bookEq b c) :
    bookEq a c := by
  obtain ⟨e1, e2, e3, e4, e5, e6, e7⟩ := h1
  obtain ⟨f1, f2, f3, f4, f5, f6, f7⟩ := h2
  exact ⟨f1.trans e1, f2.trans e2, f3.trans e3, f4.trans e4, f5.trans e5,
    f6.trans e6, f7.trans e7⟩

/-- Setting an index to the value already stored there is the identity. -/
theorem set_getD_self {α : Type} : ∀ (l : List α) (i : Nat) (d : α), i < l.length →
    l.set i (l.getD i d) = l
  | [], i, _, h => absurd h (by simp)
  | _ :: _, 0, _, _ => rfl
  | a :: l, i + 1, d, h => by
    show a :: l.set i ((a :: l).getD (i + 1) d) = a :: l
    rw [show (a :: l).getD (i + 1) d = l.getD i d from rfl,
      set_getD_self l i d (by simpa using h)]

/-- A `pcStep` never clears the change flag. -/
theorem pcStep_mono (col : Nat) (a : CubieBuilder × Bool) (i : Nat) (h : a.2 = true) :
    (pcStep col a i).2 = true := by
  unfold pcStep
  split
  · rfl
  · exact h

/-- Folds of `pcStep` never clear the change flag. -/
theorem pcFold_mono (col : Nat) :
    ∀ (L : List Nat) (a : CubieBuilder × Bool), a.2 = true →
      ((L.foldl (pcStep col) a).2) = true
  | [], _, h => h
  | i :: L, a, h => pcFold_mono col L (pcStep col a i) (pcStep_mono col a i h)

/-- If a fold of `pcStep` ends with the change flag clear, nothing fired. -/
theorem pcFold_false (col : Nat) :
    ∀ (L : List Nat) (a : CubieBuilder × Bool),
      ((L.foldl (pcStep col) a).2) = false → L.foldl (pcStep col) a = a
  | [], _, _ => rfl
  | i :: L, a, h => by
    rw [List.foldl_cons] at h ⊢
    rcases pcStep_cases col a i with ⟨he, -⟩ | ⟨he, -⟩
    · rw [he] at h ⊢
      exact pcFold_false col L a h
    · rw [he] at h
      have hm := pcFold_mono col L
        ({ a.1 with opts := a.1.opts.set i ((a.1.opts.getD i default).hasnot_col col) },
         true) rfl
      rw [h] at hm
      exact Bool.noConfusion hm

/-- An `rdStep` never clears the change flag. -/
theorem rdStep_mono (p : Params) (diff : Nat) (a : CubieBuilder × Bool) (col : Nat)
    (h : a.2 = true) : (rdStep p diff a col).2 = true := by
  simp only [rdStep]
  by_cases hd : diff &&& (1 <<< col) = 0
  · rw [if_pos hd]
    exact h
  · rw [if_neg hd]
    by_cases hcc : a.1.colcounts.getD col 0 - 1 = 0
    · rw [if_pos hcc, pruneCol_eq_foldl]
      exact pcFold_mono col _ _ h
    · rw [if_neg hcc]
      exact h

/-- Folds of `rdStep` never clear the change flag. -/
theorem rdFold_mono (p : Params) (diff : Nat) :
    ∀ (COLS : List Nat) (a : CubieBuilder × Bool), a.2 = true →
      ((COLS.foldl (rdStep p diff) a).2) = true
  | [], _, h => h
  | col :: COLS, a, h =>
    rdFold_mono p diff COLS (rdStep p diff a col) (rdStep_mono p diff a col h)

/-- An `rdStep` whose result flag is clear left the option sets untouched. -/
theorem rdStep_opts_of_false (p : Params) (diff : Nat) (a : CubieBuilder × Bool)
    (col : Nat) (h : (rdStep p diff a col).2 = false) :
    (rdStep p diff a col).1.opts = a.1.opts ∧ (rdStep p diff a col).2 = a.2 := by
  by_cases h2 : a.2 = true
  · rw [rdStep_mono p diff a col h2] at h
    exact Bool.noConfusion h
  · have h2f : a.2 = false := by
      cases hv : a.2
      · rfl
      · exact absurd hv h2
    simp only [rdStep] at h ⊢
    by_cases hd : diff &&& (1 <<< col) = 0
    · rw [if_pos hd] at h ⊢
      exact ⟨rfl, rfl⟩
    · rw [if_neg hd] at h ⊢
      by_cases hcc : a.1.colcounts.getD col 0 - 1 = 0
      · rw [if_pos hcc] at h ⊢
        rw [pruneCol_eq_foldl] at h ⊢
        rw [pcFold_false col _ _ h]
        exact ⟨rfl, rfl⟩
      · rw [if_neg hcc] at h ⊢
        exact ⟨rfl, rfl⟩

/-- A fold of `rdStep` whose result flag is clear left the options untouched,
and started with a clear flag. -/
theorem rdFold_opts_of_false (p : Params) (diff : Nat) :
    ∀ (COLS : List Nat) (a : CubieBuilder × Bool),
      ((COLS.foldl (rdStep p diff) a).2) = false →
      ((COLS.foldl (rdStep p diff) a).1.opts = a.1.opts ∧ a.2 = false)
  | [], _, h => ⟨rfl, h⟩
  | col :: COLS, a, h => by
    rw [List.foldl_cons] at h ⊢
    obtain ⟨ho, hf⟩ := rdFold_opts_of_false p diff COLS (rdStep p diff a col) h
    obtain ⟨ho2, hf2⟩ := rdStep_opts_of_false p diff a col hf
    exact ⟨ho.trans ho2, hf2.symm.trans hf⟩

/-- Folds of `rdStep` never touch the registered colsets. -/
theorem rdFold_colsets (p : Params) (diff : Nat) :
    ∀ (COLS : List Nat) (a : CubieBuilder × Bool),
      ((COLS.foldl (rdStep p diff) a).1).colsets = a.1.colsets
  | [], _ => rfl
  | col :: COLS, a => by
    rw [List.foldl_cons]
    refine (rdFold_colsets p diff COLS (rdStep p diff a col)).trans ?_
    simp only [rdStep]
    by_cases hd : diff &&& (1 <<< col) = 0
    · rw [if_pos hd]
    · rw [if_neg hd]
      by_cases hcc : a.1.colcounts.getD col 0 - 1 = 0
      · rw [if_pos hcc]
        exact pruneCol_colsets p _ col a.2
      · rw [if_neg hcc]

/-- A `pcStep` never touches the deduction bookkeeping. -/
theorem pcStep_book (col : Nat) (a : CubieBuilder × Bool) (i : Nat) :
    bookEq a.1 (pcStep col a i).1 := by
  unfold pcStep
  split
  · exact ⟨rfl, rfl, rfl, rfl, rfl, rfl, rfl⟩
  · exact bookEq_rfl a.1

/-- Folds of `pcStep` never touch the deduction bookkeeping. -/
theorem pcFold_book (col : Nat) :
    ∀ (L : List Nat) (a : CubieBuilder × Bool),
      bookEq a.1 ((L.foldl (pcStep col) a).1)
  | [], a => bookEq_rfl a.1
  | i :: L, a =>
    bookEq_trans _ _ _ (pcStep_book col a i) (pcFold_book col L (pcStep col a i))

/-- Folds of `rdStep` never touch the deduction bookkeeping. -/
theorem rdFold_book (p : Params) (diff : Nat) :
    ∀ (COLS : List Nat) (a : CubieBuilder × Bool),
      bookEq a.1 ((COLS.foldl (rdStep p diff) a).1)
  | [], a => bookEq_rfl a.1
  | col :: COLS, a => by
    rw [List.foldl_cons]
    refine bookEq_trans _ _ _ ?_ (rdFold_book p diff COLS (rdStep p diff a col))
    simp only [rdStep]
    by_cases hd : diff &&& (1 <<< col) = 0
    · rw [if_pos hd]
      exact bookEq_rfl a.1
    · rw [if_neg hd]
      by_cases hcc : a.1.colcounts.getD col 0 - 1 = 0
      · rw [if_pos hcc, pruneCol_eq_foldl]
        refine bookEq_trans _ _ _ ?_ (pcFold_book col _ _)
        exact ⟨rfl, rfl, rfl, rfl, rfl, rfl, rfl⟩
      · rw [if_neg hcc]
        exact ⟨rfl, rfl, rfl, rfl, rfl, rfl, rfl⟩

/-- With an empty diff every `rdStep` is the identity. -/
theorem rdFold_zero (p : Params) :
    ∀ (COLS : List Nat) (a : CubieBuilder × Bool),
      COLS.foldl (rdStep p 0) a = a
  | [], _ => rfl
  | col :: COLS, a => by
    rw [List.foldl_cons,
      show rdStep p 0 a col = a from by simp only [rdStep]; rw [if_pos (Nat.zero_and _)]]
    exact rdFold_zero p COLS a

/-- Registering a slot whose colset diff is empty is a complete no-op. -/
theorem regDiffs_noop (p : Params) (b : CubieBuilder) (i : Nat)
    (hlen : i < b.colsets.length)
    (hreg : b.colsets.getD i 0 = (b.opts.getD i default).colset) (ch : Bool) :
    CubieBuilder.regDiffs p b i ch = (b, ch) := by
  rw [regDiffs_eq_foldl, ← hreg, Nat.xor_self, rdFold_zero, Nat.or_zero,
    set_getD_self _ _ _ hlen]

/-- The option-set and bookkeeping footprint of `regDiffs`: the registered
colset of the slot is set, and with a clear result flag the options are
untouched and the incoming flag was clear. -/
theorem regDiffs_facts (p : Params) (b : CubieBuilder) (i : Nat) (ch : Bool) :
    (CubieBuilder.regDiffs p b i ch).1.colsets =
      b.colsets.set i (b.colsets.getD i 0 |||
        ((b.opts.getD i default).colset ^^^ b.colsets.getD i 0)) ∧
    bookEq b (CubieBuilder.regDiffs p b i ch).1 ∧
    ((CubieBuilder.regDiffs p b i ch).2 = false →
      (CubieBuilder.regDiffs p b i ch).1.opts = b.opts ∧ ch = false) := by
  rw [regDiffs_eq_foldl]
  refine ⟨(rdFold_colsets _ _ _ _).trans rfl, rdFold_book _ _ _ _, ?_⟩
  intro hf
  exact rdFold_opts_of_false _ _ _ _ hf

/-- A non-firing `assign_ori` returns the builder unchanged, and its guard
condition held. -/
theorem assign_ori_false (b : CubieBuilder) (i : Nat)
    (h : (CubieBuilder.assign_ori b i).1 = false) :
    (CubieBuilder.assign_ori b i).2 = b ∧
    ((b.opts.getD i default).ori = -1 ∨ b.oris.getD i 0 ≠ -1) := by
  by_cases hc : (b.opts.getD i default).ori = -1 ∨ b.oris.getD i 0 ≠ -1
  · constructor
    · simp only [CubieBuilder.assign_ori, if_pos hc]
    · exact hc
  · exfalso
    simp only [CubieBuilder.assign_ori, if_neg hc] at h
    exact Bool.noConfusion h

/-- A non-firing `assign_cubie` returns the builder unchanged, and its guard
condition held. -/
theorem assign_cubie_false (p : Params) (b : CubieBuilder) (i : Nat)
    (h : (CubieBuilder.assign_cubie p b i).1 = false) :
    (CubieBuilder.assign_cubie p b i).2 = b ∧
    ((b.opts.getD i default).cubie = -1 ∨ b.perm.getD i 0 ≠ -1) := by
  by_cases hc : (b.opts.getD i default).cubie = -1 ∨ b.perm.getD i 0 ≠ -1
  · constructor
    · simp only [CubieBuilder.assign_cubie, if_pos hc]
    · exact hc
  · exfalso
    simp only [CubieBuilder.assign_cubie, if_neg hc] at h
    exact Bool.noConfusion h

/-- A slot iteration that reports no change: the incoming flag was clear, the
slot was not in error, the options and bookkeeping are untouched, only the
slot's registered colset is (re)set, and both assignment guards held. -/
theorem slotStep_false (p : Params) (b b' : CubieBuilder) (i : Nat) (ch : Bool)
    (h : CubieBuilder.slotStep p b i ch = Sum.inr (b', false)) :
    ch = false ∧ (b.opts.getD i default).error = false ∧
    b'.opts = b.opts ∧ bookEq b b' ∧
    b'.colsets = b.colsets.set i (b.colsets.getD i 0 |||
      ((b.opts.getD i default).colset ^^^ b.colsets.getD i 0)) ∧
    ((b.opts.getD i default).ori = -1 ∨ b.oris.getD i 0 ≠ -1) ∧
    ((b.opts.getD i default).cubie = -1 ∨ b.perm.getD i 0 ≠ -1) := by
  simp only [CubieBuilder.slotStep] at h
  split at h
  · exact Sum.noConfusion h
  · rename_i herr
    injection h with h2
    injection h2 with hb hf
    rw [Bool.or_eq_false_iff, Bool.or_eq_false_iff] at hf
    obtain ⟨⟨hf1, hf2⟩, hf3⟩ := hf
    obtain ⟨hcs, hbk, hopt⟩ := regDiffs_facts p b i ch
    obtain ⟨ho1, hchf⟩ := hopt hf1
    obtain ⟨hoeq, hocond⟩ := assign_ori_false (CubieBuilder.regDiffs p b i ch).1 i hf2
    obtain ⟨hceq, hccond⟩ := assign_cubie_false p
      (CubieBuilder.assign_ori (CubieBuilder.regDiffs p b i ch).1 i).2 i hf3
    have hb' : b' = (CubieBuilder.regDiffs p b i ch).1 := by
      rw [← hb, hceq, hoeq]
    rw [ho1] at hocond
    rw [hbk.1] at hocond
    rw [hoeq, ho1] at hccond
    rw [hbk.2.1] at hccond
    refine ⟨hchf, ?_, ?_, ?_, ?_, hocond, hccond⟩
    · cases hv : (b.opts.getD i default).error
      · rfl
      · exact absurd hv herr
    · rw [hb']
      exact ho1
    · rw [hb']
      exact hbk
    · rw [hb']
      exact hcs

/-- A slot iteration on a closed, error-free slot is the identity. -/
theorem slotStep_noop (p : Params) (b : CubieBuilder) (i : Nat) (ch : Bool)
    (hlen : i < b.colsets.length)
    (herr : (b.opts.getD i default).error = false)
    (hreg : b.colsets.getD i 0 = (b.opts.getD i default).colset)
    (hori : (b.opts.getD i default).ori = -1 ∨ b.oris.getD i 0 ≠ -1)
    (hcub : (b.opts.getD i default).cubie = -1 ∨ b.perm.getD i 0 ≠ -1) :
    CubieBuilder.slotStep p b i ch = Sum.inr (b, ch) := by
  have hao : CubieBuilder.assign_ori b i = (false, b) := by
    simp only [CubieBuilder.assign_ori, if_pos hori]
  have hac : CubieBuilder.assign_cubie p b i = (false, b) := by
    simp only [CubieBuilder.assign_cubie, if_pos hcub]
  simp only [CubieBuilder.slotStep, herr, Bool.false_eq_true, if_false,
    regDiffs_noop p b i hlen hreg ch, hao, hac, Bool.or_false]

/-- The slot loop on a closed, error-free builder is the identity. -/
theorem runSlots_noop (p : Params) :
    ∀ (L : List Nat) (b : CubieBuilder) (ch : Bool),
      (∀ i ∈ L, i < b.colsets.length) →
      (∀ i ∈ L, (b.opts.getD i default).error = false ∧
        b.colsets.getD i 0 = (b.opts.getD i default).colset ∧
        ((b.opts.getD i default).ori = -1 ∨ b.oris.getD i 0 ≠ -1) ∧
        ((b.opts.getD i default).cubie = -1 ∨ b.perm.getD i 0 ≠ -1)) →
      CubieBuilder.runSlots p L b ch = Sum.inr (b, ch)
  | [], _, _, _, _ => rfl
  | i :: L, b, ch, hlen, hfacts => by
    obtain ⟨h1, h2, h3, h4⟩ := hfacts i (List.mem_cons_self ..)
    have hss := slotStep_noop p b i ch (hlen i (List.mem_cons_self ..)) h1 h2 h3 h4
    simp only [CubieBuilder.runSlots, hss]
    exact runSlots_noop p L b ch (fun j hj => hlen j (List.mem_cons_of_mem _ hj))
      (fun j hj => hfacts j (List.mem_cons_of_mem _ hj))

/-- A non-firing closing orientation rule: its guard failed. -/
theorem oriRule_false (p : Params) (b : CubieBuilder) (ch : Bool)
    (h : (CubieBuilder.oriRule p b ch).2 = false) :
    (CubieBuilder.oriRule p b ch).1 = b ∧ ch = false ∧ ¬b.aoris = p.n_cubies - 1 := by
  by_cases hc : b.aoris = p.n_cubies - 1
  · exfalso
    simp only [CubieBuilder.oriRule, if_pos hc] at h
    exact Bool.noConfusion h
  · refine ⟨?_, ?_, hc⟩
    · simp only [CubieBuilder.oriRule, if_neg hc]
    · simp only [CubieBuilder.oriRule, if_neg hc] at h
      exact h

/-- A non-firing closing parity rule: its guard failed. -/
theorem parRule_false (p : Params) (b : CubieBuilder) (ch : Bool)
    (h : (CubieBuilder.parRule p b ch).2 = false) :
    (CubieBuilder.parRule p b ch).1 = b ∧ ch = false ∧
    ¬(b.par ≠ -1 ∧ b.aperm = p.n_cubies - 2) := by
  by_cases hc : b.par ≠ -1 ∧ b.aperm = p.n_cubies - 2
  · exfalso
    simp only [CubieBuilder.parRule, if_pos hc] at h
    exact Bool.noConfusion h
  · refine ⟨?_, ?_, hc⟩
    · simp only [CubieBuilder.parRule, if_neg hc]
    · simp only [CubieBuilder.parRule, if_neg hc] at h
      exact h

/-- The closing orientation rule with a failed guard is the identity. -/
theorem oriRule_noop (p : Params) (b : CubieBuilder) (ch : Bool)
    (hc : ¬b.aoris = p.n_cubies - 1) :
    CubieBuilder.oriRule p b ch = (b, ch) := by
  simp only [CubieBuilder.oriRule, if_neg hc]

/-- The closing parity rule with a failed guard is the identity. -/
theorem parRule_noop (p : Params) (b : CubieBuilder) (ch : Bool)
    (hc : ¬(b.par ≠ -1 ∧ b.aperm = p.n_cubies - 2)) :
    CubieBuilder.parRule p b ch = (b, ch) := by
  simp only [CubieBuilder.parRule, if_neg hc]

/-- Analysis of a change-free slot loop run: the incoming flag was clear, the
options and bookkeeping are untouched, colsets outside the index list are
untouched, and every visited slot ended registered and guarded. -/
theorem runSlots_false (p : Params) :
    ∀ (L : List Nat) (b b1 : CubieBuilder) (ch : Bool), BWf p b → L.Nodup →
      (∀ i ∈ L, i < p.n_cubies) →
      CubieBuilder.runSlots p L b ch = Sum.inr (b1, false) →
      ch = false ∧ b1.opts = b.opts ∧ bookEq b b1 ∧
      (∀ j, j ∉ L → b1.colsets.getD j 0 = b.colsets.getD j 0) ∧
      (∀ i ∈ L, b1.colsets.getD i 0 = (b.opts.getD i default).colset ∧
        (b.opts.getD i default).error = false ∧
        ((b.opts.getD i default).ori = -1 ∨ b.oris.getD i 0 ≠ -1) ∧
        ((b.opts.getD i default).cubie = -1 ∨ b.perm.getD i 0 ≠ -1))
  | [], b, b1, ch, _, _, _, h => by
    simp only [CubieBuilder.runSlots] at h
    injection h with h2
    injection h2 with hb hc
    subst hb
    exact ⟨hc, rfl, bookEq_rfl b, fun j _ => rfl, fun i hi => nomatch hi⟩
  | i :: L, b, b1, ch, hw, hnd, hbnd, h => by
    have hbi : i < p.n_cubies := hbnd i (List.mem_cons_self ..)
    have hinL : i ∉ L := (List.nodup_cons.mp hnd).1
    cases hss : CubieBuilder.slotStep p b i ch with
    | inl be =>
      simp only [CubieBuilder.runSlots, hss] at h
      exact Sum.noConfusion h
    | inr s =>
      simp only [CubieBuilder.runSlots, hss] at h
      have hwb' : BWf p s.1 := slotStep_inr_BWf p b hw i hbi ch s hss
      obtain ⟨hch2, hop, hbk, hfr, hfacts⟩ := runSlots_false p L s.1 b1 s.2 hwb'
        (List.nodup_cons.mp hnd).2 (fun j hj => hbnd j (List.mem_cons_of_mem _ hj)) h
      have hss2 : CubieBuilder.slotStep p b i ch = Sum.inr (s.1, false) := by
        rw [hss, ← hch2]
      obtain ⟨hchf, herr, hop1, hbk1, hcs1, hoc, hcc⟩ := slotStep_false p b s.1 i ch hss2
      refine ⟨hchf, hop.trans hop1, bookEq_trans b s.1 b1 hbk1 hbk, ?_, ?_⟩
      · intro j hj
        have hj1 : j ∉ L := fun hx => hj (List.mem_cons_of_mem _ hx)
        have hji : j ≠ i := fun hx => hj (by rw [hx]; exact List.mem_cons_self ..)
        rw [hfr j hj1, hcs1, getD_set_ne _ _ _ _ _ (fun hx => hji hx.symm)]
      · intro k hk
        rcases List.mem_cons.mp hk with he | hmem
        · subst he
          constructor
          · rw [hfr k hinL, hcs1,
              getD_set_self _ _ _ _ (by rw [hw.colsetsLen]; exact hbi)]
            exact land_or_xor _ _ (hw.regOk k hbi)
          · exact ⟨herr, hoc, hcc⟩
        · obtain ⟨hc1, hc2, hc3, hc4⟩ := hfacts k hmem
          rw [hop1] at hc1 hc2 hc3 hc4
          rw [hbk1.1] at hc3
          rw [hbk1.2.1] at hc4
          exact ⟨hc1, hc2, hc3, hc4⟩

/-- Analysis of a change-free full pass: options and bookkeeping untouched,
every slot registered, error-free and guarded, and both closing rules dead. -/
theorem onePass_false (p : Params) (b b1 : CubieBuilder) (hw : BWf p b)
    (h : CubieBuilder.onePass p b = Sum.inr (b1, false)) :
    b1.opts = b.opts ∧ bookEq b b1 ∧
    (∀ i < p.n_cubies, b1.colsets.getD i 0 = (b.opts.getD i default).colset ∧
      (b.opts.getD i default).error = false ∧
      ((b.opts.getD i default).ori = -1 ∨ b.oris.getD i 0 ≠ -1) ∧
      ((b.opts.getD i default).cubie = -1 ∨ b.perm.getD i 0 ≠ -1)) ∧
    ¬b.aoris = p.n_cubies - 1 ∧
    ¬(b.par ≠ -1 ∧ b.aperm = p.n_cubies - 2) := by
  cases hrr : CubieBuilder.runSlots p (List.range p.n_cubies) b false with
  | inl be =>
    simp only [CubieBuilder.onePass, hrr] at h
    exact Sum.noConfusion h
  | inr s1 =>
    simp only [CubieBuilder.onePass, hrr] at h
    injection h with h2
    have hpf : (CubieBuilder.parRule p (CubieBuilder.oriRule p s1.1 s1.2).1
        (CubieBuilder.oriRule p s1.1 s1.2).2).2 = false := by
      have h3 := congrArg Prod.snd h2
      simp only at h3
      exact h3
    obtain ⟨hpeq, hpc2, hpcond⟩ := parRule_false p _ _ hpf
    obtain ⟨hoeq, hoc2, hocond⟩ := oriRule_false p s1.1 s1.2 hpc2
    have hb1 : b1 = s1.1 := by
      have h3 := congrArg Prod.fst h2
      simp only at h3
      rw [hpeq, hoeq] at h3
      exact h3.symm
    have hrr2 : CubieBuilder.runSlots p (List.range p.n_cubies) b false =
        Sum.inr (s1.1, false) := by
      rw [hrr, ← hoc2]
    obtain ⟨-, hop, hbk, -, hfacts⟩ := runSlots_false p (List.range p.n_cubies) b s1.1
      false hw (List.nodup_range _) (fun j hj => List.mem_range.mp hj) hrr2
    rw [hoeq] at hpcond
    subst hb1
    refine ⟨hop, hbk, fun i hi => hfacts i (List.mem_range.mpr hi), ?_, ?_⟩
    · rw [← hbk.2.2.2.2.2.2]
      exact hocond
    · rw [← hbk.2.2.1, ← hbk.2.2.2.2.2.1]
      exact hpcond

/-- A full pass on a closed, error-free builder with dead closing rules is
the identity and reports no change. -/
theorem onePass_noop (p : Params) (b : CubieBuilder) (hw : BWf p b)
    (hfacts : ∀ i < p.n_cubies, (b.opts.getD i default).error = false ∧
      b.colsets.getD i 0 = (b.opts.getD i default).colset ∧
      ((b.opts.getD i default).ori = -1 ∨ b.oris.getD i 0 ≠ -1) ∧
      ((b.opts.getD i default).cubie = -1 ∨ b.perm.getD i 0 ≠ -1))
    (hao : ¬b.aoris = p.n_cubies - 1)
    (hpp : ¬(b.par ≠ -1 ∧ b.aperm = p.n_cubies - 2)) :
    CubieBuilder.onePass p b = Sum.inr (b, false) := by
  have hrs := runSlots_noop p (List.range p.n_cubies) b false
    (fun i hi => by rw [hw.colsetsLen]; exact List.mem_range.mp hi)
    (fun i hi => hfacts i (List.mem_range.mp hi))
  simp only [CubieBuilder.onePass, hrs, oriRule_noop p b false hao,
    parRule_noop p b false hpp]

/-- A successful `propagate` ends on a builder on which one more pass is the
identity with no change reported. -/
theorem propagate_fixed (p : Params) :
    ∀ (fuel : Nat) (b b1 : CubieBuilder), BWf p b →
      CubieBuilder.propagate p fuel b = some (true, b1) →
      CubieBuilder.onePass p b1 = Sum.inr (b1, false)
  | 0, b, b1, _, h => by simp [CubieBuilder.propagate] at h
  | fuel + 1, b, b1, hw, h => by
    cases hop : CubieBuilder.onePass p b with
    | inl be =>
      simp only [CubieBuilder.propagate, hop] at h
      injection h with h2
      injection h2 with h3 h4
      exact Bool.noConfusion h3
    | inr s =>
      simp only [CubieBuilder.propagate, hop] at h
      split at h
      · exact propagate_fixed p fuel s.1 b1 ((onePass_BWf p b hw).2 s hop) h
      · rename_i hs2
        injection h with h2
        injection h2 with h3 h4
        have hs2f : s.2 = false := by
          cases hv : s.2
          · rfl
          · exact absurd hv hs2
        have hop2 : CubieBuilder.onePass p b = Sum.inr (s.1, false) := by
          rw [hop, ← hs2f]
        obtain ⟨hopq, hbk, hfacts, hao, hpp⟩ := onePass_false p b s.1 hw hop2
        have hwb1 : BWf p s.1 := (onePass_BWf p b hw).2 s hop
        rw [← h4]
        apply onePass_noop p s.1 hwb1
        · intro i hi
          obtain ⟨hc1, hc2, hc3, hc4⟩ := hfacts i hi
          refine ⟨?_, ?_, ?_, ?_⟩
          · rw [hopq]
            exact hc2
          · rw [hopq]
            exact hc1
          · rw [hopq, hbk.1]
            exact hc3
          · rw [hopq, hbk.2.1]
            exact hc4
        · rw [hbk.2.2.2.2.2.2]
          exact hao
        · rw [hbk.2.2.1, hbk.2.2.2.2.2.1]
          exact hpp

/-- On a well-formed builder, a second `propagate` after a successful one is a
no-op: same state, same `true` result. -/
theorem propagate_idem (p : Params) (fuel fuel2 : Nat) (b b1 : CubieBuilder)
    (hw : BWf p b) (h : CubieBuilder.propagate p fuel b = some (true, b1)) :
    CubieBuilder.propagate p (fuel2 + 1) b1 = some (true, b1) := by
  have hfix := propagate_fixed p fuel b b1 hw h
  simp only [CubieBuilder.propagate, hfix, Bool.false_eq_true, if_false]

/-- Counterexample to the claim that a second `propagate` is always a no-op:
on `c7state` both calls return `false` yet the second call changes the state
(it registers the pending colset diff of slot 0 and commits its identity). -/
theorem C7_counterexample :
    ((CubieBuilder.propagate cornerParams 50 c7state).bind (fun r1 =>
      (CubieBuilder.propagate cornerParams 50 r1.2).map (fun r2 =>
        (r1.1, r2.1, decide (r2.2 = r1.2))))) = some (false, false, false) := by
  decide

/-- C7 (amended): for a reachable state of either piece group, once
`propagate` succeeds (returns `true`), running it again is a complete no-op:
it returns `true` with the state bit-identical. The original claim fails for
states left behind by the mid-pass error return, where a pending colset diff
survives into the next call. -/
theorem C7_amended_idempotent_on_success (p : Params)
    (hp : p = cornerParams ∨ p = edgeParams) (b : CubieBuilder)
    (hr : Reachable p b) (fuel fuel2 : Nat) (b1 : CubieBuilder)
    (h : CubieBuilder.propagate p fuel b = some (true, b1)) :
    CubieBuilder.propagate p (fuel2 + 1) b1 = some (true, b1) := by
  have hw : BWf p b := by
    rcases hp with he | he
    · exact he ▸ Reachable_BWf cornerParams BWf_init_corners b (he ▸ hr)
    · exact he ▸ Reachable_BWf edgeParams BWf_init_edges b (he ▸ hr)
  exact propagate_idem p fuel fuel2 b b1 hw h

/-- Witness: the amended C7 statement applied to the freshly initialised
corner group, whose first `propagate` succeeds without changing it. -/
theorem C7_amended_witness :
    CubieBuilder.propagate cornerParams (0 + 1) (CubieBuilder.init cornerParams) =
      some (true, CubieBuilder.init cornerParams) :=
  C7_amended_idempotent_on_success cornerParams (Or.inl rfl)
    (CubieBuilder.init cornerParams) Reachable.init 1 0
    (CubieBuilder.init cornerParams) (by decide)


/-- A retrying iteration never touches the live piece-group states it was
handed. -/
theorem retry_keeps_groups (st : MatchState) (f : Nat) (st2 : MatchState)
    (h : retry st f = Sum.inr st2) :
    st2.corners = st.corners ∧ st2.edges = st.edges := by
  simp only [retry] at h
  split at h
  · exact Sum.noConfusion h
  · split at h
    · exact Sum.noConfusion h
    · injection h with h2
      rw [← h2]
      exact ⟨rfl, rfl⟩

/-- C4: on every failure path of one main-loop iteration, the rollback
restores each group that was snapshotted during that step bit-identically to
its pre-snapshot state: the active group on a failed first propagation, and
both groups on a failed corner-side parity-bridge propagation (the edge-side
bridge snapshots only the edge group, which is restored; the corner group is
not snapshotted there, merely swapped with the stale backup). -/
theorem C4_rollback_restores_snapshots (pfuel : Nat) (st : MatchState) (f col : Nat)
    (st' : MatchState) (h : stepPop pfuel st f col = some (Sum.inr st')) :
    ((f % 9) % 2 = 1 → ∀ e2 : CubieBuilder,
      CubieBuilder.propagate edgeParams pfuel
        (st.edges.assign_col (FROM_FACELET.getD f 0).toNat
          (FACELET_TO_POS.getD f 0).toNat col) = some (false, e2) →
      st'.edges = st.edges) ∧
    ((f % 9) % 2 = 1 → ∀ e2 e3 : CubieBuilder,
      CubieBuilder.propagate edgeParams pfuel
        (st.edges.assign_col (FROM_FACELET.getD f 0).toNat
          (FACELET_TO_POS.getD f 0).toNat col) = some (true, e2) →
      (e2.par ≠ -1 ∧ st.corners.par = -1) →
      CubieBuilder.propagate edgeParams pfuel e2 = some (false, e3) →
      st'.edges = st.edges) ∧
    (¬(f % 9) % 2 = 1 → ∀ c2 : CubieBuilder,
      CubieBuilder.propagate cornerParams pfuel
        (st.corners.assign_col (FROM_FACELET.getD f 0).toNat
          (FACELET_TO_POS.getD f 0).toNat col) = some (false, c2) →
      st'.corners = st.corners) ∧
    (¬(f % 9) % 2 = 1 → ∀ c2 e2 : CubieBuilder,
      CubieBuilder.propagate cornerParams pfuel
        (st.corners.assign_col (FROM_FACELET.getD f 0).toNat
          (FACELET_TO_POS.getD f 0).toNat col) = some (true, c2) →
      (c2.par ≠ -1 ∧ st.edges.par = -1) →
      CubieBuilder.propagate edgeParams pfuel (st.edges.assign_par c2.par) =
        some (false, e2) →
      st'.corners = st.corners ∧ st'.edges = st.edges) := by
  refine ⟨?_, ?_, ?_, ?_⟩
  · intro hf e2 hprop
    simp only [stepPop, hprop] at h
    rw [if_pos hf] at h
    simp only [eq_self_iff_true, if_true] at h
    injection h with h2
    exact (retry_keeps_groups _ f st' h2).2
  · intro hf e2 e3 hprop hbr hprop2
    simp only [stepPop, hprop, hprop2] at h
    rw [if_pos hf] at h
    simp only [Bool.true_eq_false, if_false, eq_self_iff_true, if_true] at h
    rw [if_pos hbr] at h
    injection h with h2
    exact (retry_keeps_groups _ f st' h2).2
  · intro hf c2 hprop
    simp only [stepPop, hprop] at h
    rw [if_neg hf] at h
    simp only [eq_self_iff_true, if_true] at h
    injection h with h2
    exact (retry_keeps_groups _ f st' h2).1
  · intro hf c2 e2 hprop hbr hprop2
    simp only [stepPop, hprop, hprop2] at h
    rw [if_neg hf] at h
    simp only [Bool.true_eq_false, if_false, eq_self_iff_true, if_true] at h
    rw [if_pos hbr] at h
    injection h with h2
    refine ⟨?_, ?_⟩
    · exact (retry_keeps_groups _ f st' h2).1
    · exact (retry_keeps_groups _ f st' h2).2

/-- Witness: the C4 rollback guarantee applied to the first failing pop of
the `c9Tbl` run (facelet 9, a corner pop whose propagation reports failure):
the live corner group is bit-identical to its pre-snapshot state. -/
theorem C4_witness : c4Post.corners = c4Pre.corners :=
  (C4_rollback_restores_snapshots 50 c4Pre 9 0 c4Post (by rfl)).2.2.1
    (by decide) c4C2 (by rfl)

theorem sum_range_list {M : Type} [AddCommMonoid M] (n : Nat) (f : Nat → M) :
    ((List.range n).map f).sum = ∑ i ∈ Finset.range n, f i := by
  induction n with
  | zero => simp
  | succ m ih => rw [List.range_succ, List.map_append, List.sum_append,
      Finset.sum_range_succ, ih]; simp

theorem fill2_length (l : List Int) (a b : Nat) (va vb : Int) :
    (fill2 l a b va vb).length = l.length := by
  simp [fill2]

theorem fill2_getD_a (l : List Int) (a b : Nat) (va vb : Int) (hab : a ≠ b)
    (ha : a < l.length) : (fill2 l a b va vb).getD a 0 = va := by
  unfold fill2
  rw [getD_set_ne _ _ _ _ _ (fun h => hab h.symm), getD_set_self]
  exact ha

theorem fill2_getD_b (l : List Int) (a b : Nat) (va vb : Int)
    (hb : b < l.length) : (fill2 l a b va vb).getD b 0 = vb := by
  unfold fill2
  rw [getD_set_self]
  rw [List.length_set]
  exact hb

theorem fill2_getD_other (l : List Int) (a b : Nat) (va vb : Int) (i : Nat)
    (hia : i ≠ a) (hib : i ≠ b) : (fill2 l a b va vb).getD i 0 = l.getD i 0 := by
  unfold fill2
  rw [getD_set_ne _ _ _ _ _ (fun h => hib h.symm),
    getD_set_ne _ _ _ _ _ (fun h => hia h.symm)]

/-- Pointwise decomposition of one inversion indicator of the filled list into
the original indicator plus cross terms at the two holes. -/
theorem fill2_indicator (l : List Int) (a b : Nat) (va vb : Int)
    (hab : a ≠ b) (ha : a < l.length) (hb : b < l.length)
    (hva : 0 ≤ va) (hvb : 0 ≤ vb)
    (hha : l.getD a 0 = -1) (hhb : l.getD b 0 = -1) (i j : Nat) :
    (if i < j ∧ (fill2 l a b va vb).getD i 0 ≠ -1 ∧
        (fill2 l a b va vb).getD j 0 ≠ -1 ∧
        (fill2 l a b va vb).getD j 0 < (fill2 l a b va vb).getD i 0 then 1 else 0) =
    (if i < j ∧ l.getD i 0 ≠ -1 ∧ l.getD j 0 ≠ -1 ∧ l.getD j 0 < l.getD i 0
      then 1 else 0)
    + (if i = a then
        (if a < j ∧ l.getD j 0 ≠ -1 ∧ l.getD j 0 < va then 1 else 0) else 0)
    + (if j = a then
        (if i < a ∧ l.getD i 0 ≠ -1 ∧ va < l.getD i 0 then 1 else 0) else 0)
    + (if i = b then
        (if b < j ∧ l.getD j 0 ≠ -1 ∧ l.getD j 0 < vb then 1 else 0) else 0)
    + (if j = b then
        (if i < b ∧ l.getD i 0 ≠ -1 ∧ vb < l.getD i 0 then 1 else 0) else 0)
    + (if i = a then (if j = b then (if a < b ∧ vb < va then 1 else 0) else 0) else 0)
    + (if i = b then (if j = a then (if b < a ∧ va < vb then 1 else 0) else 0) else 0)
    := by
  have hba : b ≠ a := fun h => hab h.symm
  by_cases hia : i = a
  · simp only [hia]
    by_cases hjb : j = b
    · simp only [hjb]
      rw [fill2_getD_a l _ _ va vb hab ha, fill2_getD_b l _ _ va vb hb]
      simp only [eq_self_iff_true, if_true, hab, hba, if_false]
      split_ifs <;> omega
    · by_cases hja : j = a
      · simp only [hja]
        rw [fill2_getD_a l _ _ va vb hab ha]
        simp only [eq_self_iff_true, if_true, hab, hjb, if_false]
        split_ifs <;> omega
      · rw [fill2_getD_a l _ _ va vb hab ha,
          fill2_getD_other l _ _ va vb j hja hjb]
        simp only [eq_self_iff_true, if_true, hab, hja, hjb, if_false]
        split_ifs <;> omega
  · by_cases hib : i = b
    · simp only [hib]
      by_cases hja : j = a
      · simp only [hja]
        rw [fill2_getD_b l _ _ va vb hb, fill2_getD_a l _ _ va vb hab ha]
        simp only [eq_self_iff_true, if_true, hab, hba, if_false]
        split_ifs <;> omega
      · by_cases hjb : j = b
        · simp only [hjb]
          rw [fill2_getD_b l _ _ va vb hb]
          simp only [eq_self_iff_true, if_true, hba, hja, if_false]
          split_ifs <;> omega
        · rw [fill2_getD_b l _ _ va vb hb,
            fill2_getD_other l _ _ va vb j hja hjb]
          simp only [eq_self_iff_true, if_true, hba, hja, hjb, if_false]
          split_ifs <;> omega
    · by_cases hja : j = a
      · simp only [hja]
        rw [fill2_getD_other l _ _ va vb i hia hib, fill2_getD_a l _ _ va vb hab ha]
        simp only [eq_self_iff_true, if_true, hia, hib, hab, if_false]
        split_ifs <;> omega
      · by_cases hjb : j = b
        · simp only [hjb]
          rw [fill2_getD_other l _ _ va vb i hia hib, fill2_getD_b l _ _ va vb hb]
          simp only [eq_self_iff_true, if_true, hia, hib, hja, if_false]
          split_ifs <;> omega
        · rw [fill2_getD_other l _ _ va vb i hia hib,
            fill2_getD_other l _ _ va vb j hja hjb]
          simp only [hia, hib, hja, hjb, if_false]
          split_ifs <;> omega


/-- Committing the two holes adds exactly the cross inversions at each hole,
plus one inversion between the two new entries when they are out of order. -/
theorem invF_fill2 (l : List Int) (a b : Nat) (va vb : Int)
    (hab : a ≠ b) (ha : a < l.length) (hb : b < l.length)
    (hva : 0 ≤ va) (hvb : 0 ≤ vb)
    (hha : l.getD a 0 = -1) (hhb : l.getD b 0 = -1) :
    invF (fill2 l a b va vb) = invF l + crossAt l a va + crossAt l b vb +
      (if a < b then (if vb < va then 1 else 0) else (if va < vb then 1 else 0)) := by
  have hmema : a ∈ Finset.range l.length := Finset.mem_range.mpr ha
  have hmemb : b ∈ Finset.range l.length := Finset.mem_range.mpr hb
  have hpull : ∀ (g : Nat → Nat) (c : Nat), c ∈ Finset.range l.length →
      (∑ i ∈ Finset.range l.length, ∑ j ∈ Finset.range l.length,
        (if i = c then g j else 0)) = ∑ j ∈ Finset.range l.length, g j := by
    intro g c hc
    have h1 : ∀ i, (∑ j ∈ Finset.range l.length, (if i = c then g j else 0)) =
        (if i = c then (∑ j ∈ Finset.range l.length, g j) else 0) := by
      intro i
      by_cases hi : i = c
      · simp [hi]
      · simp [hi]
    rw [Finset.sum_congr rfl (fun i _ => h1 i)]
    rw [Finset.sum_ite_eq' (Finset.range l.length) c
      (fun _ => ∑ j ∈ Finset.range l.length, g j)]
    rw [if_pos hc]
  have hpullj : ∀ (g : Nat → Nat) (c : Nat), c ∈ Finset.range l.length →
      (∑ i ∈ Finset.range l.length, ∑ j ∈ Finset.range l.length,
        (if j = c then g i else 0)) = ∑ i ∈ Finset.range l.length, g i := by
    intro g c hc
    refine Finset.sum_congr rfl (fun i _ => ?_)
    rw [Finset.sum_ite_eq' (Finset.range l.length) c (fun _ => g i), if_pos hc]
  have hpoint : ∀ (c d : Nat) (v : Nat), c ∈ Finset.range l.length →
      d ∈ Finset.range l.length →
      (∑ i ∈ Finset.range l.length, ∑ j ∈ Finset.range l.length,
        (if i = c then (if j = d then v else 0) else 0)) = v := by
    intro c d v hc hd
    rw [hpull (fun j => if j = d then v else 0) c hc]
    rw [Finset.sum_ite_eq' (Finset.range l.length) d (fun _ => v), if_pos hd]
  unfold invF crossAt
  rw [fill2_length]
  rw [Finset.sum_congr rfl (fun i _ => Finset.sum_congr rfl (fun j _ =>
    fill2_indicator l a b va vb hab ha hb hva hvb hha hhb i j))]
  simp only [Finset.sum_add_distrib]
  rw [hpull (fun j => if a < j ∧ l.getD j 0 ≠ -1 ∧ l.getD j 0 < va then 1 else 0)
    a hmema]
  rw [hpullj (fun i => if i < a ∧ l.getD i 0 ≠ -1 ∧ va < l.getD i 0 then 1 else 0)
    a hmema]
  rw [hpull (fun j => if b < j ∧ l.getD j 0 ≠ -1 ∧ l.getD j 0 < vb then 1 else 0)
    b hmemb]
  rw [hpullj (fun i => if i < b ∧ l.getD i 0 ≠ -1 ∧ vb < l.getD i 0 then 1 else 0)
    b hmemb]
  rw [hpoint a b (if a < b ∧ vb < va then 1 else 0) hmema hmemb]
  rw [hpoint b a (if b < a ∧ va < vb then 1 else 0) hmemb hmema]
  have hcrossA : (∑ j ∈ Finset.range l.length,
      (if a < j ∧ l.getD j 0 ≠ -1 ∧ l.getD j 0 < va then 1 else 0)) +
      (∑ i ∈ Finset.range l.length,
      (if i < a ∧ l.getD i 0 ≠ -1 ∧ va < l.getD i 0 then 1 else 0)) =
      ∑ i ∈ Finset.range l.length,
      (if l.getD i 0 ≠ -1 ∧ (i < a ∧ va < l.getD i 0 ∨ a < i ∧ l.getD i 0 < va)
        then 1 else 0) := by
    rw [← Finset.sum_add_distrib]
    refine Finset.sum_congr rfl (fun k _ => ?_)
    split_ifs <;> omega
  have hcrossB : (∑ j ∈ Finset.range l.length,
      (if b < j ∧ l.getD j 0 ≠ -1 ∧ l.getD j 0 < vb then 1 else 0)) +
      (∑ i ∈ Finset.range l.length,
      (if i < b ∧ l.getD i 0 ≠ -1 ∧ vb < l.getD i 0 then 1 else 0)) =
      ∑ i ∈ Finset.range l.length,
      (if l.getD i 0 ≠ -1 ∧ (i < b ∧ vb < l.getD i 0 ∨ b < i ∧ l.getD i 0 < vb)
        then 1 else 0) := by
    rw [← Finset.sum_add_distrib]
    refine Finset.sum_congr rfl (fun k _ => ?_)
    split_ifs <;> omega
  have hbet : (if a < b ∧ vb < va then 1 else 0) +
      (if b < a ∧ va < vb then 1 else 0) =
      (if a < b then (if vb < va then 1 else 0)
        else (if va < vb then 1 else 0)) := by
    split_ifs <;> omega
  omega

/-- Swapping which missing value goes to which hole changes the cross
inversion total by an even amount. -/
theorem cross_swap_parity (l : List Int) (i1 i2 : Nat) (c1 c2 : Int)
    (h12 : i1 < i2) (hc : c1 < c2)
    (hh1 : l.getD i1 0 = -1) (hh2 : l.getD i2 0 = -1)
    (hvals : ∀ k, k < l.length → l.getD k 0 ≠ -1 →
      l.getD k 0 ≠ c1 ∧ l.getD k 0 ≠ c2) :
    (crossAt l i1 c1 + crossAt l i2 c2) % 2 =
    (crossAt l i1 c2 + crossAt l i2 c1) % 2 := by
  unfold crossAt
  rw [← Finset.sum_add_distrib, ← Finset.sum_add_distrib]
  conv_lhs => rw [Finset.sum_nat_mod]
  conv_rhs => rw [Finset.sum_nat_mod]
  refine congrArg (fun m => m % 2) (Finset.sum_congr rfl (fun k hk => ?_))
  have hk' := Finset.mem_range.mp hk
  by_cases hh : l.getD k 0 = -1
  · simp only [hh]
    simp
  · obtain ⟨hne1, hne2⟩ := hvals k hk' hh
    have hki1 : k ≠ i1 := fun he => hh (he ▸ hh1)
    have hki2 : k ≠ i2 := fun he => hh (he ▸ hh2)
    split_ifs <;> omega

/-- `findIdx` of the `-1` test returns the first hole. -/
theorem findIdx_neg_one : ∀ (l : List Int) (k : Nat), k < l.length →
    (∀ j, j < k → l.getD j 0 ≠ -1) → l.getD k 0 = -1 →
    l.findIdx (fun x => x == (-1 : Int)) = k
  | [], k, h, _, _ => absurd h (by simp)
  | x :: l, 0, _, _, hk => by
    rw [List.findIdx_cons]
    have hx : (x == (-1 : Int)) = true := by
      have : x = -1 := hk
      simp [this]
    simp [hx]
  | x :: l, k + 1, hlen, hpre, hk => by
    rw [List.findIdx_cons]
    have hx : (x == (-1 : Int)) = false := by
      have h0 : x ≠ -1 := hpre 0 (Nat.succ_pos k)
      simp [h0]
    simp only [hx, cond_false]
    rw [findIdx_neg_one l k (by simpa using hlen)
      (fun j hj => hpre (j + 1) (by omega)) hk]

theorem getD_drop_int (l : List Int) (m j : Nat) :
    (l.drop m).getD j 0 = l.getD (m + j) 0 := by
  rw [List.getD_eq_getElem?_getD, List.getD_eq_getElem?_getD, List.getElem?_drop]

/-- Entry-wise characterisation of non-membership. -/
theorem not_mem_of_entries (l : List Int) (v : Int)
    (h : ∀ k, k < l.length → l.getD k 0 ≠ v) : v ∉ l := by
  intro hm
  obtain ⟨k, hk, he⟩ := List.mem_iff_getElem.mp hm
  refine h k hk ?_
  rw [List.getD_eq_getElem?_getD, List.getElem?_eq_getElem hk]
  exact he

/-- `scanFree` finds the smallest missing identity at or above `c`. -/
theorem scanFree_spec (perm : List Int) :
    ∀ (fuel c target : Nat), c ≤ target → target - c < fuel →
      (∀ v, c ≤ v → v < target → (v : Int) ∈ perm) → (target : Int) ∉ perm →
      scanFree perm fuel c = target
  | 0, c, target, hct, hfuel, _, _ => absurd hfuel (by omega)
  | fuel + 1, c, target, hct, hfuel, hmem, hnot => by
    simp only [scanFree]
    by_cases hceq : c = target
    · subst hceq
      rw [if_neg (by simpa using hnot)]
    · have hlt : c < target := by omega
      rw [if_pos (by simpa using hmem c le_rfl hlt)]
      exact scanFree_spec perm fuel (c + 1) target (by omega) (by omega)
        (fun v hv1 hv2 => hmem v (by omega) hv2) hnot

/-- The positional pair-count the code accumulates equals the two cross
inversion totals. -/
theorem code_cross_sum (l : List Int) (n i1 i2 c1 c2 : Nat)
    (hlen : l.length = n) :
    ((List.range n).map (fun i =>
      if l.getD i 0 = -1 then 0
      else ((if i < i1 ∧ l.getD i 0 > (c1 : Int) then 1 else 0) +
            (if i > i1 ∧ l.getD i 0 < (c1 : Int) then 1 else 0) +
            (if i < i2 ∧ l.getD i 0 > (c2 : Int) then 1 else 0) +
            (if i > i2 ∧ l.getD i 0 < (c2 : Int) then 1 else 0)))).sum =
    crossAt l i1 (c1 : Int) + crossAt l i2 (c2 : Int) := by
  subst hlen
  rw [sum_range_list]
  unfold crossAt
  rw [← Finset.sum_add_distrib]
  refine Finset.sum_congr rfl (fun k hk => ?_)
  by_cases hh : l.getD k 0 = -1
  · simp only [hh]
    simp
  · rw [if_neg hh]
    split_ifs <;> omega

/-- C5: with parity known and exactly two identities missing, the closing
parity rule commits the two open slots to the two missing identities in
exactly the pairing whose completed permutation has inversion parity `par`. -/
theorem C5_last_two_by_parity (p : Params) (b : CubieBuilder) (ch : Bool)
    (i1 i2 c1 c2 : Nat)
    (hlen : b.perm.length = p.n_cubies)
    (hpar : b.par = 0 ∨ b.par = 1)
    (haperm : b.aperm = p.n_cubies - 2)
    (hi12 : i1 < i2) (hi2n : i2 < p.n_cubies)
    (hc12 : c1 < c2) (hc2n : c2 < p.n_cubies)
    (hh1 : b.perm.getD i1 0 = -1) (hh2 : b.perm.getD i2 0 = -1)
    (hothers : ∀ j, j < p.n_cubies → j ≠ i1 → j ≠ i2 →
      0 ≤ b.perm.getD j 0 ∧ b.perm.getD j 0 ≠ (c1 : Int) ∧
      b.perm.getD j 0 ≠ (c2 : Int))
    (hmiss : ∀ v : Nat, v < p.n_cubies → v ≠ c1 → v ≠ c2 → (v : Int) ∈ b.perm)
    (hinv : b.invcnt = invF b.perm) :
    ∃ pr : Nat × Nat,
      (pr = (i1, i2) ∨ pr = (i2, i1)) ∧
      CubieBuilder.parRule p b ch =
        ({ b with opts := (b.opts.set pr.1 ((b.opts.getD pr.1 default).is_cubie c1)).set pr.2 (((b.opts.set pr.1 ((b.opts.getD pr.1 default).is_cubie c1)).getD pr.2 default).is_cubie c2) }, true) ∧
      invF (fill2 b.perm pr.1 pr.2 (c1 : Int) (c2 : Int)) % 2 = b.par.toNat ∧
      invF (fill2 b.perm pr.2 pr.1 (c1 : Int) (c2 : Int)) % 2 ≠ b.par.toNat := by
  have hne_entry : ∀ j, j < b.perm.length → b.perm.getD j 0 ≠ -1 →
      b.perm.getD j 0 ≠ (c1 : Int) ∧ b.perm.getD j 0 ≠ (c2 : Int) := by
    intro j hj hne
    by_cases hj1 : j = i1
    · rw [hj1] at hne
      exact absurd hh1 hne
    · by_cases hj2 : j = i2
      · rw [hj2] at hne
        exact absurd hh2 hne
      · exact (hothers j (by omega) hj1 hj2).2
  have hnm : ∀ c : Nat, (∀ j, j < p.n_cubies → j ≠ i1 → j ≠ i2 →
      b.perm.getD j 0 ≠ (c : Int)) → (c : Int) ∉ b.perm := by
    intro c hc
    apply not_mem_of_entries
    intro k hk
    by_cases hk1 : k = i1
    · rw [hk1, hh1]
      omega
    · by_cases hk2 : k = i2
      · rw [hk2, hh2]
        omega
      · exact hc k (by omega) hk1 hk2
  have hnm1 : (c1 : Int) ∉ b.perm :=
    hnm c1 (fun j hj h1 h2 => (hothers j hj h1 h2).2.1)
  have hnm2 : (c2 : Int) ∉ b.perm :=
    hnm c2 (fun j hj h1 h2 => (hothers j hj h1 h2).2.2)
  have hpre1 : ∀ j, j < i1 → b.perm.getD j 0 ≠ -1 := by
    intro j hj he
    have h := (hothers j (by omega) (by omega) (by omega)).1
    rw [he] at h
    omega
  have hfind1 : b.perm.findIdx (fun x => x == (-1 : Int)) = i1 :=
    findIdx_neg_one b.perm i1 (by omega) hpre1 hh1
  have hfind2 : (b.perm.drop (i1 + 1)).findIdx (fun x => x == (-1 : Int)) =
      i2 - (i1 + 1) := by
    apply findIdx_neg_one
    · rw [List.length_drop]
      omega
    · intro j hj
      rw [getD_drop_int]
      intro he
      have h := (hothers (i1 + 1 + j) (by omega) (by omega) (by omega)).1
      rw [he] at h
      omega
    · rw [getD_drop_int, show i1 + 1 + (i2 - (i1 + 1)) = i2 from by omega]
      exact hh2
  have hscan1 : scanFree b.perm (p.n_cubies + 1) 0 = c1 := by
    apply scanFree_spec
    · omega
    · omega
    · intro v hv1 hv2
      exact hmiss v (by omega) (by omega) (by omega)
    · exact hnm1
  have hscan2 : scanFree b.perm (p.n_cubies + 1) (c1 + 1) = c2 := by
    apply scanFree_spec
    · omega
    · omega
    · intro v hv1 hv2
      exact hmiss v (by omega) (by omega) (by omega)
    · exact hnm2
  have hstraight : invF (fill2 b.perm i1 i2 (c1 : Int) (c2 : Int)) =
      invF b.perm + (crossAt b.perm i1 (c1 : Int) + crossAt b.perm i2 (c2 : Int)) := by
    rw [invF_fill2 b.perm i1 i2 _ _ (by omega) (by omega) (by omega) (by omega)
      (by omega) hh1 hh2]
    rw [if_pos hi12]
    rw [if_neg (show ¬((c2 : Int) < (c1 : Int)) from by omega)]
    omega
  have hswap : invF (fill2 b.perm i2 i1 (c1 : Int) (c2 : Int)) =
      invF b.perm + (crossAt b.perm i2 (c1 : Int) + crossAt b.perm i1 (c2 : Int)) + 1 := by
    rw [invF_fill2 b.perm i2 i1 _ _ (by omega) (by omega) (by omega) (by omega)
      (by omega) hh2 hh1]
    rw [if_neg (show ¬(i2 < i1) from by omega)]
    rw [if_pos (show (c1 : Int) < (c2 : Int) from by omega)]
    omega
  have hparity2 := cross_swap_parity b.perm i1 i2 (c1 : Int) (c2 : Int) hi12
    (by omega) hh1 hh2 hne_entry
  have hcond : b.par ≠ -1 ∧ b.aperm = p.n_cubies - 2 := by
    constructor
    · rcases hpar with h | h <;> rw [h] <;> omega
    · exact haperm
  simp only [CubieBuilder.parRule, if_pos hcond]
  rw [hfind1, hfind2]
  rw [show i1 + 1 + (i2 - (i1 + 1)) = i2 from by omega]
  rw [hscan1, hscan2]
  have hIC := code_cross_sum b.perm p.n_cubies i1 i2 c1 c2 hlen
  simp only [hIC]
  by_cases hsel : (((b.invcnt + (crossAt b.perm i1 (c1 : Int) +
      crossAt b.perm i2 (c2 : Int))) % 2 : Nat) : Int) = b.par
  · rw [if_neg (fun hne => hne hsel)]
    refine ⟨(i1, i2), Or.inl rfl, rfl, ?_, ?_⟩
    · rcases hpar with hp | hp <;> rw [hp] at hsel ⊢ <;>
        simp only [Int.toNat_zero, Int.toNat_one] <;> omega
    · rcases hpar with hp | hp <;> rw [hp] at hsel ⊢ <;>
        simp only [Int.toNat_zero, Int.toNat_one] <;> omega
  · rw [if_pos hsel]
    refine ⟨(i2, i1), Or.inr rfl, rfl, ?_, ?_⟩
    · rcases hpar with hp | hp <;> rw [hp] at hsel ⊢ <;>
        simp only [Int.toNat_zero, Int.toNat_one] <;> omega
    · rcases hpar with hp | hp <;> rw [hp] at hsel ⊢ <;>
        simp only [Int.toNat_zero, Int.toNat_one] <;> omega

/-- Witness: the last-two-by-parity statement at the concrete builder `c5b`. -/
theorem C5_witness :
    ∃ pr : Nat × Nat,
      (pr = (0, 2) ∨ pr = (2, 0)) ∧
      CubieBuilder.parRule cornerParams c5b true =
        ({ c5b with opts := (c5b.opts.set pr.1 ((c5b.opts.getD pr.1 default).is_cubie 0)).set pr.2 (((c5b.opts.set pr.1 ((c5b.opts.getD pr.1 default).is_cubie 0)).getD pr.2 default).is_cubie 2) }, true) ∧
      invF (fill2 c5b.perm pr.1 pr.2 ((0 : Nat) : Int) ((2 : Nat) : Int)) % 2 =
        c5b.par.toNat ∧
      invF (fill2 c5b.perm pr.2 pr.1 ((0 : Nat) : Int) ((2 : Nat) : Int)) % 2 ≠
        c5b.par.toNat :=
  C5_last_two_by_parity cornerParams c5b true 0 2 0 2 (by decide) (Or.inr rfl)
    (by decide) (by decide) (by decide) (by decide) (by decide) (by decide)
    (by decide) (by decide) (by decide) (by decide)

end Squid
